import Mathlib

/-!
# Session registry of the Konsole main window (konsole.cpp)

A shallow embedding of the session bookkeeping of `Konsole`: the session list,
the active and previous session pointers, the session/action dictionaries, the
encoding selection, the scrollback policy and the shutdown loop.

Pointers (`Session*`, `KToggleAction*`, `QTextCodec*`, `TerminalDisplay*`) are
natural numbers; the null pointer of a pointer-typed member is `none`.
Widgets that only repaint (titles, icons, schema and keytab menus) are left out;
every member the functions below read or write is a field of `KState`.
-/

namespace Konsole

/-! ## Collaborator types -/

/-- Scrollback variants handed to `Session::setHistory`:
`HistoryTypeNone()`, `HistoryTypeFile()` and `HistoryTypeBuffer(lines)`. -/
inductive HistoryType where
  | none : HistoryType
  | file : HistoryType
  | buffer (lines : Int) : HistoryType
deriving DecidableEq, Repr

/-- The members of a `Session` object that konsole.cpp reads or writes through
its getters and setters. -/
structure Session where
  sessionId : String := ""
  title : String := ""
  masterMode : Bool := false
  connect : Bool := false
  encodingNo : Int := 0
  codec : Nat := 0
  history : HistoryType := HistoryType.none
  addToUtmp : Bool := false
  xonXoff : Bool := false
  views : List Nat := []
  monitorSilenceSeconds : Nat := 10
  closeRequested : Bool := false
deriving DecidableEq, Repr

/-- Entry of `SessionManager::availableSessionTypes()`. -/
structure SessionInfo where
  name : String := ""
  path : String := ""
deriving DecidableEq, Repr

/-- The `SessionManager` collaborator: its own list of sessions, the session
types it offers, and the counters it allocates new sessions from. -/
structure SessionManager where
  sessions : List Nat := []
  availableSessionTypes : List SessionInfo := []
  /-- The default type; `Konsole::newSession()` asserts that it exists. -/
  defaultSessionType : SessionInfo := {}
  nextPtr : Nat := 1
  idCounter : Nat := 1
deriving DecidableEq, Repr

/-- The entries of a `KConfigGroup` that `readProperties` reads; `none` for an
entry that is absent. -/
structure KConfig where
  warnQuit : Option Bool := none
  allowResize : Option Bool := none
  silenceSeconds : Option Nat := none
  addToUtmp : Option Bool := none
  history : Option Int := none
  historyenabled : Option Bool := none
  encodingName : Option String := none
deriving DecidableEq, Repr

/-- A `KSelectAction`: its item texts and the index of the current item. -/
structure KSelectAction where
  items : List String := []
  currentItem : Int := 0
deriving DecidableEq, Repr

/-- The member `KSelectAction::currentText()`: the text of the current item, empty
when no item is current. -/
def KSelectAction.currentText (m : KSelectAction) : String :=
  if 0 ≤ m.currentItem then m.items.getD m.currentItem.toNat "" else ""

/-- The `KCharsets` catalogue (`KGlobal::charsets()`): the descriptive encoding
names, `encodingForName`, and `codecForName`, which returns a codec together
with its `found` flag. -/
structure KCharsets where
  descriptiveEncodingNames : List String := []
  encodingForName : String → String := fun n => n
  codecForName : String → Nat × Bool := fun _ => (0, false)

/-! ## Q3PtrList and Q3PtrDict -/

/-- A `Q3PtrList<Session>`: the items and the index of the current item
(`none` when the list has no current item). -/
structure Q3PtrList where
  items : List Nat := []
  cur : Option Nat := none
deriving DecidableEq, Repr

namespace Q3PtrList

/-- The member `count()`. -/
def count (l : Q3PtrList) : Nat := l.items.length

/-- The members `find(item)` and `findRef(item)` (pointers are compared): the
index of the first occurrence, which becomes the current item; when the item is
absent the list has no current item and the result is -1. -/
def findRef (l : Q3PtrList) (p : Nat) : Q3PtrList × Int :=
  if p ∈ l.items then
    ({ l with cur := some (l.items.indexOf p) }, (l.items.indexOf p : Int))
  else ({ l with cur := none }, -1)

/-- The member `at(index)`: the item at that index, which becomes the current
item; a null pointer, and no change, when the index is out of range. -/
def atIndex (l : Q3PtrList) (i : Int) : Q3PtrList × Option Nat :=
  if 0 ≤ i ∧ i < (l.count : Int) then ({ l with cur := some i.toNat }, l.items[i.toNat]?)
  else (l, none)

/-- The member `append(item)`: the item is added at the end and becomes the
current item. -/
def append (l : Q3PtrList) (p : Nat) : Q3PtrList :=
  { items := l.items ++ [p], cur := some l.items.length }

/-- The member `remove(item)`: the first occurrence is unlinked; the item after
it becomes current, or the new last item when the last one was removed. -/
def remove (l : Q3PtrList) (p : Nat) : Q3PtrList :=
  if p ∈ l.items then
    let i := l.items.indexOf p
    let rest := l.items.erase p
    { items := rest,
      cur := if i < rest.length then some i else if 0 < i then some (i - 1) else none }
  else { l with cur := none }

/-- The member `at()` without argument: the index of the current item, -1 when
the list has no current item. -/
def curIndex (l : Q3PtrList) : Int :=
  match l.cur with
  | some i => (i : Int)
  | none => -1

/-- The member `current()`: the current item, null when there is none. -/
def current (l : Q3PtrList) : Option Nat :=
  match l.cur with
  | some i => l.items[i]?
  | none => none

/-- The member `first()`: the first item becomes the current item; the list has
no current item when it is empty. -/
def first (l : Q3PtrList) : Q3PtrList :=
  { l with cur := if l.items.length = 0 then none else some 0 }

/-- The member `last()`: the last item becomes the current item; the list has no
current item when it is empty. -/
def last (l : Q3PtrList) : Q3PtrList :=
  { l with cur := if l.items.length = 0 then none else some (l.items.length - 1) }

/-- The member `next()`: the item after the current item becomes current; the
list has no current item afterwards when it had none or the current item was the
last one. -/
def next (l : Q3PtrList) : Q3PtrList :=
  { l with cur := match l.cur with
      | some i => if i + 1 < l.items.length then some (i + 1) else none
      | none => none }

/-- The member `prev()`: the item before the current item becomes current; the
list has no current item afterwards when it had none or the current item was the
first one. -/
def prev (l : Q3PtrList) : Q3PtrList :=
  { l with cur := match l.cur with
      | some i => if 0 < i ∧ i < l.items.length then some (i - 1) else none
      | none => none }

/-- The member `remove(uint index)`: the item at the index is unlinked, and the
item after it (or the new last item) becomes current; no change when the index
is out of range. -/
def removeAt (l : Q3PtrList) (i : Nat) : Q3PtrList :=
  if i < l.items.length then
    let rest := l.items.eraseIdx i
    { items := rest,
      cur := if i < rest.length then some i else if 0 < i then some (i - 1) else none }
  else l

/-- The member `insert(uint index, item)`: the item is inserted at the index and
becomes current; the valid range is 0 to `count()`, and there is no change when
the index is out of range. -/
def insert (l : Q3PtrList) (i : Nat) (p : Nat) : Q3PtrList :=
  if i ≤ l.items.length then { items := l.items.take i ++ p :: l.items.drop i, cur := some i }
  else l

end Q3PtrList

/-- A `Q3PtrDict`: key/item pairs, the most recently inserted first. -/
abbrev Q3PtrDict := List (Nat × Nat)

/-- The member `Q3PtrDict::find(key)`: the most recently inserted item with that key. -/
def dictFind (d : Q3PtrDict) (k : Nat) : Option Nat := List.lookup k d

/-- The member `Q3PtrDict::insert(key, item)`. -/
def dictInsert (d : Q3PtrDict) (k v : Nat) : Q3PtrDict := (k, v) :: d

/-- The member `Q3PtrDict::remove(key)`: drops the most recently inserted item with that key. -/
def dictRemove (d : Q3PtrDict) (k : Nat) : Q3PtrDict := d.eraseP (fun e => e.1 == k)

/-- The value of a C++ `int` after its conversion to `uint` (32 bits). -/
def toUInt (i : Int) : Nat := (i % 4294967296).toNat

/-! ## History search collaborators -/

/-- The calls `slotFind` makes on the emulation of a session, and the message
boxes it shows, in the order in which they happen. -/
inductive SearchEvent where
  /-- The call `findTextBegin()` on the emulation of the session. -/
  | findTextBegin (session : Nat) : SearchEvent
  /-- The call `findTextNext(pattern, forward, caseSensitive, regExp)`. -/
  | findTextNext (session : Nat) (pattern : String) (forward caseSensitive regExp : Bool) :
      SearchEvent
  /-- The question `End of history reached. Continue from the beginning?` (for true)
  or `Beginning of history reached. Continue from the end?` (for false). -/
  | askWrap (endReached : Bool) : SearchEvent
  /-- The information `Search string '%1' not found.`. -/
  | notFound (pattern : String) : SearchEvent
deriving DecidableEq, Repr

/-- The `KFindDialog` behind `m_finddialog`: its pattern and the options the
window reads. -/
structure KFindDialog where
  pattern : String := ""
  findBackwards : Bool := false
  caseSensitive : Bool := false
  regularExpression : Bool := false
  shown : Bool := false
deriving DecidableEq, Repr

/-- The surroundings of a search: what `findTextNext` returns and what the user
answers to a wrap question, each as a function of the events so far. -/
structure SearchEnv where
  findTextNext : List SearchEvent → Bool
  wrapAnswer : List SearchEvent → Bool

/-- What a `HistoryTypeDialog` reports: whether `exec()` was accepted, `isOn()`
and `nbLines()`. -/
structure HistoryTypeDialog where
  accepted : Bool := false
  isOn : Bool := false
  nbLines : Int := 0
deriving DecidableEq, Repr

/-- The buttons a `KMessageBox` can report (`KMessageBox::ButtonCode`). -/
inductive ButtonCode where
  | Ok : ButtonCode
  | Cancel : ButtonCode
  | Yes : ButtonCode
  | No : ButtonCode
  | Continue : ButtonCode
deriving DecidableEq, Repr

/-- A call `te->emitText(text)`: the display, the text, and the master flag the
active session has while the text is emitted. -/
structure EmitEvent where
  display : Nat
  text : String
  master : Bool
deriving DecidableEq, Repr

/-! ## The window state -/

/-- The members of `Konsole` (and the objects they point to) that the embedded
functions use. -/
structure KState where
  /-- The session objects, by pointer; `none` for a pointer that is not a live session. -/
  objs : Nat → Option Session := fun _ => none
  sessions : Q3PtrList := {}
  se : Option Nat := none
  se_previous : Option Nat := none
  session2action : Q3PtrDict := []
  action2session : Q3PtrDict := []
  /-- Pointer handed out by the next `new KToggleAction`. -/
  nextAction : Nat := 1
  /-- The checked action of the exclusive group `m_sessionGroup`. -/
  checkedAction : Option Nat := none
  /-- Actions of the menu `m_view`, in menu order. -/
  viewActions : List Nat := []
  /-- Enabled state of the action `m_detachSession`. -/
  detachEnabled : Bool := false
  /-- Checked state of the toggle action `masterMode`. -/
  masterModeChecked : Bool := false
  m_menuCreated : Bool := false
  /-- Whether the options menu `m_options` exists. -/
  hasOptions : Bool := true
  selectSetEncoding : Option KSelectAction := none
  /-- Key press connections made by the window: from the view of the first
  session to the emulation of the second. -/
  keyConnections : List (Nat × Nat) := []
  closing : Bool := false
  /-- Number of calls of `close()` on the window. -/
  closeCalls : Nat := 0
  /-- Number of pending `QTimer::singleShot(1, this, SLOT(activateSession()))`. -/
  pendingActivate : Nat := 0
  b_histEnabled : Bool := true
  /-- The constant `DEFAULT_HISTORY_SIZE`. -/
  defaultHistorySize : Int := 1000
  m_histSize : Int := 1000
  b_addToUtmp : Bool := true
  b_warnQuit : Bool := false
  b_allowResize : Bool := true
  monitorSilenceSeconds : Nat := 10
  /-- The configuration `KGlobal::config()`. -/
  globalConfig : KConfig := {}
  s_encodingName : String := ""
  /-- The view containers of the splitter `_view`. -/
  containers : List Nat := [0]
  activeContainer : Nat := 0
  /-- Pointer handed out by the next `new TerminalDisplay`. -/
  nextDisplay : Nat := 1
  /-- Active view of each container that has one. -/
  activeViews : List (Nat × Nat) := []
  te : Option Nat := none
  charsets : KCharsets := {}
  /-- The codec `QTextCodec::codecForLocale()`. -/
  codecForLocale : Nat := 0
  /-- The rendering `i18nc("abbreviation of number", "%1 No. %2", title, count)`. -/
  i18ncNo : String → Nat → String := fun t k => t ++ " No. " ++ toString k
  manager : SessionManager := {}
  m_find_first : Bool := false
  m_find_found : Bool := false
  m_find_pattern : String := ""
  m_finddialog : Option KFindDialog := none
  /-- The search calls and message boxes so far, oldest first. -/
  searchLog : List SearchEvent := []
  /-- Number of confirmation questions `slotToggleMasterMode` has asked. -/
  masterModeQuestions : Nat := 0
  /-- Number of confirmation questions `queryClose` has asked. -/
  closeQuestions : Nat := 0
  b_fixedSize : Bool := false
  /-- The value of `defaultSize.isEmpty()`. -/
  defaultSizeEmpty : Bool := true
  /-- Columns and lines of each terminal display. -/
  displaySize : Nat → Int × Int := fun _ => (80, 24)
  /-- The displays whose size was set with `setFixedSize`. -/
  displayFixed : Nat → Bool := fun _ => false
  /-- Number of calls of `resize` on the window. -/
  windowResizes : Nat := 0
  /-- The calls of `setColLin`, with the columns and lines passed, oldest first. -/
  sizeRequests : List (Int × Int) := []
  /-- The calls of `emitText` on terminal displays, oldest first. -/
  emitLog : List EmitEvent := []
  /-- Pointer handed out by the next `new TabbedViewContainer`. -/
  nextContainer : Nat := 1
  /-- The calls `container->addView(display, item)`, as pairs of container and
  display, oldest first. -/
  containerViews : List (Nat × Nat) := []

/-- The session object behind a pointer (a default object for a dangling pointer). -/
def getSession (st : KState) (p : Nat) : Session := (st.objs p).getD {}

/-- Apply a setter to the session object behind a pointer. -/
def updSession (st : KState) (p : Nat) (f : Session → Session) : KState :=
  { st with objs := fun q => if q = p then (st.objs q).map f else st.objs q }

/-- The statement `delete s` for a session. -/
def deleteSession (st : KState) (p : Nat) : KState :=
  { st with objs := fun q => if q = p then none else st.objs q }

/-! ## Activation -/

/-- First block of `Konsole::activateSession(Session *s)`:
`if (se) { notifySessionState(se,NOTIFYNORMAL); if (sessions.find(se) == -1) { delete se; se = 0; } }`.
The function `notifySessionState` has an empty body. -/
def dropStaleActive (st : KState) : KState :=
  match st.se with
  | none => st
  | some a =>
    let r := st.sessions.findRef a
    if r.2 = -1 then { deleteSession st a with sessions := r.1, se := none }
    else { st with sessions := r.1 }

/-- Second block of `Konsole::activateSession(Session *s)`:
`if (se != s) se_previous = se; se = s;`. -/
def selectActive (st : KState) (s : Nat) : KState :=
  { st with
    se_previous := if st.se ≠ some s then st.se else st.se_previous
    se := some s }

/-- Last block of `Konsole::activateSession(Session *s)`, after
`if (!m_menuCreated) return;`: the menu entries take the values of the session. -/
def syncSessionMenus (st : KState) (s : Nat) : KState :=
  if !st.m_menuCreated then st
  else
    { st with
      -- if (selectSetEncoding) selectSetEncoding->setCurrentItem(se->encodingNo());
      selectSetEncoding := st.selectSetEncoding.map
        (fun m => { m with currentItem := (getSession st s).encodingNo })
      -- se->getEmulation()->findTextBegin();
      searchLog := st.searchLog ++ [SearchEvent.findTextBegin s]
      -- masterMode->setChecked( se->isMasterMode() );
      masterModeChecked := (getSession st s).masterMode
      -- sessions.find(se);
      sessions := (st.sessions.findRef s).1 }

/-- `Konsole::activateSession(Session *s)`. After the second block the function
calls `notifySize(te->Columns(), te->Lines())`, which dereferences `te`: with a
null `te` the source faults there, and the embedding stops at that statement,
before `s->setConnect(true)` and the menu entries. `updateSchemaMenu`,
`notifySize`, `updateTitle`, `updateKeytabMenu` and the history and monitor menu
entries only repaint. The statements `se->setConnect(false)` and
`se->setListenToKeyPress(true)` of the first block are commented out in the
source. -/
def activateSession (st : KState) (s : Nat) : KState :=
  let st1 := selectActive (dropStaleActive st) s
  -- notifySize(te->Columns(), te->Lines());
  match st1.te with
  | none => st1
  | some _ =>
    -- s->setConnect(true);
    let st2 := updSession st1 s (fun o => { o with connect := true })
    syncSessionMenus st2 s

/-- The slot `Konsole::activateSession()`: activates the session of the first
entry of `action2session` whose action is checked. The actions form an exclusive
group, so that at most one action is checked. -/
def activateSessionChecked (st : KState) : KState :=
  match st.action2session.find? (fun e => some e.1 == st.checkedAction) with
  | none => st
  | some e => activateSession st e.2

/-- The call `ra->setChecked(true)` on a session action. The actions belong to
the exclusive group `m_sessionGroup`, and `addSession` connects their
`toggled(bool)` signal to the slot `activateSession()`, which therefore runs when
the checked state changes. The group also unchecks the action that was checked
before, whose signal runs the slot once more for the same session; that second
run is left out. -/
def setActionChecked (st : KState) (ra : Nat) : KState :=
  if st.checkedAction = some ra then st
  else activateSessionChecked { st with checkedAction := some ra }

/-! ## Master mode -/

/-- `Konsole::disableMasterModeConnections()`: the body holds no statement. -/
def disableMasterModeConnections (st : KState) : KState := st

/-- `Konsole::enableMasterModeConnections()`: the body holds no statement. -/
def enableMasterModeConnections (st : KState) : KState := st

/-- `Konsole::setMasterMode(bool _state, Session* _se)`; a null `_se` stands for
the active session. -/
def setMasterMode (st : KState) (state : Bool) (target : Option Nat) : KState :=
  -- if (!_se) _se = se;
  match (match target with | some p => some p | none => st.se) with
  | none => st
  | some p =>
    -- if (_se->isMasterMode() == _state) return;
    if (getSession st p).masterMode = state then st
    else
      -- if (_se==se) masterMode->setChecked( _state );
      let st1 : KState := if st.se = some p then { st with masterModeChecked := state } else st
      let st2 := disableMasterModeConnections st1
      -- _se->setMasterMode( _state );
      let st3 := updSession st2 p (fun o => { o with masterMode := state })
      -- if (_state) enableMasterModeConnections();
      if state then enableMasterModeConnections st3 else st3

/-- Modelled from the spec: the delivery of a key press, which konsole.cpp leaves
to `Session::addView` and the signal connections. A key press of the view of
session `src` reaches the emulation of `src` itself once (the source is always
included once) and the emulation of `dst` once more for every connection the
window has made from the view of `src` to the emulation of `dst`. -/
def keyPressDeliveries (st : KState) (src dst : Nat) : Nat :=
  (if src = dst then 1 else 0) + st.keyConnections.count (src, dst)

/-! ## Encoding -/

/-- Search of `QString::indexOf` from a position: the first position at which the
needle occurs, -1 when it occurs nowhere. -/
def indexOfFrom (needle : List Char) : List Char → Nat → Int
  | [], pos => if needle.isPrefixOf [] then (pos : Int) else -1
  | c :: cs, pos =>
    if needle.isPrefixOf (c :: cs) then (pos : Int) else indexOfFrom needle cs (pos + 1)

/-- `QString::indexOf(str)`. -/
def qIndexOf (s str : String) : Int := indexOfFrom str.toList s.toList 0

/-- `Konsole::setSessionEncoding(const QString &encoding, Session *session)`; a
null `session` stands for the active session. -/
def setSessionEncoding (st : KState) (encoding : String) (session : Option Nat) : KState :=
  -- if ( encoding.isEmpty() ) return;
  if encoding.isEmpty then st
  else
    -- if ( !session ) session = se;
    match (match session with | some p => some p | none => st.se) with
    | none => st
    | some p =>
      let items := st.charsets.descriptiveEncodingNames
      let t_enc := encoding ++ " "
      -- the for loop stops at the first item with indexOf( t_enc ) != -1
      let i := items.findIdx (fun it => qIndexOf it t_enc != -1)
      -- if (i >= items.count()) return;
      if i ≥ items.length then st
      else
        let enc := st.charsets.encodingForName (items.getD i "")
        let r := st.charsets.codecForName enc
        -- if ( !found ) return;
        if !r.2 then st
        else
          let st1 := updSession st p (fun o => { o with encodingNo := (i : Int) + 1 })
          let st2 := updSession st1 p (fun o => { o with codec := r.1 })
          -- if (se == session) activateSession(se);
          if st2.se = some p then activateSession st2 p else st2

/-- `Konsole::slotSetEncoding()`, the slot of the encoding menu. -/
def slotSetEncoding (st : KState) : KState :=
  -- if (!se) return;
  match st.se, st.selectSetEncoding with
  | none, _ => st
  | some _, none => st
  | some a, some menu =>
    let qtc : Nat :=
      if menu.currentItem = 0 then st.codecForLocale
      else
        let enc := st.charsets.encodingForName menu.currentText
        let r := st.charsets.codecForName enc
        -- if(!found) { kWarning() ...; qtc = QTextCodec::codecForLocale(); }
        if !r.2 then st.codecForLocale else r.1
    let st1 := updSession st a (fun o => { o with encodingNo := menu.currentItem })
    updSession st1 a (fun o => { o with codec := qtc })

/-- The part of `Konsole::makeGUI()` that the embedding uses: the menus are
created once, and the encoding menu lists `Default` before the descriptive names.
The other menu entries, among them the action of the active session that the
function adds to `m_view`, and the call of `applySettingsToGUI` at its end are
left out. -/
def makeGUI (st : KState) : KState :=
  if st.m_menuCreated then st
  else
    let st1 : KState := { st with m_menuCreated := true }
    let menu : KSelectAction :=
      { items := "Default" :: st1.charsets.descriptiveEncodingNames, currentItem := 0 }
    if st1.hasOptions then { st1 with selectSetEncoding := some menu } else st1

/-! ## Configuration and views -/

/-- `Konsole::applySettingsToGUI()`: of the menu items it sets, the encoding
selection is the one kept here. -/
def applySettingsToGUI (st : KState) : KState :=
  -- if (!m_menuCreated) return;
  if !st.m_menuCreated then st
  else if st.hasOptions then
    -- selectSetEncoding->setCurrentItem( se->encodingNo() );
    match st.se with
    | none => st
    | some a =>
      let no := (getSession st a).encodingNo
      { st with selectSetEncoding := st.selectSetEncoding.map (fun m => { m with currentItem := no }) }
  else st

/-- `Konsole::readProperties(config, schema, globalConfigOnly, readGlobalConfig)`.
The entries that configure the terminal widgets, the key table, the tab bar and
the colour schema are left out. -/
def readProperties (st : KState) (config : KConfig)
    (globalConfigOnly readGlobalConfig : Bool) : KState :=
  let st1 : KState :=
    if readGlobalConfig then
      let secs := config.silenceSeconds.getD 10
      { st with
        b_warnQuit := config.warnQuit.getD true
        b_allowResize := config.allowResize.getD false
        monitorSilenceSeconds := secs
        -- for (ses = sessions.first(); ses; ses = sessions.next())
        --   ses->setMonitorSilenceSeconds(monitorSilenceSeconds);
        objs := fun q =>
          if q ∈ st.sessions.items then
            (st.objs q).map (fun o => { o with monitorSilenceSeconds := secs })
          else st.objs q
        sessions := { st.sessions with cur := none }
        b_addToUtmp := config.addToUtmp.getD true }
    else st
  let st2 : KState :=
    if !globalConfigOnly then
      { st1 with
        m_histSize := config.history.getD st1.defaultHistorySize
        b_histEnabled := config.historyenabled.getD true
        s_encodingName := (config.encodingName.getD "").toLower }
    else st1
  -- if (m_menuCreated) { applySettingsToGUI(); activateSession(); }
  if st2.m_menuCreated then activateSessionChecked (applySettingsToGUI st2) else st2

/-- `Konsole::createSessionView()`: a new display; the call
`readProperties(KGlobal::config(), "", true)` leaves `readGlobalConfig` at the
default of the declaration, false (the constructor passes true explicitly). -/
def createSessionView (st : KState) : KState × Nat :=
  let display := st.nextDisplay
  let st1 : KState := { st with nextDisplay := display + 1 }
  (readProperties st1 st1.globalConfig true false, display)

/-- Body of the loop of `Konsole::createViews(Session* session)`, for one container. -/
def createViewIn (st : KState) (session container : Nat) : KState :=
  -- TerminalDisplay* display = createSessionView();
  let r := createSessionView st
  -- container->addView(display,item);
  -- if ( container == activeContainer ) container->setActiveView(display);
  let st1 : KState :=
    if container = r.1.activeContainer then
      { r.1 with
        containerViews := r.1.containerViews ++ [(container, r.2)]
        activeViews := (container, r.2) :: r.1.activeViews }
    else { r.1 with containerViews := r.1.containerViews ++ [(container, r.2)] }
  -- session->addView( display );
  updSession st1 session (fun o => { o with views := o.views ++ [r.2] })

/-- `Konsole::createViews(Session* session)`: one new display per container. -/
def createViews (st : KState) (session : Nat) : KState :=
  st.containers.foldl (fun acc container => createViewIn acc session container) st

/-! ## Creating sessions -/

/-- The titles of the sessions of the list, in list order. -/
def sessionTitles (st : KState) : List String :=
  st.sessions.items.map (fun p => (getSession st p).title)

/-- The do/while loop of `Konsole::addSession`: `count` and `newTitle` are the
loop variables, `render count` is `i18nc("%1 No. %2", s->title(), count)`. Each
unit of fuel pays for one iteration; `none` when the fuel runs out. -/
def uniqueTitleLoop (titles : List String) (render : Nat → String) :
    Nat → Nat → String → Option String
  | 0, _, _ => none
  | fuel + 1, count, newTitle =>
    if newTitle ∈ titles then uniqueTitleLoop titles render fuel (count + 1) (render (count + 1))
    else some newTitle

/-- The statements of `Konsole::addSession(Session* s)` after its title loop,
from `s->setTitle(newTitle)` on. -/
def registerSession (st : KState) (s : Nat) (newTitle : String) : KState :=
  -- s->setTitle(newTitle);
  let st1 := updSession st s (fun o => { o with title := newTitle })
  -- KToggleAction *ra = new KToggleAction(...);
  let ra := st1.nextAction
  -- action2session.insert(ra, s); session2action.insert(s,ra); sessions.append(s);
  let st2 : KState := { st1 with
    nextAction := ra + 1
    action2session := dictInsert st1.action2session ra s
    session2action := dictInsert st1.session2action s ra
    sessions := st1.sessions.append s }
  -- if (sessions.count()>1) { if (!m_menuCreated) makeGUI(); m_detachSession->setEnabled(true); }
  let st3 : KState :=
    if st2.sessions.count > 1 then
      { (if !st2.m_menuCreated then makeGUI st2 else st2) with detachEnabled := true }
    else st2
  -- if ( m_menuCreated ) m_view->addAction( ra );
  let st4 : KState :=
    if st3.m_menuCreated then { st3 with viewActions := st3.viewActions ++ [ra] } else st3
  enableMasterModeConnections (disableMasterModeConnections st4)

/-- `Konsole::addSession(Session* s)`: the title loop, then the registration.
The iteration of the title loop moves the current item of the list, which
`append` then sets to the new item. -/
def addSession (fuel : Nat) (st : KState) (s : Nat) : Option KState :=
  let title := (getSession st s).title
  (uniqueTitleLoop (sessionTitles st) (st.i18ncNo title) fuel 1 title).map
    (fun newTitle => registerSession st s newTitle)

/-- `Konsole::runSession(Session* s)`; the single-shot timer that starts the
session's program is outside the window state. -/
def runSession (st : KState) (s : Nat) : KState :=
  -- KToggleAction *ra = session2action.find(s); ra->setChecked(true);
  let st1 : KState := match dictFind st.session2action s with
    | none => st
    | some ra => setActionChecked st ra
  activateSession st1 s

/-- Modelled from the spec: the title `SessionManager::createSession(path)` gives
a new session, the name of the template with that path (of the default template
when no template has the path). -/
def templateTitle (m : SessionManager) (path : String) : String :=
  match m.availableSessionTypes.find? (fun i => i.path == path) with
  | some i => i.name
  | none => m.defaultSessionType.name

/-- Modelled from the spec: `SessionManager::createSession(path)`, which is not
in konsole.cpp. The registry creates a session with a new identity: the id is a
short monotonically increasing string (the decimal counter), the title is the
name of the template, and the session joins the manager's list. -/
def createSession (st : KState) (path : String) : KState × Nat :=
  let p := st.manager.nextPtr
  let o : Session :=
    { sessionId := toString st.manager.idCounter, title := templateTitle st.manager path }
  ({ st with
      objs := fun q => if q = p then some o else st.objs q
      manager := { st.manager with
        sessions := st.manager.sessions ++ [p]
        nextPtr := p + 1
        idCounter := st.manager.idCounter + 1 } }, p)

/-- The scrollback `Konsole::newSession(SessionInfo*)` chooses from
`b_histEnabled` and `m_histSize`. -/
def newSessionHistory (b_histEnabled : Bool) (m_histSize : Int) : HistoryType :=
  -- if (b_histEnabled && m_histSize) session->setHistory(HistoryTypeBuffer(m_histSize));
  if b_histEnabled && m_histSize != 0 then HistoryType.buffer m_histSize
  -- else if (b_histEnabled && !m_histSize) session->setHistory(HistoryTypeFile());
  else if b_histEnabled && !(m_histSize != 0) then HistoryType.file
  -- else session->setHistory(HistoryTypeNone());
  else HistoryType.none

/-- First part of `Konsole::newSession(SessionInfo* type)`: the session is
created and receives the utmp and flow control flags, the encoding and the
scrollback. -/
def configureNewSession (st : KState) (type : SessionInfo) : KState × Nat :=
  -- Session* session = sessionManager()->createSession( type->path() );
  let r := createSession st type.path
  let session := r.2
  -- session->setAddToUtmp(b_addToUtmp); session->setXonXoff(true);
  let st1 := updSession r.1 session (fun o => { o with addToUtmp := r.1.b_addToUtmp })
  let st2 := updSession st1 session (fun o => { o with xonXoff := true })
  -- setSessionEncoding( s_encodingName, session );
  let st3 := setSessionEncoding st2 st2.s_encodingName (some session)
  (updSession st3 session
    (fun o => { o with history := newSessionHistory st3.b_histEnabled st3.m_histSize }), session)

/-- `Konsole::newSession(SessionInfo* type)`: the new state and the new session.
The colour schema, the keyboard setup and the signal connections of the session
to the window are outside the window state. -/
def newSessionInfo (fuel : Nat) (st : KState) (type : SessionInfo) : Option (KState × Nat) :=
  let r := configureNewSession st type
  let session := r.2
  -- createViews( session );
  let st5 := createViews r.1 session
  -- te = session->primaryView();
  let st6 : KState := { st5 with te := (getSession st5 session).views.head? }
  -- addSession(session); runSession(session);
  (addSession fuel st6 session).map (fun st7 => (runSession st7 session, session))

/-- The state in which `newSession(SessionInfo*)` calls `setSessionEncoding`. -/
def beforeEncoding (st : KState) (type : SessionInfo) : KState :=
  updSession
    (updSession (createSession st type.path).1 st.manager.nextPtr
      (fun o => { o with addToUtmp := (createSession st type.path).1.b_addToUtmp }))
    st.manager.nextPtr (fun o => { o with xonXoff := true })

/-- The state in which `newSession(SessionInfo*)` calls `addSession`. -/
def beforeAddSession (st : KState) (type : SessionInfo) : KState :=
  { createViews (configureNewSession st type).1 st.manager.nextPtr with
    te := (getSession (createViews (configureNewSession st type).1 st.manager.nextPtr)
      st.manager.nextPtr).views.head? }

/-- `Konsole::newSession()`: a session of the default type. -/
def newSessionDefault (fuel : Nat) (st : KState) : Option (KState × String) :=
  (newSessionInfo fuel st st.manager.defaultSessionType).map
    (fun r => (r.1, "/Sessions/" ++ (getSession r.1 r.2).sessionId))

/-- `Konsole::newSession(const QString &type)`. -/
def newSession (fuel : Nat) (st : KState) (type : String) : Option (KState × String) :=
  -- if (type.isEmpty()) return newSession();
  if type.isEmpty then newSessionDefault fuel st
  else
    -- the while loop returns at the first info with info->name() == type
    match st.manager.availableSessionTypes.find? (fun info => info.name == type) with
    | some info =>
      (newSessionInfo fuel st info).map
        (fun r => (r.1, "/Sessions/" ++ (getSession r.1 r.2).sessionId))
    -- return QString();
    | none => some (st, "")

/-- `Konsole::sessionId(const int position)`; the call of `at` moves the current
item of the list. -/
def sessionId (st : KState) (position : Int) : KState × String :=
  -- if (position<=0 || position>(int)sessions.count()) return "";
  if position ≤ 0 ∨ position > (st.sessions.count : Int) then (st, "")
  else
    -- return sessions.at(position-1)->SessionId();
    let r := st.sessions.atIndex (position - 1)
    ({ st with sessions := r.1 },
      match r.2 with
      | some p => (getSession st p).sessionId
      | none => "")

/-! ## Ending sessions -/

/-- First block of `Konsole::doneSession(Session* s)`:
`if (s == se_previous) se_previous = 0; if (se_previous) activateSession(se_previous);`. -/
def returnToPrevious (st : KState) (s : Nat) : KState :=
  let st1 : KState := if st.se_previous = some s then { st with se_previous := none } else st
  match st1.se_previous with
  | some p => activateSession st1 p
  | none => st1

/-- Second block of `Konsole::doneSession(Session* s)`: the action of the session
leaves the menu and is deleted, the session leaves both dictionaries and the
list and is deleted. The result carries `sessionIndex`. -/
def unregisterSession (st : KState) (s : Nat) : KState × Int :=
  -- KToggleAction *ra = session2action.find(s); m_view->removeAction( ra );
  let ra := dictFind st.session2action s
  -- int sessionIndex = sessions.findRef(s); sessions.remove(s);
  let found := st.sessions.findRef s
  let st1 : KState := { st with
    viewActions := match ra with
      | some r => st.viewActions.erase r
      | none => st.viewActions
    -- session2action.remove(s); action2session.remove(ra);
    session2action := dictRemove st.session2action s
    action2session := match ra with
      | some r => dictRemove st.action2session r
      | none => st.action2session
    sessions := found.1.remove s
    -- delete ra;
    checkedAction := if ra.isSome ∧ st.checkedAction = ra then none else st.checkedAction }
  -- s->setConnect(false); delete s;
  (deleteSession (updSession st1 s (fun o => { o with connect := false })) s, found.2)

/-- The branch of `Konsole::doneSession` that searches for a session to
activate, taken when sessions are left and the window is not closing. -/
def activateNeighbour (st : KState) (sessionIndex : Int) : KState :=
  -- se = sessions.at(sessionIndex ? sessionIndex - 1 : 0);
  let r := st.sessions.atIndex (if sessionIndex ≠ 0 then sessionIndex - 1 else 0)
  let st1 : KState := { st with sessions := r.1, se := r.2 }
  -- session2action.find(se)->setChecked(true);
  let st2 : KState := match r.2 with
    | none => st1
    | some n =>
      match dictFind st1.session2action n with
      | none => st1
      | some a => setActionChecked st1 a
  -- QTimer::singleShot(1,this,SLOT(activateSession()));
  { st2 with pendingActivate := st2.pendingActivate + 1 }

/-- Third block of `Konsole::doneSession(Session* s)`: the pointers to the ended
session are reset and, when it was the active one, a new active session is picked. -/
def pickNextActive (st : KState) (s : Nat) (sessionIndex : Int) : KState :=
  -- if (s == se_previous) se_previous = 0;
  let st1 : KState := if st.se_previous = some s then { st with se_previous := none } else st
  if st1.se = some s then
    -- se = 0;
    let st2 : KState := { st1 with se := none }
    -- if (sessions.count() && !_closing)
    if st2.sessions.count ≠ 0 ∧ st2.closing = false then activateNeighbour st2 sessionIndex
    else
      -- close();
      { st2 with closeCalls := st2.closeCalls + 1 }
  else
    -- sessions.find(se);
    match st1.se with
    | some a => { st1 with sessions := (st1.sessions.findRef a).1 }
    | none => { st1 with sessions := { st1.sessions with cur := none } }

/-- `Konsole::doneSession(Session* s)`. -/
def doneSession (st : KState) (s : Nat) : KState :=
  let r := unregisterSession (returnToPrevious st s) s
  let st1 := pickNextActive r.1 s r.2
  -- if (sessions.count()==1) m_detachSession->setEnabled(false);
  if st1.sessions.count = 1 then { st1 with detachEnabled := false } else st1

/-! ## Shutdown -/

/-- Modelled from the spec: `Session::closeSession()`, which is not in
konsole.cpp. Closing asks the child to exit; the session stays registered until
the exit of its child has been reaped. -/
def closeSession (st : KState) (p : Nat) : KState :=
  updSession st p (fun o => { o with closeRequested := true })

/-- One call of `K3ProcessController::waitForProcessExit(1)`: whether a process
exited before the timeout, and the sessions the session manager dropped from its
list while the call handled the exits. -/
structure WaitOutcome where
  exited : Bool := false
  removed : List Nat := []
deriving DecidableEq, Repr

/-- State at the end of the wait loop of the destructor: the sessions left in the
session manager, and whether the loop ended because a wait timed out. -/
structure WaitEnd where
  sessions : List Nat := []
  timedOut : Bool := false
deriving DecidableEq, Repr

/-- The loop `while (sessionManager()->sessions().count() && waitForProcessExit(1))`
of `Konsole::~Konsole`, run against the outcomes of the successive waits. After
the last listed outcome no process exits any more, so that a further wait times
out. -/
def waitLoop : List Nat → List WaitOutcome → WaitEnd
  | ss, [] => { sessions := ss, timedOut := decide (ss.length ≠ 0) }
  | ss, o :: rest =>
    if ss.length = 0 then { sessions := ss, timedOut := false }
    else
      let left := ss.filter (fun p => decide (p ∉ o.removed))
      if o.exited then waitLoop left rest else { sessions := left, timedOut := true }

/-- `Konsole::~Konsole()` up to the end of its wait loop: `closeSession` on every
session of the session manager, in list order, then the wait loop. -/
def destroyKonsole (st : KState) (waits : List WaitOutcome) : KState × WaitEnd :=
  let st1 := st.manager.sessions.foldl closeSession st
  let r := waitLoop st1.manager.sessions waits
  ({ st1 with manager := { st1.manager with sessions := r.sessions } }, r)

/-! ## Lookup by position and by id -/

/-- `Konsole::activateSession(int position)`. -/
def activateSessionAt (st : KState) (position : Int) : KState :=
  -- if (position<0 || position>=(int)sessions.count()) return;
  if position < 0 ∨ position ≥ (st.sessions.count : Int) then st
  else
    -- activateSession( sessions.at(position) );
    let r := st.sessions.atIndex position
    match r.2 with
    | some s => activateSession { st with sessions := r.1 } s
    | none => { st with sessions := r.1 }

/-- The while loop of `Konsole::activateSession(const QString &sessionId)`: the
last session of the list whose `SessionId()` equals the id, null when there is none. -/
def lookupSessionId (st : KState) (sessionId : String) : Option Nat :=
  st.sessions.items.foldl
    (fun activate p => if (getSession st p).sessionId = sessionId then some p else activate) none

/-- `Konsole::activateSession(const QString &sessionId)`; the loop, which runs
from `first()` until `current()` is null, leaves the list without current item. -/
def activateSessionById (st : KState) (sessionId : String) : KState :=
  let activate := lookupSessionId st sessionId
  let st1 : KState := { st with sessions := { st.sessions with cur := none } }
  -- if (activate) activateSession( activate );
  match activate with
  | some a => activateSession st1 a
  | none => st1

/-! ## The master mode toggle -/

/-- `Konsole::slotToggleMasterMode()`; `answerYes` says whether
`KMessageBox::warningYesNo` returns `KMessageBox::Yes`. -/
def slotToggleMasterMode (st : KState) (answerYes : Bool) : KState :=
  -- if ( masterMode->isChecked() )
  if st.masterModeChecked then
    let st1 : KState := { st with masterModeQuestions := st.masterModeQuestions + 1 }
    -- setMasterMode( masterMode->isChecked() );
    if answerYes then setMasterMode st1 st1.masterModeChecked none
    -- masterMode->setChecked(false);
    else { st1 with masterModeChecked := false }
  else st

/-! ## Construction and history type -/

/-- The members of `Konsole` as the initialiser list of the constructor leaves
them, before the body of the constructor runs. -/
def memberInitialisers : KState :=
  { te := none
    se := none
    se_previous := none
    selectSetEncoding := none
    m_finddialog := none
    m_find_pattern := ""
    monitorSilenceSeconds := 10
    closing := false
    m_menuCreated := false
    b_warnQuit := false
    b_allowResize := true
    b_addToUtmp := true
    m_histSize := 1000 }

/-- `Konsole::slotHistoryType()`, run against what the dialog reports. The calls
of `setEnabled` on the history actions only repaint. -/
def slotHistoryType (st : KState) (dlg : HistoryTypeDialog) : KState :=
  -- if (!se) return;
  match st.se with
  | none => st
  | some a =>
    -- if (dlg.exec())
    if dlg.accepted then
      if dlg.isOn then
        if dlg.nbLines > 0 then
          -- se->setHistory(HistoryTypeBuffer(dlg.nbLines())); m_histSize = dlg.nbLines();
          { updSession st a (fun o => { o with history := HistoryType.buffer dlg.nbLines }) with
            m_histSize := dlg.nbLines
            b_histEnabled := true }
        else
          -- se->setHistory(HistoryTypeFile()); m_histSize = 0;
          { updSession st a (fun o => { o with history := HistoryType.file }) with
            m_histSize := 0
            b_histEnabled := true }
      else
        -- se->setHistory(HistoryTypeNone()); m_histSize = dlg.nbLines();
        { updSession st a (fun o => { o with history := HistoryType.none }) with
          m_histSize := dlg.nbLines
          b_histEnabled := false }
    else st

/-! ## Moving and cycling sessions -/

/-- The statement `sessions.find(se)`. -/
def findActive (st : KState) : Q3PtrList :=
  match st.se with
  | some a => (st.sessions.findRef a).1
  | none => { st.sessions with cur := none }

/-- The statements `m_view->removeAction( ra ); m_view->insertAction( nextSessionAction , ra );`
on the list of actions of the menu: the action is inserted before the other one,
and appended when the other one is null or not in the menu. -/
def moveAction (actions : List Nat) (ra nextSessionAction : Option Nat) : List Nat :=
  match ra with
  | none => actions
  | some r =>
    let rest := actions.erase r
    match nextSessionAction with
    | some b =>
      if b ∈ rest then rest.take (rest.indexOf b) ++ r :: rest.drop (rest.indexOf b)
      else rest ++ [r]
    | none => rest ++ [r]

/-- `Konsole::moveSessionLeft()`; `position` is a `uint`. -/
def moveSessionLeft (st : KState) : KState :=
  -- sessions.find(se); uint position=sessions.at();
  let l1 := findActive st
  let position := toUInt l1.curIndex
  -- if (position==0) return;
  if position = 0 then { st with sessions := l1 }
  else
    -- sessions.remove(position); sessions.insert(position-1,se);
    let l2 := l1.removeAt position
    let l3 := match st.se with
      | some a => l2.insert (position - 1) a
      | none => l2
    -- KToggleAction *ra = session2action.find(se);
    let ra := st.se.bind (dictFind st.session2action)
    -- KToggleAction* nextSessionAction = session2action.find(sessions.at(position));
    let r := l3.atIndex (position : Int)
    let nextSessionAction := r.2.bind (dictFind st.session2action)
    let st1 : KState := { st with
      sessions := r.1
      viewActions := moveAction st.viewActions ra nextSessionAction }
    -- if (!m_menuCreated) makeGUI();
    if !st1.m_menuCreated then makeGUI st1 else st1

/-- `Konsole::moveSessionRight()`; `position` and `sessions.count()-1` are
`uint` values. With a null active session and a non-empty list the source goes on
to insert the null pointer at the front of the list; the lists of the embedding
hold sessions only, and that call is left out. -/
def moveSessionRight (st : KState) : KState :=
  -- sessions.find(se); uint position=sessions.at();
  let l1 := findActive st
  let position := toUInt l1.curIndex
  -- if (position==sessions.count()-1) return;
  if position = toUInt ((l1.count : Int) - 1) then { st with sessions := l1 }
  else
    -- sessions.remove(position); sessions.insert(position+1,se);
    let l2 := l1.removeAt position
    let l3 := match st.se with
      | some a => l2.insert (toUInt ((position : Int) + 1)) a
      | none => l2
    -- KToggleAction* nextSessionAction = session2action.find(sessions.at(position+2));
    let r := l3.atIndex (toUInt ((position : Int) + 2) : Int)
    let nextSessionAction := r.2.bind (dictFind st.session2action)
    -- KToggleAction *ra = session2action.find(se);
    let ra := st.se.bind (dictFind st.session2action)
    let st1 : KState := { st with
      sessions := r.1
      viewActions := moveAction st.viewActions ra nextSessionAction }
    -- if (!m_menuCreated) makeGUI();
    if !st1.m_menuCreated then makeGUI st1 else st1

/-- `Konsole::prevSession()`. -/
def prevSession (st : KState) : KState :=
  -- sessions.find(se); sessions.prev();
  let l1 := (findActive st).prev
  -- if (!sessions.current()) sessions.last();
  let l2 := if l1.current.isNone then l1.last else l1
  -- if (sessions.current()) activateSession(sessions.current());
  match l2.current with
  | some s => activateSession { st with sessions := l2 } s
  | none => { st with sessions := l2 }

/-- `Konsole::nextSession()`. -/
def nextSession (st : KState) : KState :=
  -- sessions.find(se); sessions.next();
  let l1 := (findActive st).next
  -- if (!sessions.current()) sessions.first();
  let l2 := if l1.current.isNone then l1.first else l1
  -- if (sessions.current()) activateSession(sessions.current());
  match l2.current with
  | some s => activateSession { st with sessions := l2 } s
  | none => { st with sessions := l2 }

/-! ## History search -/

/-- `Konsole::slotFindHistory()`: the dialog is created when there is none, takes
the last pattern when its own is empty, and is shown; the search starts afresh. -/
def slotFindHistory (st : KState) : KState :=
  -- if( !m_finddialog ) { m_finddialog = new KFindDialog(this); ... }
  let dlg : KFindDialog := st.m_finddialog.getD {}
  -- m_finddialog->setPattern(string.isEmpty() ? m_find_pattern : string);
  let dlg1 : KFindDialog :=
    { dlg with pattern := if dlg.pattern.isEmpty then st.m_find_pattern else dlg.pattern }
  -- m_find_first = true; m_find_found = false; m_finddialog->show();
  { st with
    m_finddialog := some { dlg1 with shown := true }
    m_find_first := true
    m_find_found := false }

/-- The statements of `Konsole::slotFind()` up to and including the call of
`findTextNext`, for the active session `a` and the dialog `dlg`. -/
def searchOnce (st : KState) (a : Nat) (dlg : KFindDialog) : KState :=
  -- if (m_find_first) { se->getEmulation()->findTextBegin(); m_find_first = false; }
  let st1 : KState :=
    if st.m_find_first then
      { st with searchLog := st.searchLog ++ [SearchEvent.findTextBegin a], m_find_first := false }
    else st
  -- bool forward = !(m_finddialog->options() & KFind::FindBackwards);
  -- m_find_pattern = m_finddialog->pattern();
  { st1 with
    m_find_pattern := dlg.pattern
    searchLog := st1.searchLog ++
      [SearchEvent.findTextNext a dlg.pattern (!dlg.findBackwards) dlg.caseSensitive
        dlg.regularExpression] }

/-- The log at the moment `findTextNext` is called by `searchOnce`. -/
def logBeforeNext (st : KState) (a : Nat) : List SearchEvent :=
  if st.m_find_first then st.searchLog ++ [SearchEvent.findTextBegin a] else st.searchLog

/-- `Konsole::slotFind()`. Each unit of fuel pays for one invocation, the
recursive ones after an accepted wrap included; `none` when the fuel runs out.
A call without active session or without dialog dereferences a null pointer in
the source and is left as it is here. -/
def slotFind (env : SearchEnv) : Nat → KState → Option KState
  | 0, _ => none
  | fuel + 1, st =>
    match st.se, st.m_finddialog with
    | some a, some dlg =>
      let st1 := searchOnce st a dlg
      -- if (se->getEmulation()->findTextNext(...)) m_find_found = true;
      if env.findTextNext (logBeforeNext st a) then some { st1 with m_find_found := true }
      -- else if (m_find_found)
      else if st1.m_find_found then
        -- KMessageBox::questionYesNo( ... ) == KMessageBox::Yes
        let st2 : KState :=
          { st1 with searchLog := st1.searchLog ++ [SearchEvent.askWrap (!dlg.findBackwards)] }
        -- m_find_first = true; slotFind();
        if env.wrapAnswer st1.searchLog then slotFind env fuel { st2 with m_find_first := true }
        else some st2
      else
        -- KMessageBox::information( ..., i18n( "Search string '%1' not found." , ...) );
        some { st1 with searchLog := st1.searchLog ++ [SearchEvent.notFound st1.m_find_pattern] }
    | _, _ => some st

/-! ## Encoding requested by a session -/

/-- `Konsole::slotSetSessionEncoding(Session *session, const QString &encoding)`. -/
def slotSetSessionEncoding (st : KState) (session : Nat) (encoding : String) : KState :=
  -- if (!selectSetEncoding) makeGUI();
  let st1 := if st.selectSetEncoding.isNone then makeGUI st else st
  -- if ( !selectSetEncoding ) return;
  match st1.selectSetEncoding with
  | none => st1
  | some menu =>
    -- QStringList items = selectSetEncoding->items();
    let items := menu.items
    -- the for loop stops at the first item with indexOf(encoding) != -1
    let i := items.findIdx (fun it => qIndexOf it encoding != -1)
    -- if (i >= items.count()) return;
    if i ≥ items.length then st1
    else
      let enc := st1.charsets.encodingForName (items.getD i "")
      let r := st1.charsets.codecForName enc
      -- if(!found) return;
      if !r.2 then st1
      else
        -- session->setEncodingNo( i + 1 );    // Take into account Default
        let st2 := updSession st1 session (fun o => { o with encodingNo := (i : Int) + 1 })
        let st3 := updSession st2 session (fun o => { o with codec := r.1 })
        -- if (se == session) activateSession(se);
        if st3.se = some session then activateSession st3 session else st3

/-! ## Closing the window -/

/-- `Konsole::queryClose()`; `sessionSaving` is `kapp->sessionSaving()` and
`answer` is what `KMessageBox::warningContinueCancel` returns when it is shown.
The result carries the return value. -/
def queryClose (st : KState) (sessionSaving : Bool) (answer : ButtonCode) : KState × Bool :=
  -- if(kapp->sessionSaving()) return true;
  if sessionSaving then (st, true)
  -- if (sessions.count() == 0) return true;
  else if st.sessions.count = 0 then (st, true)
  -- if ( b_warnQuit)
  else if st.b_warnQuit then
    -- if(sessions.count()>1) { switch ( KMessageBox::warningContinueCancel(...) )
    if st.sessions.count > 1 then
      let st1 : KState := { st with closeQuestions := st.closeQuestions + 1 }
      match answer with
      -- case KMessageBox::Yes : return true;
      | ButtonCode.Yes => (st1, true)
      -- case KMessageBox::Cancel : return false;
      | ButtonCode.Cancel => (st1, false)
      | _ => (st1, true)
    else (st, true)
  -- return true;
  else (st, true)

/-! ## Sizes -/

/-- `Konsole::setColLin(int columns, int lines)`. The calls `resize(sizeHint())`,
`setFixedSize(sizeHint())` and `notifySize` act on the window and its menu; a
call with a null `te` dereferences it in the source and stops here after the
request is recorded. -/
def setColLin (st : KState) (columns lines : Int) : KState :=
  let st0 : KState := { st with sizeRequests := st.sizeRequests ++ [(columns, lines)] }
  -- if ((columns==0) || (lines==0)) if (b_fixedSize || defaultSize.isEmpty())
  --   { columns = 80; lines = 24; }
  let cl : Int × Int :=
    if (columns = 0 ∨ lines = 0) ∧ (st.b_fixedSize = true ∨ st.defaultSizeEmpty = true) then
      (80, 24)
    else (columns, lines)
  -- if ((columns==0) || (lines==0)) resize(defaultSize);
  if cl.1 = 0 ∨ cl.2 = 0 then { st0 with windowResizes := st0.windowResizes + 1 }
  else
    match st.te with
    | none => st0
    | some t =>
      -- if (b_fixedSize) te->setFixedSize(columns, lines); else te->setSize(columns, lines);
      -- resize( sizeHint() );
      { st0 with
        displaySize := fun d => if d = t then cl else st.displaySize d
        displayFixed := fun d => if d = t then (st.b_fixedSize || st.displayFixed d)
          else st.displayFixed d
        windowResizes := st0.windowResizes + 1 }

/-- `Konsole::changeColLin(int columns, int lines)`, called from the emulation;
`te->update()` only repaints. -/
def changeColLin (st : KState) (columns lines : Int) : KState :=
  -- if (b_allowResize && !b_fixedSize) { setColLin(columns, lines); te->update(); }
  if st.b_allowResize && !st.b_fixedSize then setColLin st columns lines else st

/-- `Konsole::changeColumns(int columns)`, called from the emulation; the lines
are `te->Lines()` (0 here for a null `te`, which the source dereferences). -/
def changeColumns (st : KState) (columns : Int) : KState :=
  -- if (b_allowResize) { setColLin(columns,te->Lines()); te->update(); }
  if st.b_allowResize then
    setColLin st columns ((st.te.map (fun t => (st.displaySize t).2)).getD 0)
  else st

/-- `Konsole::slotResizeSession(Session *session, QSize size)`. With a null
active session the last statement activates a null pointer, which
`activateSession` dereferences; the embedding stops before it. -/
def slotResizeSession (st : KState) (session : Nat) (width height : Int) : KState :=
  -- Session *oldSession = se;
  let oldSession := st.se
  -- if (se != session) activateSession(session);
  let st1 := if st.se ≠ some session then activateSession st session else st
  -- setColLin(size.width(), size.height());
  let st2 := setColLin st1 width height
  -- activateSession(oldSession);
  match oldSession with
  | some a => activateSession st2 a
  | none => st2

/-! ## Text for all sessions -/

/-- `Konsole::feedAllSessions(const QString &text)`. -/
def feedAllSessions (st : KState) (text : String) : KState :=
  -- if (!te) return;
  match st.te with
  | none => st
  | some t =>
    -- bool oldMasterMode = se->isMasterMode();
    let oldMasterMode := (st.se.map (fun a => (getSession st a).masterMode)).getD false
    -- setMasterMode(true);
    let st1 := setMasterMode st true none
    -- te->emitText(text);
    let st2 : KState := { st1 with
      emitLog := st1.emitLog ++
        [{ display := t, text := text,
           master := (st1.se.map (fun a => (getSession st1 a).masterMode)).getD false }] }
    -- if (!oldMasterMode) setMasterMode(false);
    if !oldMasterMode then setMasterMode st2 false none else st2

/-- `Konsole::sendAllSessions(const QString &text)`. -/
def sendAllSessions (st : KState) (text : String) : KState :=
  -- QString newtext=text; newtext.append("\r"); feedAllSessions(newtext);
  feedAllSessions st (text ++ "\r")

/-! ## Split view -/

/-- Body of the loop of `Konsole::slotToggleSplitView`, for the new container and
one session of the session manager. -/
def splitViewFor (container : Nat) (st : KState) (session : Nat) : KState :=
  -- TerminalDisplay* display = createSessionView();
  let r := createSessionView st
  -- container->addView(display,item); container->setActiveView(display);
  let st1 : KState := { r.1 with
    containerViews := r.1.containerViews ++ [(container, r.2)]
    activeViews := (container, r.2) :: r.1.activeViews }
  -- session->addView( display );
  updSession st1 session (fun o => { o with views := o.views ++ [r.2] })

/-- `Konsole::slotToggleSplitView(bool splitView)`. The splitter `_view` is taken
to append the container that `addContainer` receives to its list of containers,
and to drop a deleted container from it. -/
def slotToggleSplitView (st : KState) (splitView : Bool) : KState :=
  if splitView then
    -- ViewContainer* container = new TabbedViewContainer();
    -- _view->addContainer(container,Qt::Vertical);
    let container := st.nextContainer
    let st1 : KState := { st with
      nextContainer := container + 1
      containers := st.containers ++ [container] }
    -- QListIterator<Session*> sessionIter(sessionManager()->sessions());
    st1.manager.sessions.foldl (splitViewFor container) st1
  else
    -- ViewContainer* container = _view->activeSplitter()->activeContainer(); delete container;
    { st with containers := st.containers.erase st.activeContainer }

/-- The displays a loop over the sessions `ss`, which creates one display per
session and numbers them from `d`, creates for the session `p`. -/
def newDisplaysFor (p : Nat) : List Nat → Nat → List Nat
  | [], _ => []
  | q :: rest, d =>
    if q = p then d :: newDisplaysFor p rest (d + 1) else newDisplaysFor p rest (d + 1)

/-- Well-formed bookkeeping: the sessions of the list are distinct, no key occurs
twice in a dictionary, and the two dictionaries hold the same pairs, mirrored. -/
def RegistryOk (st : KState) : Prop :=
  st.sessions.items.Nodup ∧
  (st.session2action.map Prod.fst).Nodup ∧
  (st.action2session.map Prod.fst).Nodup ∧
  (∀ e, e ∈ st.session2action → (e.2, e.1) ∈ st.action2session) ∧
  (∀ e, e ∈ st.action2session → (e.2, e.1) ∈ st.session2action)

instance (st : KState) : Decidable (RegistryOk st) := by
  unfold RegistryOk
  infer_instance

/-- The action found for a session leads back to that session: the first entry
of `action2session` under the action of session `n` holds `n`. -/
def PickConsistent (st : KState) : Prop :=
  ∀ n a e, dictFind st.session2action n = some a →
    st.action2session.find? (fun x => some x.1 == some a) = some e → e.2 = n

/-- The session object behind `p` keeps the value `v` of its attribute `g`, and
no activation can delete it: `p` is in the list, or `p` is neither the active
session nor the session of any action. -/
def Keeps {α : Type} (g : Session → α) (v : α) (p : Nat) (st : KState) : Prop :=
  (st.objs p).map g = some v ∧
  (p ∈ st.sessions.items ∨ (st.se ≠ some p ∧ ∀ e, e ∈ st.action2session → e.2 ≠ p))

/-- The bookkeeping invariant of the registry: well-formed dictionaries and list,
the sessions with an action are the sessions of the list, the pointer of the next
action is new, and the action `m_detachSession` is enabled exactly when the list
holds more than one session. -/
def RegistryInv (st : KState) : Prop :=
  RegistryOk st ∧
  (∀ p, p ∈ st.sessions.items ↔ p ∈ st.session2action.map Prod.fst) ∧
  (∀ e, e ∈ st.action2session → e.1 < st.nextAction) ∧
  (st.detachEnabled = true ↔ 1 < st.sessions.items.length)

/-- The states reachable from an empty window (no session in the list, both
dictionaries empty, `m_detachSession` disabled as `makeBasicGUI` leaves it) by
calls of `addSession` for a session that is not in the list and of `doneSession`
for a session that is in the list. -/
inductive Reachable : KState → Prop where
  | empty (st : KState) : st.sessions.items = [] → st.session2action = [] →
      st.action2session = [] → st.detachEnabled = false → Reachable st
  | add (fuel : Nat) (st : KState) (s : Nat) (st2 : KState) : Reachable st →
      s ∉ st.sessions.items → addSession fuel st s = some st2 → Reachable st2
  | done (st : KState) (s : Nat) : Reachable st → s ∈ st.sessions.items →
      Reachable (doneSession st s)

/-- The renderings of the counts up to `n` are pairwise different strings. -/
def RendersDistinct (render : Nat → String) (n : Nat) : Prop :=
  ∀ j, j ≤ n → ∀ k, k ≤ n → render j = render k → j = k

instance (render : Nat → String) (n : Nat) : Decidable (RendersDistinct render n) := by
  unfold RendersDistinct
  infer_instance

/-- What `newSession` needs to create a session of a type: the pointer the
session manager hands out next is new to the window (neither the active session
nor the session of an action), the fuel covers the title loop of `addSession`,
and the renderings of the title with the counts up to the fuel needed differ. -/
def NewSessionReady (fuel : Nat) (st : KState) (type : SessionInfo) : Prop :=
  st.se ≠ some st.manager.nextPtr ∧
  (∀ e, e ∈ st.action2session → e.2 ≠ st.manager.nextPtr) ∧
  st.sessions.items.length + 2 ≤ fuel ∧
  RendersDistinct (st.i18ncNo (templateTitle st.manager type.path))
    (st.sessions.items.length + 2)

instance (fuel : Nat) (st : KState) (type : SessionInfo) :
    Decidable (NewSessionReady fuel st type) := by
  unfold NewSessionReady
  infer_instance

/-- The result of `newSession` is the path `/Sessions/` followed by the id that
`sessionId` lists at the last position, the session list having grown by the new
session at its end. -/
def ReturnsSessionPath (st : KState) (r : Option (KState × String)) : Prop :=
  ∃ st2, r = some (st2, "/Sessions/" ++ (sessionId st2 (st2.sessions.count : Int)).2) ∧
    st2.sessions.items = st.sessions.items ++ [st.manager.nextPtr] ∧
    (sessionId st2 (st2.sessions.count : Int)).2 = (getSession st2 st.manager.nextPtr).sessionId

/-- A name contains a text: the text occurs in it as a contiguous run of characters. -/
def containsText (name text : String) : Prop := text.toList <:+: name.toList

instance (name text : String) : Decidable (containsText name text) := by
  unfold containsText
  infer_instance

/-- Index `i` is the first name of the list that contains the text. -/
def IsFirstMatch (names : List String) (text : String) (i : Nat) : Prop :=
  i < names.length ∧ containsText (names.getD i "") text ∧
    ∀ j, j < i → ¬ containsText (names.getD j "") text

instance (names : List String) (text : String) (i : Nat) :
    Decidable (IsFirstMatch names text i) := by
  unfold IsFirstMatch
  infer_instance

/-! ## Sample states -/

/-- Three live sessions with the ids 1, 2, 3. -/
def demoObjs : Nat → Option Session := fun p =>
  if p = 1 then some { sessionId := "1", title := "Shell", connect := true, codec := 7 }
  else if p = 2 then some { sessionId := "2", title := "Shell No. 2" }
  else if p = 3 then some { sessionId := "3", title := "Shell No. 3" }
  else none

/-- A window with the sessions 1, 2, 3, of which session 1 is active, and the
terminal display 0. -/
def demoState : KState :=
  { objs := demoObjs
    sessions := { items := [1, 2, 3], cur := some 0 }
    se := some 1
    te := some 0
    session2action := [(3, 3), (2, 2), (1, 1)]
    action2session := [(3, 3), (2, 2), (1, 1)]
    nextAction := 4
    checkedAction := some 1
    detachEnabled := true
    manager :=
      { sessions := [1, 2, 3]
        availableSessionTypes := [{ name := "Shell", path := "shell.desktop" }]
        defaultSessionType := { name := "Shell", path := "shell.desktop" }
        nextPtr := 4
        idCounter := 4 } }

/-- A catalogue of three encodings; the third has no codec. -/
def encCharsets : KCharsets :=
  { descriptiveEncodingNames :=
      ["Baltic ( iso 8859-13 )", "Western European ( iso 8859-1 )", "Klingon ( piqad )"]
    encodingForName := fun n =>
      if n = "Baltic ( iso 8859-13 )" then "iso 8859-13"
      else if n = "Western European ( iso 8859-1 )" then "iso 8859-1"
      else n
    codecForName := fun n =>
      if n = "iso 8859-13" then (13, true)
      else if n = "iso 8859-1" then (1, true)
      else (0, false) }

/-- The sample window with the encoding menu created and its last entry selected;
the active session 1 uses codec 7, the locale codec is 4. -/
def encState : KState :=
  { demoState with
    charsets := encCharsets
    codecForLocale := 4
    m_menuCreated := true
    selectSetEncoding := some
      { items := ["Default", "Baltic ( iso 8859-13 )", "Western European ( iso 8859-1 )",
          "Klingon ( piqad )"]
        currentItem := 3 } }

/-- The sample window after the user has unchecked the master mode toggle while
the active session 1 is a master. -/
def masterState : KState :=
  { demoState with
    objs := fun p =>
      if p = 1 then some { sessionId := "1", title := "Shell", connect := true, masterMode := true }
      else demoObjs p
    masterModeChecked := false }

/-- The call of `findTextNext` that `slotFind` makes for session `a` with the
settings of the dialog. -/
def searchCall (a : Nat) (dlg : KFindDialog) : SearchEvent :=
  SearchEvent.findTextNext a dlg.pattern (!dlg.findBackwards) dlg.caseSensitive
    dlg.regularExpression

/-- A history in which the text is found only after three events: a search that
runs into the end finds it again after one wrap. The user accepts every wrap. -/
def wrapEnv : SearchEnv :=
  { findTextNext := fun log => decide (3 ≤ log.length)
    wrapAnswer := fun _ => true }

/-- The sample window in the middle of a forward search for `foo` that has had a
hit already. -/
def findState : KState :=
  { demoState with
    m_finddialog := some { pattern := "foo", shown := true }
    m_find_pattern := "foo"
    m_find_first := false
    m_find_found := true }

/-- The block of `readProperties` under `if (readGlobalConfig)`. -/
def readGlobalEntries (st : KState) (config : KConfig) : KState :=
  { st with
    b_warnQuit := config.warnQuit.getD true
    b_allowResize := config.allowResize.getD false
    monitorSilenceSeconds := config.silenceSeconds.getD 10
    objs := fun q =>
      if q ∈ st.sessions.items then
        (st.objs q).map (fun o => { o with monitorSilenceSeconds := config.silenceSeconds.getD 10 })
      else st.objs q
    sessions := { st.sessions with cur := none }
    b_addToUtmp := config.addToUtmp.getD true }

/-- The block of `readProperties` under `if (!globalConfigOnly)`. -/
def readWindowEntries (st : KState) (config : KConfig) : KState :=
  { st with
    m_histSize := config.history.getD st.defaultHistorySize
    b_histEnabled := config.historyenabled.getD true
    s_encodingName := (config.encodingName.getD "").toLower }

/-- The sample search after a hit of `foo`, the user having typed `bar` into the
dialog since. -/
def changedState : KState :=
  { findState with m_finddialog := some { pattern := "bar", shown := true } }

/-- A history without the text, and a user who accepts every wrap. -/
def alwaysYesEnv : SearchEnv :=
  { findTextNext := fun _ => false
    wrapAnswer := fun _ => true }

/-- A history without the text, and a user who accepts the first wrap and
declines the second. -/
def declineSecondEnv : SearchEnv :=
  { findTextNext := fun _ => false
    wrapAnswer := fun log => decide (log.length < 3) }

/-- An empty window: the three session objects exist, none is registered. -/
def emptyWindow : KState := { objs := demoObjs }

/-- A window with the single session 1, which is active, and `Warn on Quit` set. -/
def oneState : KState :=
  { objs := demoObjs
    sessions := { items := [1], cur := some 0 }
    se := some 1
    te := some 0
    session2action := [(1, 1)]
    action2session := [(1, 1)]
    nextAction := 2
    checkedAction := some 1
    b_warnQuit := true }

/-- The sample window with the terminal display 1 of 80 columns and 24 lines,
resizing allowed, and the size fixed with `enableFixedSize(true)`. -/
def fixedState : KState :=
  { demoState with te := some 1, b_allowResize := true, b_fixedSize := true }

/-- The sample window with session 1 active, session 2 the previous session, and
the terminal display 1. -/
def backState : KState :=
  { demoState with se_previous := some 2, te := some 1 }

/-! ## Basic facts about activation -/

@[simp]
theorem updSession_se (st : KState) (p : Nat) (f : Session → Session) :
    (updSession st p f).se = st.se := rfl

@[simp]
theorem updSession_se_previous (st : KState) (p : Nat) (f : Session → Session) :
    (updSession st p f).se_previous = st.se_previous := rfl

@[simp]
theorem updSession_sessions (st : KState) (p : Nat) (f : Session → Session) :
    (updSession st p f).sessions = st.sessions := rfl

@[simp]
theorem updSession_objs_self (st : KState) (p : Nat) (f : Session → Session) :
    (updSession st p f).objs p = (st.objs p).map f := by
  simp [updSession]

theorem updSession_objs_other (st : KState) (p q : Nat) (f : Session → Session) (h : q ≠ p) :
    (updSession st p f).objs q = st.objs q := by
  simp [updSession, h]

@[simp]
theorem findRef_items (l : Q3PtrList) (p : Nat) : (l.findRef p).1.items = l.items := by
  unfold Q3PtrList.findRef
  split <;> rfl

theorem findRef_eq_neg_one (l : Q3PtrList) (p : Nat) : (l.findRef p).2 = -1 ↔ p ∉ l.items := by
  unfold Q3PtrList.findRef
  split
  · rename_i h
    simp only [h, not_true_eq_false, iff_false]
    omega
  · rename_i h
    simp [h]

theorem dropStaleActive_se (st : KState) :
    (dropStaleActive st).se = st.se.bind (fun a => if a ∈ st.sessions.items then some a else none) := by
  unfold dropStaleActive
  cases hse : st.se with
  | none => simp [hse]
  | some a =>
    by_cases h : a ∈ st.sessions.items
    · have h1 : ¬ (st.sessions.findRef a).2 = -1 := by rw [findRef_eq_neg_one]; simpa using h
      simp [h1, h, hse]
    · have h1 : (st.sessions.findRef a).2 = -1 := by rw [findRef_eq_neg_one]; exact h
      simp [h1, h]

theorem dropStaleActive_se_of_mem (st : KState) (a : Nat) (hse : st.se = some a)
    (hin : a ∈ st.sessions.items) : (dropStaleActive st).se = some a := by
  simp [dropStaleActive_se, hse, hin]

@[simp]
theorem dropStaleActive_se_previous (st : KState) :
    (dropStaleActive st).se_previous = st.se_previous := by
  unfold dropStaleActive
  split
  · rfl
  · simp only; split <;> rfl

@[simp]
theorem dropStaleActive_items (st : KState) :
    (dropStaleActive st).sessions.items = st.sessions.items := by
  unfold dropStaleActive
  split
  · rfl
  · simp only; split <;> simp

@[simp]
theorem dropStaleActive_menuCreated (st : KState) :
    (dropStaleActive st).m_menuCreated = st.m_menuCreated := by
  unfold dropStaleActive
  split
  · rfl
  · simp only; split <;> rfl

theorem dropStaleActive_objs (st : KState) (q : Nat) :
    (dropStaleActive st).objs q =
      if st.se = some q ∧ q ∉ st.sessions.items then none else st.objs q := by
  unfold dropStaleActive
  cases hse : st.se with
  | none => simp
  | some a =>
    by_cases h : a ∈ st.sessions.items
    · have h1 : ¬ (st.sessions.findRef a).2 = -1 := by rw [findRef_eq_neg_one]; simpa using h
      by_cases hq : a = q
      · subst hq; simp [h1, h]
      · simp [h1, hq]
    · have h1 : (st.sessions.findRef a).2 = -1 := by rw [findRef_eq_neg_one]; exact h
      by_cases hq : a = q
      · subst hq; simp [h1, h, deleteSession]
      · have hq2 : ¬ q = a := fun e => hq e.symm
        simp [h1, hq, hq2, deleteSession]

@[simp]
theorem syncSessionMenus_se (st : KState) (s : Nat) :
    (syncSessionMenus st s).se = st.se := by
  unfold syncSessionMenus; split <;> rfl

@[simp]
theorem syncSessionMenus_se_previous (st : KState) (s : Nat) :
    (syncSessionMenus st s).se_previous = st.se_previous := by
  unfold syncSessionMenus; split <;> rfl

@[simp]
theorem syncSessionMenus_objs (st : KState) (s : Nat) :
    (syncSessionMenus st s).objs = st.objs := by
  unfold syncSessionMenus; split <;> rfl

@[simp]
theorem syncSessionMenus_items (st : KState) (s : Nat) :
    (syncSessionMenus st s).sessions.items = st.sessions.items := by
  unfold syncSessionMenus; split <;> simp

@[simp]
theorem syncSessionMenus_menuCreated (st : KState) (s : Nat) :
    (syncSessionMenus st s).m_menuCreated = st.m_menuCreated := by
  unfold syncSessionMenus; split <;> rfl

@[simp]
theorem dropStaleActive_te (st : KState) :
    (dropStaleActive st).te = st.te := by
  unfold dropStaleActive
  split
  · rfl
  · simp only; split <;> rfl

@[simp]
theorem syncSessionMenus_te (st : KState) (s : Nat) :
    (syncSessionMenus st s).te = st.te := by
  unfold syncSessionMenus; split <;> rfl

theorem activateSession_of_no_te (st : KState) (s : Nat) (hte : st.te = none) :
    activateSession st s = selectActive (dropStaleActive st) s := by
  have h : (selectActive (dropStaleActive st) s).te = none := by
    simp [selectActive, hte]
  unfold activateSession
  simp only []
  split
  · rfl
  · rename_i h2
    rw [h] at h2
    exact absurd h2 (by simp)

theorem activateSession_of_te (st : KState) (s t : Nat) (hte : st.te = some t) :
    activateSession st s =
      syncSessionMenus
        (updSession (selectActive (dropStaleActive st) s) s
          (fun o => { o with connect := true })) s := by
  have h : (selectActive (dropStaleActive st) s).te = some t := by
    simp [selectActive, hte]
  unfold activateSession
  simp only []
  split
  · rename_i h2
    rw [h] at h2
    exact absurd h2 (by simp)
  · rfl

@[simp]
theorem activateSession_se (st : KState) (s : Nat) :
    (activateSession st s).se = some s := by
  cases hte : st.te with
  | none => rw [activateSession_of_no_te st s hte]; simp [selectActive]
  | some t => rw [activateSession_of_te st s t hte]; simp [selectActive, updSession]

@[simp]
theorem activateSession_items (st : KState) (s : Nat) :
    (activateSession st s).sessions.items = st.sessions.items := by
  cases hte : st.te with
  | none => rw [activateSession_of_no_te st s hte]; simp [selectActive]
  | some t => rw [activateSession_of_te st s t hte]; simp [selectActive, updSession]

@[simp]
theorem activateSession_menuCreated (st : KState) (s : Nat) :
    (activateSession st s).m_menuCreated = st.m_menuCreated := by
  cases hte : st.te with
  | none => rw [activateSession_of_no_te st s hte]; simp [selectActive]
  | some t => rw [activateSession_of_te st s t hte]; simp [selectActive, updSession]

theorem activateSession_se_previous (st : KState) (s : Nat) :
    (activateSession st s).se_previous =
      if (dropStaleActive st).se ≠ some s then (dropStaleActive st).se else st.se_previous := by
  cases hte : st.te with
  | none => rw [activateSession_of_no_te st s hte]; simp [selectActive]
  | some t => rw [activateSession_of_te st s t hte]; simp [selectActive, updSession]

theorem activateSession_objs (st : KState) (s q t : Nat) (hte : st.te = some t) :
    (activateSession st s).objs q =
      if q = s then ((dropStaleActive st).objs q).map (fun o => { o with connect := true })
      else (dropStaleActive st).objs q := by
  rw [activateSession_of_te st s t hte]
  simp [selectActive, updSession]

theorem activateSession_objs_no_te (st : KState) (s q : Nat) (hte : st.te = none) :
    (activateSession st s).objs q = (dropStaleActive st).objs q := by
  rw [activateSession_of_no_te st s hte]
  simp [selectActive]

@[simp]
theorem activateSession_te (st : KState) (s : Nat) :
    (activateSession st s).te = st.te := by
  cases hte : st.te with
  | none => rw [activateSession_of_no_te st s hte]; simp [selectActive, hte]
  | some t => rw [activateSession_of_te st s t hte]; simp [selectActive, updSession, hte]

@[simp]
theorem dropStaleActive_session2action (st : KState) :
    (dropStaleActive st).session2action = st.session2action := by
  unfold dropStaleActive
  split
  · rfl
  · simp only; split <;> rfl

@[simp]
theorem syncSessionMenus_session2action (st : KState) (s : Nat) :
    (syncSessionMenus st s).session2action = st.session2action := by
  unfold syncSessionMenus; split <;> rfl

@[simp]
theorem activateSession_session2action (st : KState) (s : Nat) :
    (activateSession st s).session2action = st.session2action := by
  cases hte : st.te with
  | none => rw [activateSession_of_no_te st s hte]; simp [selectActive]
  | some t => rw [activateSession_of_te st s t hte]; simp [selectActive, updSession]

@[simp]
theorem dropStaleActive_action2session (st : KState) :
    (dropStaleActive st).action2session = st.action2session := by
  unfold dropStaleActive
  split
  · rfl
  · simp only; split <;> rfl

@[simp]
theorem syncSessionMenus_action2session (st : KState) (s : Nat) :
    (syncSessionMenus st s).action2session = st.action2session := by
  unfold syncSessionMenus; split <;> rfl

@[simp]
theorem activateSession_action2session (st : KState) (s : Nat) :
    (activateSession st s).action2session = st.action2session := by
  cases hte : st.te with
  | none => rw [activateSession_of_no_te st s hte]; simp [selectActive]
  | some t => rw [activateSession_of_te st s t hte]; simp [selectActive, updSession]

@[simp]
theorem dropStaleActive_closing (st : KState) :
    (dropStaleActive st).closing = st.closing := by
  unfold dropStaleActive
  split
  · rfl
  · simp only; split <;> rfl

@[simp]
theorem syncSessionMenus_closing (st : KState) (s : Nat) :
    (syncSessionMenus st s).closing = st.closing := by
  unfold syncSessionMenus; split <;> rfl

@[simp]
theorem activateSession_closing (st : KState) (s : Nat) :
    (activateSession st s).closing = st.closing := by
  cases hte : st.te with
  | none => rw [activateSession_of_no_te st s hte]; simp [selectActive]
  | some t => rw [activateSession_of_te st s t hte]; simp [selectActive, updSession]

@[simp]
theorem dropStaleActive_checkedAction (st : KState) :
    (dropStaleActive st).checkedAction = st.checkedAction := by
  unfold dropStaleActive
  split
  · rfl
  · simp only; split <;> rfl

@[simp]
theorem syncSessionMenus_checkedAction (st : KState) (s : Nat) :
    (syncSessionMenus st s).checkedAction = st.checkedAction := by
  unfold syncSessionMenus; split <;> rfl

@[simp]
theorem activateSession_checkedAction (st : KState) (s : Nat) :
    (activateSession st s).checkedAction = st.checkedAction := by
  cases hte : st.te with
  | none => rw [activateSession_of_no_te st s hte]; simp [selectActive]
  | some t => rw [activateSession_of_te st s t hte]; simp [selectActive, updSession]

@[simp]
theorem dropStaleActive_manager (st : KState) :
    (dropStaleActive st).manager = st.manager := by
  unfold dropStaleActive
  split
  · rfl
  · simp only; split <;> rfl

@[simp]
theorem syncSessionMenus_manager (st : KState) (s : Nat) :
    (syncSessionMenus st s).manager = st.manager := by
  unfold syncSessionMenus; split <;> rfl

@[simp]
theorem activateSession_manager (st : KState) (s : Nat) :
    (activateSession st s).manager = st.manager := by
  cases hte : st.te with
  | none => rw [activateSession_of_no_te st s hte]; simp [selectActive]
  | some t => rw [activateSession_of_te st s t hte]; simp [selectActive, updSession]

@[simp]
theorem dropStaleActive_b_histEnabled (st : KState) :
    (dropStaleActive st).b_histEnabled = st.b_histEnabled := by
  unfold dropStaleActive
  split
  · rfl
  · simp only; split <;> rfl

@[simp]
theorem syncSessionMenus_b_histEnabled (st : KState) (s : Nat) :
    (syncSessionMenus st s).b_histEnabled = st.b_histEnabled := by
  unfold syncSessionMenus; split <;> rfl

@[simp]
theorem activateSession_b_histEnabled (st : KState) (s : Nat) :
    (activateSession st s).b_histEnabled = st.b_histEnabled := by
  cases hte : st.te with
  | none => rw [activateSession_of_no_te st s hte]; simp [selectActive]
  | some t => rw [activateSession_of_te st s t hte]; simp [selectActive, updSession]

@[simp]
theorem dropStaleActive_m_histSize (st : KState) :
    (dropStaleActive st).m_histSize = st.m_histSize := by
  unfold dropStaleActive
  split
  · rfl
  · simp only; split <;> rfl

@[simp]
theorem syncSessionMenus_m_histSize (st : KState) (s : Nat) :
    (syncSessionMenus st s).m_histSize = st.m_histSize := by
  unfold syncSessionMenus; split <;> rfl

@[simp]
theorem activateSession_m_histSize (st : KState) (s : Nat) :
    (activateSession st s).m_histSize = st.m_histSize := by
  cases hte : st.te with
  | none => rw [activateSession_of_no_te st s hte]; simp [selectActive]
  | some t => rw [activateSession_of_te st s t hte]; simp [selectActive, updSession]

@[simp]
theorem dropStaleActive_i18ncNo (st : KState) :
    (dropStaleActive st).i18ncNo = st.i18ncNo := by
  unfold dropStaleActive
  split
  · rfl
  · simp only; split <;> rfl

@[simp]
theorem syncSessionMenus_i18ncNo (st : KState) (s : Nat) :
    (syncSessionMenus st s).i18ncNo = st.i18ncNo := by
  unfold syncSessionMenus; split <;> rfl

@[simp]
theorem activateSession_i18ncNo (st : KState) (s : Nat) :
    (activateSession st s).i18ncNo = st.i18ncNo := by
  cases hte : st.te with
  | none => rw [activateSession_of_no_te st s hte]; simp [selectActive]
  | some t => rw [activateSession_of_te st s t hte]; simp [selectActive, updSession]

@[simp]
theorem dropStaleActive_containers (st : KState) :
    (dropStaleActive st).containers = st.containers := by
  unfold dropStaleActive
  split
  · rfl
  · simp only; split <;> rfl

@[simp]
theorem syncSessionMenus_containers (st : KState) (s : Nat) :
    (syncSessionMenus st s).containers = st.containers := by
  unfold syncSessionMenus; split <;> rfl

@[simp]
theorem activateSession_containers (st : KState) (s : Nat) :
    (activateSession st s).containers = st.containers := by
  cases hte : st.te with
  | none => rw [activateSession_of_no_te st s hte]; simp [selectActive]
  | some t => rw [activateSession_of_te st s t hte]; simp [selectActive, updSession]

@[simp]
theorem dropStaleActive_activeContainer (st : KState) :
    (dropStaleActive st).activeContainer = st.activeContainer := by
  unfold dropStaleActive
  split
  · rfl
  · simp only; split <;> rfl

@[simp]
theorem syncSessionMenus_activeContainer (st : KState) (s : Nat) :
    (syncSessionMenus st s).activeContainer = st.activeContainer := by
  unfold syncSessionMenus; split <;> rfl

@[simp]
theorem activateSession_activeContainer (st : KState) (s : Nat) :
    (activateSession st s).activeContainer = st.activeContainer := by
  cases hte : st.te with
  | none => rw [activateSession_of_no_te st s hte]; simp [selectActive]
  | some t => rw [activateSession_of_te st s t hte]; simp [selectActive, updSession]

@[simp]
theorem dropStaleActive_hasOptions (st : KState) :
    (dropStaleActive st).hasOptions = st.hasOptions := by
  unfold dropStaleActive
  split
  · rfl
  · simp only; split <;> rfl

@[simp]
theorem syncSessionMenus_hasOptions (st : KState) (s : Nat) :
    (syncSessionMenus st s).hasOptions = st.hasOptions := by
  unfold syncSessionMenus; split <;> rfl

@[simp]
theorem activateSession_hasOptions (st : KState) (s : Nat) :
    (activateSession st s).hasOptions = st.hasOptions := by
  cases hte : st.te with
  | none => rw [activateSession_of_no_te st s hte]; simp [selectActive]
  | some t => rw [activateSession_of_te st s t hte]; simp [selectActive, updSession]

@[simp]
theorem dropStaleActive_charsets (st : KState) :
    (dropStaleActive st).charsets = st.charsets := by
  unfold dropStaleActive
  split
  · rfl
  · simp only; split <;> rfl

@[simp]
theorem syncSessionMenus_charsets (st : KState) (s : Nat) :
    (syncSessionMenus st s).charsets = st.charsets := by
  unfold syncSessionMenus; split <;> rfl

@[simp]
theorem activateSession_charsets (st : KState) (s : Nat) :
    (activateSession st s).charsets = st.charsets := by
  cases hte : st.te with
  | none => rw [activateSession_of_no_te st s hte]; simp [selectActive]
  | some t => rw [activateSession_of_te st s t hte]; simp [selectActive, updSession]

@[simp]
theorem dropStaleActive_globalConfig (st : KState) :
    (dropStaleActive st).globalConfig = st.globalConfig := by
  unfold dropStaleActive
  split
  · rfl
  · simp only; split <;> rfl

@[simp]
theorem syncSessionMenus_globalConfig (st : KState) (s : Nat) :
    (syncSessionMenus st s).globalConfig = st.globalConfig := by
  unfold syncSessionMenus; split <;> rfl

@[simp]
theorem activateSession_globalConfig (st : KState) (s : Nat) :
    (activateSession st s).globalConfig = st.globalConfig := by
  cases hte : st.te with
  | none => rw [activateSession_of_no_te st s hte]; simp [selectActive]
  | some t => rw [activateSession_of_te st s t hte]; simp [selectActive, updSession]

@[simp]
theorem dropStaleActive_s_encodingName (st : KState) :
    (dropStaleActive st).s_encodingName = st.s_encodingName := by
  unfold dropStaleActive
  split
  · rfl
  · simp only; split <;> rfl

@[simp]
theorem syncSessionMenus_s_encodingName (st : KState) (s : Nat) :
    (syncSessionMenus st s).s_encodingName = st.s_encodingName := by
  unfold syncSessionMenus; split <;> rfl

@[simp]
theorem activateSession_s_encodingName (st : KState) (s : Nat) :
    (activateSession st s).s_encodingName = st.s_encodingName := by
  cases hte : st.te with
  | none => rw [activateSession_of_no_te st s hte]; simp [selectActive]
  | some t => rw [activateSession_of_te st s t hte]; simp [selectActive, updSession]

@[simp]
theorem dropStaleActive_b_addToUtmp (st : KState) :
    (dropStaleActive st).b_addToUtmp = st.b_addToUtmp := by
  unfold dropStaleActive
  split
  · rfl
  · simp only; split <;> rfl

@[simp]
theorem syncSessionMenus_b_addToUtmp (st : KState) (s : Nat) :
    (syncSessionMenus st s).b_addToUtmp = st.b_addToUtmp := by
  unfold syncSessionMenus; split <;> rfl

@[simp]
theorem activateSession_b_addToUtmp (st : KState) (s : Nat) :
    (activateSession st s).b_addToUtmp = st.b_addToUtmp := by
  cases hte : st.te with
  | none => rw [activateSession_of_no_te st s hte]; simp [selectActive]
  | some t => rw [activateSession_of_te st s t hte]; simp [selectActive, updSession]

@[simp]
theorem dropStaleActive_nextAction (st : KState) :
    (dropStaleActive st).nextAction = st.nextAction := by
  unfold dropStaleActive
  split
  · rfl
  · simp only; split <;> rfl

@[simp]
theorem syncSessionMenus_nextAction (st : KState) (s : Nat) :
    (syncSessionMenus st s).nextAction = st.nextAction := by
  unfold syncSessionMenus; split <;> rfl

@[simp]
theorem activateSession_nextAction (st : KState) (s : Nat) :
    (activateSession st s).nextAction = st.nextAction := by
  cases hte : st.te with
  | none => rw [activateSession_of_no_te st s hte]; simp [selectActive]
  | some t => rw [activateSession_of_te st s t hte]; simp [selectActive, updSession]

/-! ## C3 and C4: activation -/

/-- C3: in a window with a terminal display `t` (the function dereferences
`te`), when the active session `a` is in the session list, after
`activateSession(s)` the active session is `s`; the previous session is `a` if
`a` is not `s`, and is unchanged if `a` is `s`. The function runs to its end: the
connect flag of a live `s` is set, and the display is still `t`. -/
theorem activateSession_records_previous (st : KState) (s a t : Nat)
    (hte : st.te = some t) (hse : st.se = some a) (hin : a ∈ st.sessions.items) :
    (activateSession st s).se = some s ∧
    (a ≠ s → (activateSession st s).se_previous = some a) ∧
    (a = s → (activateSession st s).se_previous = st.se_previous) ∧
    (∀ o, st.objs s = some o →
      ((activateSession st s).objs s).map Session.connect = some true) ∧
    (activateSession st s).te = some t := by
  have hd := dropStaleActive_se_of_mem st a hse hin
  refine ⟨activateSession_se st s, ?_, ?_, ?_, by rw [activateSession_te, hte]⟩
  · intro hne
    simp [activateSession_se_previous, hd, hne]
  · intro heq
    simp [activateSession_se_previous, hd, heq]
  · intro o ho
    have hs : ¬ (st.se = some s ∧ s ∉ st.sessions.items) := by
      rintro ⟨h2, h3⟩
      rw [hse] at h2
      exact h3 (Option.some.inj h2 ▸ hin)
    simp [activateSession_objs st s s t hte, dropStaleActive_objs, hs, ho]

/-- Witness of C3: in the sample window, which has the display 0, session 1 is
active; activating session 2 makes 2 active and 1 previous. -/
theorem activateSession_records_previous_witness :
    (activateSession demoState 2).se = some 2 ∧
    (activateSession demoState 2).se_previous = some 1 :=
  ⟨(activateSession_records_previous demoState 2 1 0 rfl rfl (by decide)).1,
   (activateSession_records_previous demoState 2 1 0 rfl rfl (by decide)).2.1 (by decide)⟩

/-- C4, as stated, fails: in the sample window, which has the display 0, the
active session 1 has its connect flag set; after `activateSession` of session 2
the flag of session 1 is still set. -/
theorem activateSession_keeps_former_connected :
    demoState.te = some 0 ∧
    ¬ ((getSession (activateSession demoState 2) 1).connect = false ∧
       (getSession (activateSession demoState 2) 2).connect = true) := by
  refine ⟨rfl, ?_⟩
  intro h
  have h1 : (getSession (activateSession demoState 2) 1).connect = true := by
    decide
  rw [h1] at h
  exact Bool.noConfusion h.1

/-- C4, amended: in a window with a terminal display `t` (the function
dereferences `te` before it connects), when the active session `a` is in the list
and differs from `s`, `activateSession(s)` sets the connect flag of `s` and leaves
the session object of `a`, its connect flag included, as it was. -/
theorem activateSession_connects_target (st : KState) (s a t : Nat)
    (hte : st.te = some t)
    (hse : st.se = some a) (hin : a ∈ st.sessions.items) (hne : a ≠ s) :
    (activateSession st s).objs a = st.objs a ∧
    (getSession (activateSession st s) a).connect = (getSession st a).connect ∧
    (∀ o, st.objs s = some o → (activateSession st s).objs s = some { o with connect := true }) := by
  have h1 : (activateSession st s).objs a = st.objs a := by
    simp [activateSession_objs st s a t hte, dropStaleActive_objs, hne, hin]
  refine ⟨h1, ?_, ?_⟩
  · simp [getSession, h1]
  · intro o ho
    have hs : ¬ (st.se = some s ∧ s ∉ st.sessions.items) := by
      rintro ⟨h2, -⟩
      rw [hse] at h2
      exact hne (Option.some.inj h2)
    simp [activateSession_objs st s s t hte, dropStaleActive_objs, hs, ho]

/-- Witness of the amended C4 in the sample window, which has the display 0:
session 2 becomes connected, session 1 stays connected. -/
theorem activateSession_connects_target_witness :
    (getSession (activateSession demoState 2) 1).connect = (getSession demoState 1).connect ∧
    (activateSession demoState 2).objs 2 =
      some { sessionId := "2", title := "Shell No. 2", connect := true } :=
  ⟨(activateSession_connects_target demoState 2 1 0 rfl rfl (by decide) (by decide)).2.1,
   (activateSession_connects_target demoState 2 1 0 rfl rfl (by decide) (by decide)).2.2 _ rfl⟩

/-! ## C1: master mode -/

theorem setMasterMode_keyConnections (st : KState) (state : Bool) (target : Option Nat) :
    (setMasterMode st state target).keyConnections = st.keyConnections := by
  unfold setMasterMode enableMasterModeConnections disableMasterModeConnections
  split
  · rfl
  · split
    · rfl
    · simp only [updSession]
      split <;> split <;> rfl

/-- C1, evaluated on the code: in the sample window (sessions 1, 2, 3, none of
them master) `setMasterMode(true, 1)` sets the master flag of session 1, yet a
key press of the view of session 1 reaches the emulation of session 1 once and
the emulations of sessions 2 and 3 not at all. -/
theorem setMasterMode_makes_no_connection :
    (getSession (setMasterMode demoState true (some 1)) 1).masterMode = true ∧
    keyPressDeliveries (setMasterMode demoState true (some 1)) 1 1 = 1 ∧
    keyPressDeliveries (setMasterMode demoState true (some 1)) 1 2 = 0 ∧
    keyPressDeliveries (setMasterMode demoState true (some 1)) 1 3 = 0 := by
  decide

/-! ## The title loop of addSession -/

theorem uniqueTitleLoop_none (titles : List String) (render : Nat → String) :
    ∀ (fuel count : Nat) (newTitle : String),
      uniqueTitleLoop titles render fuel count newTitle = none →
      (0 < fuel → newTitle ∈ titles) ∧
      ∀ k, count < k → k < count + fuel → render k ∈ titles := by
  intro fuel
  induction fuel with
  | zero =>
    intro count newTitle _
    exact ⟨fun h => absurd h (by omega), fun k h1 h2 => absurd h2 (by omega)⟩
  | succ fuel ih =>
    intro count newTitle h
    unfold uniqueTitleLoop at h
    by_cases hmem : newTitle ∈ titles
    · rw [if_pos hmem] at h
      obtain ⟨h1, h2⟩ := ih (count + 1) (render (count + 1)) h
      refine ⟨fun _ => hmem, fun k hk1 hk2 => ?_⟩
      by_cases hk : k = count + 1
      · subst hk
        exact h1 (by omega)
      · exact h2 k (by omega) (by omega)
    · rw [if_neg hmem] at h
      exact absurd h (by simp)

theorem uniqueTitleLoop_terminates (titles : List String) (render : Nat → String)
    (title : String) (fuel : Nat) (hfuel : titles.length + 2 ≤ fuel)
    (hinj : RendersDistinct render (titles.length + 2)) :
    ∃ t, uniqueTitleLoop titles render fuel 1 title = some t := by
  cases h : uniqueTitleLoop titles render fuel 1 title with
  | some t => exact ⟨t, rfl⟩
  | none =>
    exfalso
    obtain ⟨-, h2⟩ := uniqueTitleLoop_none titles render fuel 1 title h
    have hsub : (List.range' 2 (titles.length + 1)).map render ⊆ titles := by
      intro x hx
      rw [List.mem_map] at hx
      obtain ⟨k, hk, rfl⟩ := hx
      rw [List.mem_range'_1] at hk
      exact h2 k (by omega) (by omega)
    have hnd : ((List.range' 2 (titles.length + 1)).map render).Nodup := by
      apply List.Nodup.map_on _ (List.nodup_range' 2 (titles.length + 1))
      intro x hx y hy hxy
      rw [List.mem_range'_1] at hx hy
      exact hinj x (by omega) y (by omega) hxy
    have hlen := (List.subperm_of_subset hnd hsub).length_le
    simp at hlen

/-! ## Encoding -/

theorem indexOfFrom_eq_neg_one (needle : List Char) :
    ∀ (hay : List Char) (pos : Nat), indexOfFrom needle hay pos = -1 ↔ ¬ needle <:+: hay := by
  intro hay
  induction hay with
  | nil =>
    intro pos
    unfold indexOfFrom
    by_cases h : needle.isPrefixOf [] = true
    · have h2 : needle <+: [] := List.isPrefixOf_iff_prefix.mp h
      have h3 : needle <:+: [] := h2.isInfix
      simp only [h, if_true]
      constructor
      · intro h4; omega
      · intro h4; exact absurd h3 h4
    · have h3 : ¬ needle <:+: [] := by
        intro h4
        apply h
        rw [List.infix_nil] at h4
        subst h4
        rfl
      simp [h, h3]
  | cons c cs ih =>
    intro pos
    unfold indexOfFrom
    by_cases h : needle.isPrefixOf (c :: cs) = true
    · have h2 : needle <+: (c :: cs) := List.isPrefixOf_iff_prefix.mp h
      simp only [h, if_true]
      constructor
      · intro h4; omega
      · intro h4; exact absurd h2.isInfix h4
    · have h2 : ¬ needle <+: (c :: cs) := fun h3 => h (List.isPrefixOf_iff_prefix.mpr h3)
      simp only [h, Bool.false_eq_true, if_false]
      rw [ih (pos + 1), List.infix_cons_iff]
      simp [h2]

theorem qIndexOf_ne_neg_one (s t : String) : (qIndexOf s t != -1) = true ↔ containsText s t := by
  unfold qIndexOf containsText
  rw [bne_iff_ne, Ne, indexOfFrom_eq_neg_one]
  exact not_not

/-- C7, as stated, fails: with the entry `Klingon ( piqad )` selected, for which
the codec lookup reports not found, `slotSetEncoding` replaces codec 7 of the
active session by the locale codec 4. -/
theorem slotSetEncoding_unknown_replaces_codec :
    (∃ menu, encState.selectSetEncoding = some menu ∧ menu.currentItem ≠ 0 ∧
      (encState.charsets.codecForName
        (encState.charsets.encodingForName menu.currentText)).2 = false) ∧
    (getSession encState 1).codec = 7 ∧
    (getSession (slotSetEncoding encState) 1).codec = 4 := by
  refine ⟨⟨_, rfl, by decide, by decide⟩, by decide, by decide⟩

/-- C7, amended: when a non-default entry is selected and the codec lookup for it
reports not found, `slotSetEncoding` gives the active session the locale codec
(and the selected index as encoding number). -/
theorem slotSetEncoding_unknown_falls_back (st : KState) (a : Nat) (menu : KSelectAction)
    (o : Session) (hse : st.se = some a) (hmenu : st.selectSetEncoding = some menu)
    (hobj : st.objs a = some o) (hsel : menu.currentItem ≠ 0)
    (hnot : (st.charsets.codecForName
      (st.charsets.encodingForName menu.currentText)).2 = false) :
    (slotSetEncoding st).objs a =
      some { o with encodingNo := menu.currentItem, codec := st.codecForLocale } := by
  simp [slotSetEncoding, hse, hmenu, hsel, hnot, updSession, hobj]

/-- Witness of the amended C7 in the sample window. -/
theorem slotSetEncoding_unknown_falls_back_witness :
    (slotSetEncoding encState).objs 1 =
      some { sessionId := "1", title := "Shell", connect := true, encodingNo := 3, codec := 4 } :=
  slotSetEncoding_unknown_falls_back encState 1
    { items := ["Default", "Baltic ( iso 8859-13 )", "Western European ( iso 8859-1 )",
        "Klingon ( piqad )"]
      currentItem := 3 }
    { sessionId := "1", title := "Shell", connect := true, codec := 7 }
    rfl rfl rfl (by decide) (by decide)

theorem findIdx_of_isFirstMatch (names : List String) (t : String) (i : Nat)
    (h : IsFirstMatch names t i) :
    names.findIdx (fun it => qIndexOf it t != -1) = i := by
  obtain ⟨hlt, hhit, hmiss⟩ := h
  rw [List.findIdx_eq hlt]
  constructor
  · rw [List.getD_eq_getElem _ _ hlt] at hhit
    exact (qIndexOf_ne_neg_one _ _).mpr hhit
  · intro j hj
    have hm := hmiss j hj
    rw [List.getD_eq_getElem _ _ (Nat.lt_trans hj hlt)] at hm
    cases hb : (qIndexOf names[j] t != -1) with
    | false => rfl
    | true => exact absurd ((qIndexOf_ne_neg_one _ _).mp hb) hm

theorem findIdx_of_no_match (names : List String) (t : String)
    (h : ∀ n, n ∈ names → ¬ containsText n t) :
    names.findIdx (fun it => qIndexOf it t != -1) = names.length := by
  rw [List.findIdx_eq_length]
  intro x hx
  cases hb : (qIndexOf x t != -1) with
  | false => rfl
  | true => exact absurd ((qIndexOf_ne_neg_one _ _).mp hb) (h x hx)

theorem activateSession_objs_of_sheltered (st : KState) (x p t : Nat)
    (hte : st.te = some t) (hsh : st.se = some p → p ∈ st.sessions.items) :
    (activateSession st x).objs p =
      if p = x then (st.objs p).map (fun o => { o with connect := true }) else st.objs p := by
  have h : ¬ (st.se = some p ∧ p ∉ st.sessions.items) := fun ⟨h1, h2⟩ => h2 (hsh h1)
  simp [activateSession_objs st x p t hte, dropStaleActive_objs, h]

theorem activateSession_objs_map {α : Type} (g : Session → α)
    (hg : ∀ o b, g { o with connect := b } = g o) (st : KState) (x p : Nat)
    (hsh : st.se = some p → p ∈ st.sessions.items) :
    ((activateSession st x).objs p).map g = (st.objs p).map g := by
  have h : ¬ (st.se = some p ∧ p ∉ st.sessions.items) := fun ⟨h1, h2⟩ => h2 (hsh h1)
  cases hte : st.te with
  | none => rw [activateSession_objs_no_te st x p hte, dropStaleActive_objs, if_neg h]
  | some t =>
    rw [activateSession_objs_of_sheltered st x p t hte hsh]
    split
    · rw [Option.map_map]
      have : (g ∘ fun o : Session => { o with connect := true }) = g := by
        funext o
        exact hg o true
      rw [this]
    · rfl

/-- C8: `setSessionEncoding(encoding, session)` leaves the whole state, and so the
session's encoding number and codec, unchanged when `encoding` is empty, when no
descriptive name contains `encoding` followed by a space, or when the codec
lookup for the first such name reports not found. Otherwise the encoding number
becomes 1 + the index of the first descriptive name that contains `encoding`
followed by a space, and the codec the one found for that name. -/
theorem setSessionEncoding_atomic (st : KState) (encoding : String) (session : Option Nat) :
    (encoding.isEmpty = true → setSessionEncoding st encoding session = st) ∧
    ((∀ n, n ∈ st.charsets.descriptiveEncodingNames → ¬ containsText n (encoding ++ " ")) →
      setSessionEncoding st encoding session = st) ∧
    (∀ i, IsFirstMatch st.charsets.descriptiveEncodingNames (encoding ++ " ") i →
      (st.charsets.codecForName (st.charsets.encodingForName
        (st.charsets.descriptiveEncodingNames.getD i ""))).2 = false →
      setSessionEncoding st encoding session = st) ∧
    (∀ i p o, encoding.isEmpty = false →
      IsFirstMatch st.charsets.descriptiveEncodingNames (encoding ++ " ") i →
      (st.charsets.codecForName (st.charsets.encodingForName
        (st.charsets.descriptiveEncodingNames.getD i ""))).2 = true →
      (match session with | some q => some q | none => st.se) = some p →
      st.objs p = some o →
      (st.se = some p → p ∈ st.sessions.items) →
      ((setSessionEncoding st encoding session).objs p).map Session.encodingNo
          = some ((i : Int) + 1) ∧
      ((setSessionEncoding st encoding session).objs p).map Session.codec
          = some (st.charsets.codecForName (st.charsets.encodingForName
              (st.charsets.descriptiveEncodingNames.getD i ""))).1) := by
  refine ⟨?_, ?_, ?_, ?_⟩
  · intro he
    simp [setSessionEncoding, he]
  · intro hno
    unfold setSessionEncoding
    simp only [findIdx_of_no_match _ _ hno]
    split
    · rfl
    · split
      · rfl
      · simp
  · intro i hfirst hnot
    unfold setSessionEncoding
    simp only [findIdx_of_isFirstMatch _ _ _ hfirst, hnot]
    split
    · rfl
    · split
      · rfl
      · simp
  · intro i p o he hfirst hfound htarget hobj hsh
    have hlt : ¬ i ≥ st.charsets.descriptiveEncodingNames.length := Nat.not_le.mpr hfirst.1
    unfold setSessionEncoding
    simp only [findIdx_of_isFirstMatch _ _ _ hfirst, hfound, he, htarget, hlt]
    by_cases hact : st.se = some p
    · cases hte : st.te with
      | none =>
        simp [hact, activateSession_objs_no_te, dropStaleActive_objs, hte, hsh hact, hobj,
          updSession]
      | some t =>
        simp [hact, activateSession_objs_of_sheltered _ _ _ t, hte, hsh hact, hobj, updSession]
    · simp [hact, hobj, updSession]

/-- Witness of C8 in the sample window, for session 2: the empty name, an
unknown name and a name without codec leave the state unchanged; `iso 8859-1`
selects the second descriptive name (encoding number 2, codec 1), although the
first one contains `iso 8859-1` as the beginning of `iso 8859-13`. -/
theorem setSessionEncoding_atomic_witness :
    setSessionEncoding encState "" (some 2) = encState ∧
    setSessionEncoding encState "utf-8" (some 2) = encState ∧
    setSessionEncoding encState "piqad" (some 2) = encState ∧
    containsText "Baltic ( iso 8859-13 )" "iso 8859-1" ∧
    ((setSessionEncoding encState "iso 8859-1" (some 2)).objs 2).map Session.encodingNo
      = some 2 ∧
    ((setSessionEncoding encState "iso 8859-1" (some 2)).objs 2).map Session.codec
      = some 1 :=
  ⟨(setSessionEncoding_atomic encState "" (some 2)).1 (by decide),
   (setSessionEncoding_atomic encState "utf-8" (some 2)).2.1 (by decide),
   (setSessionEncoding_atomic encState "piqad" (some 2)).2.2.1 2 (by decide) (by decide),
   by decide,
   ((setSessionEncoding_atomic encState "iso 8859-1" (some 2)).2.2.2 1 2
      { sessionId := "2", title := "Shell No. 2" }
      (by decide) (by decide) (by decide) rfl rfl (by decide)).1,
   ((setSessionEncoding_atomic encState "iso 8859-1" (some 2)).2.2.2 1 2
      { sessionId := "2", title := "Shell No. 2" }
      (by decide) (by decide) (by decide) rfl rfl (by decide)).2⟩

/-! ## C9: shutdown -/

theorem waitLoop_empty_or_timed_out :
    ∀ (waits : List WaitOutcome) (ss : List Nat),
      (waitLoop ss waits).sessions = [] ∨ (waitLoop ss waits).timedOut = true := by
  intro waits
  induction waits with
  | nil =>
    intro ss
    cases ss with
    | nil => left; rfl
    | cons a t => right; simp [waitLoop]
  | cons o rest ih =>
    intro ss
    unfold waitLoop
    by_cases h0 : ss.length = 0
    · left
      simp only [h0, if_true]
      exact List.length_eq_zero.mp h0
    · simp only [h0, if_false]
      cases o.exited with
      | true => simpa using ih _
      | false => right; simp

/-- C9, as stated, fails: in the sample window the first wait for a process exit
times out while all three children are still running; the wait loop ends and the
session manager still lists the sessions 1, 2, 3, each of which was closed. -/
theorem destroyKonsole_leaves_sessions :
    (destroyKonsole demoState [{ exited := false, removed := [] }]).1.manager.sessions
      = [1, 2, 3] ∧
    (∀ p, p ∈ [1, 2, 3] →
      (getSession (destroyKonsole demoState [{ exited := false, removed := [] }]).1 p).closeRequested
        = true) := by
  decide

/-- C9, amended: after `~Konsole` has issued `closeSession` on every session of
the session manager and its wait loop has ended, the session manager's list is
empty or the loop ended because a wait for a process exit timed out. -/
theorem destroyKonsole_empty_or_timed_out (st : KState) (waits : List WaitOutcome) :
    (destroyKonsole st waits).1.manager.sessions = [] ∨
    (destroyKonsole st waits).2.timedOut = true := by
  unfold destroyKonsole
  exact waitLoop_empty_or_timed_out _ _

/-! ## Dictionaries -/

theorem dictFind_some_mem (d : Q3PtrDict) (k v : Nat) (h : dictFind d k = some v) :
    (k, v) ∈ d := by
  induction d with
  | nil => simp [dictFind] at h
  | cons e t ih =>
    obtain ⟨k1, v1⟩ := e
    unfold dictFind at h ih
    rw [List.lookup_cons] at h
    by_cases hk : k = k1
    · subst hk
      simp at h
      subst h
      exact List.mem_cons_self _ _
    · have hb : (k == k1) = false := by simpa using hk
      rw [hb] at h
      exact List.mem_cons_of_mem _ (ih h)

theorem dictFind_none_iff (d : Q3PtrDict) (k : Nat) :
    dictFind d k = none ↔ ∀ e, e ∈ d → e.1 ≠ k := by
  induction d with
  | nil => simp [dictFind]
  | cons e t ih =>
    obtain ⟨k1, v1⟩ := e
    unfold dictFind at ih ⊢
    rw [List.lookup_cons]
    by_cases hk : k = k1
    · subst hk
      simp
    · have hb : (k == k1) = false := by simpa using hk
      rw [hb]
      simp only [ih, List.mem_cons, forall_eq_or_imp]
      constructor
      · intro h
        exact ⟨fun h2 => hk h2.symm, h⟩
      · intro h
        exact h.2

theorem dict_pair_unique (d : Q3PtrDict) (hnd : (d.map Prod.fst).Nodup) (k v w : Nat)
    (h1 : (k, v) ∈ d) (h2 : (k, w) ∈ d) : v = w := by
  induction d with
  | nil => simp at h1
  | cons e t ih =>
    rw [List.map_cons, List.nodup_cons] at hnd
    rw [List.mem_cons] at h1 h2
    rcases h1 with h1 | h1 <;> rcases h2 with h2 | h2
    · rw [← h1] at h2
      exact (Prod.mk.inj h2).2.symm
    · exfalso
      apply hnd.1
      rw [← h1]
      exact List.mem_map.mpr ⟨(k, w), h2, rfl⟩
    · exfalso
      apply hnd.1
      rw [← h2]
      exact List.mem_map.mpr ⟨(k, v), h1, rfl⟩
    · exact ih hnd.2 h1 h2

theorem dictRemove_subset (d : Q3PtrDict) (k : Nat) (e : Nat × Nat)
    (h : e ∈ dictRemove d k) : e ∈ d :=
  (List.eraseP_subset d) h

theorem dictRemove_keys_nodup (d : Q3PtrDict) (k : Nat) (hnd : (d.map Prod.fst).Nodup) :
    ((dictRemove d k).map Prod.fst).Nodup :=
  List.Nodup.sublist ((List.eraseP_sublist d).map Prod.fst) hnd

theorem mem_dictRemove (d : Q3PtrDict) (hnd : (d.map Prod.fst).Nodup) (k : Nat) (e : Nat × Nat) :
    e ∈ dictRemove d k ↔ e ∈ d ∧ e.1 ≠ k := by
  induction d with
  | nil => simp [dictRemove]
  | cons x t ih =>
    rw [List.map_cons, List.nodup_cons] at hnd
    unfold dictRemove at ih ⊢
    rw [List.eraseP_cons]
    by_cases hk : x.1 = k
    · have hb : (x.1 == k) = true := by simpa using hk
      simp only [hb, cond_true, List.mem_cons]
      constructor
      · intro h
        refine ⟨Or.inr h, fun he => hnd.1 ?_⟩
        rw [hk, ← he]
        exact List.mem_map.mpr ⟨e, h, rfl⟩
      · rintro ⟨h | h, hne⟩
        · exact absurd (by rw [h, hk]) hne
        · exact h
    · have hb : (x.1 == k) = false := by simpa using hk
      simp only [hb, cond_false, List.mem_cons, ih hnd.2]
      constructor
      · rintro (h | ⟨h, hne⟩)
        · exact ⟨Or.inl h, by rw [h]; exact hk⟩
        · exact ⟨Or.inr h, hne⟩
      · rintro ⟨h | h, hne⟩
        · exact Or.inl h
        · exact Or.inr ⟨h, hne⟩

/-! ## Facts about the blocks of doneSession -/

@[simp]
theorem activateSessionChecked_items (st : KState) :
    (activateSessionChecked st).sessions.items = st.sessions.items := by
  unfold activateSessionChecked; split <;> simp

@[simp]
theorem setActionChecked_items (st : KState) (ra : Nat) :
    (setActionChecked st ra).sessions.items = st.sessions.items := by
  unfold setActionChecked; split <;> simp

@[simp]
theorem activateSessionChecked_session2action (st : KState) :
    (activateSessionChecked st).session2action = st.session2action := by
  unfold activateSessionChecked; split <;> simp

@[simp]
theorem setActionChecked_session2action (st : KState) (ra : Nat) :
    (setActionChecked st ra).session2action = st.session2action := by
  unfold setActionChecked; split <;> simp

@[simp]
theorem activateSessionChecked_action2session (st : KState) :
    (activateSessionChecked st).action2session = st.action2session := by
  unfold activateSessionChecked; split <;> simp

@[simp]
theorem setActionChecked_action2session (st : KState) (ra : Nat) :
    (setActionChecked st ra).action2session = st.action2session := by
  unfold setActionChecked; split <;> simp

@[simp]
theorem activateSessionChecked_closing (st : KState) :
    (activateSessionChecked st).closing = st.closing := by
  unfold activateSessionChecked; split <;> simp

@[simp]
theorem setActionChecked_closing (st : KState) (ra : Nat) :
    (setActionChecked st ra).closing = st.closing := by
  unfold setActionChecked; split <;> simp

@[simp]
theorem activateSessionChecked_manager (st : KState) :
    (activateSessionChecked st).manager = st.manager := by
  unfold activateSessionChecked; split <;> simp

@[simp]
theorem setActionChecked_manager (st : KState) (ra : Nat) :
    (setActionChecked st ra).manager = st.manager := by
  unfold setActionChecked; split <;> simp

@[simp]
theorem activateSessionChecked_b_histEnabled (st : KState) :
    (activateSessionChecked st).b_histEnabled = st.b_histEnabled := by
  unfold activateSessionChecked; split <;> simp

@[simp]
theorem setActionChecked_b_histEnabled (st : KState) (ra : Nat) :
    (setActionChecked st ra).b_histEnabled = st.b_histEnabled := by
  unfold setActionChecked; split <;> simp

@[simp]
theorem activateSessionChecked_m_histSize (st : KState) :
    (activateSessionChecked st).m_histSize = st.m_histSize := by
  unfold activateSessionChecked; split <;> simp

@[simp]
theorem setActionChecked_m_histSize (st : KState) (ra : Nat) :
    (setActionChecked st ra).m_histSize = st.m_histSize := by
  unfold setActionChecked; split <;> simp

@[simp]
theorem activateSessionChecked_i18ncNo (st : KState) :
    (activateSessionChecked st).i18ncNo = st.i18ncNo := by
  unfold activateSessionChecked; split <;> simp

@[simp]
theorem setActionChecked_i18ncNo (st : KState) (ra : Nat) :
    (setActionChecked st ra).i18ncNo = st.i18ncNo := by
  unfold setActionChecked; split <;> simp

@[simp]
theorem activateSessionChecked_containers (st : KState) :
    (activateSessionChecked st).containers = st.containers := by
  unfold activateSessionChecked; split <;> simp

@[simp]
theorem setActionChecked_containers (st : KState) (ra : Nat) :
    (setActionChecked st ra).containers = st.containers := by
  unfold setActionChecked; split <;> simp

@[simp]
theorem activateSessionChecked_activeContainer (st : KState) :
    (activateSessionChecked st).activeContainer = st.activeContainer := by
  unfold activateSessionChecked; split <;> simp

@[simp]
theorem setActionChecked_activeContainer (st : KState) (ra : Nat) :
    (setActionChecked st ra).activeContainer = st.activeContainer := by
  unfold setActionChecked; split <;> simp

@[simp]
theorem activateSessionChecked_hasOptions (st : KState) :
    (activateSessionChecked st).hasOptions = st.hasOptions := by
  unfold activateSessionChecked; split <;> simp

@[simp]
theorem setActionChecked_hasOptions (st : KState) (ra : Nat) :
    (setActionChecked st ra).hasOptions = st.hasOptions := by
  unfold setActionChecked; split <;> simp

@[simp]
theorem activateSessionChecked_charsets (st : KState) :
    (activateSessionChecked st).charsets = st.charsets := by
  unfold activateSessionChecked; split <;> simp

@[simp]
theorem setActionChecked_charsets (st : KState) (ra : Nat) :
    (setActionChecked st ra).charsets = st.charsets := by
  unfold setActionChecked; split <;> simp

@[simp]
theorem activateSessionChecked_globalConfig (st : KState) :
    (activateSessionChecked st).globalConfig = st.globalConfig := by
  unfold activateSessionChecked; split <;> simp

@[simp]
theorem setActionChecked_globalConfig (st : KState) (ra : Nat) :
    (setActionChecked st ra).globalConfig = st.globalConfig := by
  unfold setActionChecked; split <;> simp

@[simp]
theorem activateSessionChecked_s_encodingName (st : KState) :
    (activateSessionChecked st).s_encodingName = st.s_encodingName := by
  unfold activateSessionChecked; split <;> simp

@[simp]
theorem setActionChecked_s_encodingName (st : KState) (ra : Nat) :
    (setActionChecked st ra).s_encodingName = st.s_encodingName := by
  unfold setActionChecked; split <;> simp

@[simp]
theorem activateSessionChecked_b_addToUtmp (st : KState) :
    (activateSessionChecked st).b_addToUtmp = st.b_addToUtmp := by
  unfold activateSessionChecked; split <;> simp

@[simp]
theorem setActionChecked_b_addToUtmp (st : KState) (ra : Nat) :
    (setActionChecked st ra).b_addToUtmp = st.b_addToUtmp := by
  unfold setActionChecked; split <;> simp

@[simp]
theorem activateSessionChecked_m_menuCreated (st : KState) :
    (activateSessionChecked st).m_menuCreated = st.m_menuCreated := by
  unfold activateSessionChecked; split <;> simp

@[simp]
theorem setActionChecked_m_menuCreated (st : KState) (ra : Nat) :
    (setActionChecked st ra).m_menuCreated = st.m_menuCreated := by
  unfold setActionChecked; split <;> simp

@[simp]
theorem activateSessionChecked_nextAction (st : KState) :
    (activateSessionChecked st).nextAction = st.nextAction := by
  unfold activateSessionChecked; split <;> simp

@[simp]
theorem setActionChecked_nextAction (st : KState) (ra : Nat) :
    (setActionChecked st ra).nextAction = st.nextAction := by
  unfold setActionChecked; split <;> simp

@[simp]
theorem remove_items (l : Q3PtrList) (p : Nat) :
    (l.remove p).items = l.items.erase p := by
  unfold Q3PtrList.remove
  split
  · rfl
  · rename_i h
    simp [List.erase_of_not_mem h]

@[simp]
theorem atIndex_items (l : Q3PtrList) (i : Int) : (l.atIndex i).1.items = l.items := by
  unfold Q3PtrList.atIndex
  split <;> rfl

theorem atIndex_snd (l : Q3PtrList) (i : Int) :
    (l.atIndex i).2 = if 0 ≤ i ∧ i < (l.items.length : Int) then l.items[i.toNat]? else none := by
  unfold Q3PtrList.atIndex Q3PtrList.count
  split <;> rfl

theorem atIndex_snd_mem (l : Q3PtrList) (i : Int) (n : Nat) (h : (l.atIndex i).2 = some n) :
    n ∈ l.items := by
  rw [atIndex_snd] at h
  split at h
  · exact List.getElem?_mem h
  · exact absurd h (by simp)

theorem findRef_snd_of_mem (l : Q3PtrList) (p : Nat) (h : p ∈ l.items) :
    (l.findRef p).2 = (l.items.indexOf p : Int) := by
  unfold Q3PtrList.findRef
  simp [h]

theorem returnToPrevious_cases (st : KState) (s : Nat) :
    (st.se_previous = none ∧ returnToPrevious st s = st) ∨
    (st.se_previous = some s ∧ returnToPrevious st s = { st with se_previous := none }) ∨
    (∃ p, st.se_previous = some p ∧ p ≠ s ∧ returnToPrevious st s = activateSession st p) := by
  unfold returnToPrevious
  cases hp : st.se_previous with
  | none => left; simp [hp]
  | some p =>
    right
    by_cases h : p = s
    · left; subst h; simp [hp]
    · right
      exact ⟨p, rfl, h, by simp [h, hp]⟩

@[simp]
theorem returnToPrevious_items (st : KState) (s : Nat) :
    (returnToPrevious st s).sessions.items = st.sessions.items := by
  rcases returnToPrevious_cases st s with ⟨-, h⟩ | ⟨-, h⟩ | ⟨p, -, -, h⟩ <;> rw [h]
  simp

@[simp]
theorem returnToPrevious_session2action (st : KState) (s : Nat) :
    (returnToPrevious st s).session2action = st.session2action := by
  rcases returnToPrevious_cases st s with ⟨-, h⟩ | ⟨-, h⟩ | ⟨p, -, -, h⟩ <;> rw [h]
  simp

@[simp]
theorem returnToPrevious_action2session (st : KState) (s : Nat) :
    (returnToPrevious st s).action2session = st.action2session := by
  rcases returnToPrevious_cases st s with ⟨-, h⟩ | ⟨-, h⟩ | ⟨p, -, -, h⟩ <;> rw [h]
  simp

@[simp]
theorem returnToPrevious_closing (st : KState) (s : Nat) :
    (returnToPrevious st s).closing = st.closing := by
  rcases returnToPrevious_cases st s with ⟨-, h⟩ | ⟨-, h⟩ | ⟨p, -, -, h⟩ <;> rw [h]
  simp

theorem returnToPrevious_of_none (st : KState) (s : Nat)
    (h : st.se_previous = none ∨ st.se_previous = some s) :
    (returnToPrevious st s).se = st.se ∧ (returnToPrevious st s).se_previous = none := by
  rcases returnToPrevious_cases st s with ⟨h1, h2⟩ | ⟨-, h2⟩ | ⟨p, h1, hne, -⟩
  · rw [h2]; exact ⟨rfl, h1⟩
  · rw [h2]; exact ⟨rfl, rfl⟩
  · exfalso
    rcases h with h | h
    · rw [h] at h1; exact Option.noConfusion h1
    · rw [h] at h1; exact hne (Option.some.inj h1).symm

theorem returnToPrevious_of_some (st : KState) (s p : Nat)
    (h : st.se_previous = some p) (hne : p ≠ s) :
    (returnToPrevious st s).se = some p := by
  rcases returnToPrevious_cases st s with ⟨h1, -⟩ | ⟨h1, -⟩ | ⟨q, h1, -, h2⟩
  · rw [h] at h1; exact Option.noConfusion h1
  · rw [h] at h1; exact absurd (Option.some.inj h1) hne
  · rw [h] at h1
    rw [h2, ← Option.some.inj h1]
    exact activateSession_se _ _

@[simp]
theorem unregisterSession_se (st : KState) (s : Nat) :
    (unregisterSession st s).1.se = st.se := rfl

@[simp]
theorem unregisterSession_se_previous (st : KState) (s : Nat) :
    (unregisterSession st s).1.se_previous = st.se_previous := rfl

@[simp]
theorem unregisterSession_closing (st : KState) (s : Nat) :
    (unregisterSession st s).1.closing = st.closing := rfl

@[simp]
theorem unregisterSession_items (st : KState) (s : Nat) :
    (unregisterSession st s).1.sessions.items = st.sessions.items.erase s := by
  simp [unregisterSession, deleteSession, updSession]

@[simp]
theorem unregisterSession_session2action (st : KState) (s : Nat) :
    (unregisterSession st s).1.session2action = dictRemove st.session2action s := rfl

theorem unregisterSession_action2session (st : KState) (s : Nat) :
    (unregisterSession st s).1.action2session =
      match dictFind st.session2action s with
      | some r => dictRemove st.action2session r
      | none => st.action2session := rfl

@[simp]
theorem unregisterSession_index (st : KState) (s : Nat) :
    (unregisterSession st s).2 = (st.sessions.findRef s).2 := rfl

theorem setActionChecked_of_consistent (st : KState) (n a : Nat) (hse : st.se = some n)
    (hin : n ∈ st.sessions.items) (hfind : dictFind st.session2action n = some a)
    (hc : PickConsistent st) :
    (setActionChecked st a).se = some n ∧
    (setActionChecked st a).se_previous = st.se_previous := by
  unfold setActionChecked
  split
  · exact ⟨hse, rfl⟩
  · unfold activateSessionChecked
    simp only
    cases hf : st.action2session.find? (fun x => some x.1 == some a) with
    | none => exact ⟨hse, rfl⟩
    | some e =>
      have he : e.2 = n := hc n a e hfind hf
      simp only [he]
      refine ⟨activateSession_se _ _, ?_⟩
      rw [activateSession_se_previous]
      have hd : (dropStaleActive { st with checkedAction := some a }).se = some n :=
        dropStaleActive_se_of_mem _ n hse hin
      simp [hd]

@[simp]
theorem activateNeighbour_items (st : KState) (idx : Int) :
    (activateNeighbour st idx).sessions.items = st.sessions.items := by
  unfold activateNeighbour
  simp only
  split
  · simp
  · split <;> simp

theorem activateNeighbour_se (st : KState) (idx : Int) (hc : PickConsistent st) :
    (activateNeighbour st idx).se = (st.sessions.atIndex (if idx ≠ 0 then idx - 1 else 0)).2 ∧
    (activateNeighbour st idx).se_previous = st.se_previous := by
  unfold activateNeighbour
  simp only
  cases hr : (st.sessions.atIndex (if idx ≠ 0 then idx - 1 else 0)).2 with
  | none => exact ⟨rfl, rfl⟩
  | some n =>
    simp only
    cases hf : dictFind st.session2action n with
    | none => exact ⟨rfl, rfl⟩
    | some a =>
      simp only
      have hin : n ∈ st.sessions.items := atIndex_snd_mem _ _ _ hr
      have h := setActionChecked_of_consistent
        { st with
          sessions := (st.sessions.atIndex (if idx ≠ 0 then idx - 1 else 0)).1
          se := some n }
        n a rfl (by simpa using hin) hf hc
      exact ⟨h.1, h.2⟩

@[simp]
theorem pickNextActive_items (st : KState) (s : Nat) (idx : Int) :
    (pickNextActive st s idx).sessions.items = st.sessions.items := by
  unfold pickNextActive
  by_cases hp : st.se_previous = some s <;> by_cases hs : st.se = some s
  · simp only [hp, if_true, hs]
    split <;> simp
  · simp only [hp, if_true, hs, if_false]
    cases hse : st.se <;> simp
  · simp only [hp, if_false, hs, if_true]
    split <;> simp
  · simp only [hp, if_false, hs]
    cases hse : st.se <;> simp

theorem pickNextActive_other (st : KState) (s : Nat) (idx : Int) (hs : st.se ≠ some s) :
    (pickNextActive st s idx).se = st.se ∧
    (pickNextActive st s idx).se_previous =
      if st.se_previous = some s then none else st.se_previous := by
  unfold pickNextActive
  by_cases hp : st.se_previous = some s
  · simp only [hp, if_true, hs, if_false]
    cases hse : st.se <;> simp
  · simp only [hp, if_false, hs]
    cases hse : st.se <;> simp

theorem pickNextActive_self (st : KState) (s : Nat) (idx : Int) (hs : st.se = some s)
    (hc : PickConsistent st) :
    (pickNextActive st s idx).se =
      (if st.sessions.count ≠ 0 ∧ st.closing = false then
        (st.sessions.atIndex (if idx ≠ 0 then idx - 1 else 0)).2 else none) ∧
    (pickNextActive st s idx).se_previous =
      if st.se_previous = some s then none else st.se_previous := by
  unfold pickNextActive
  by_cases hp : st.se_previous = some s
  · simp only [hp, if_true, hs]
    split
    · exact activateNeighbour_se _ _ hc
    · exact ⟨rfl, rfl⟩
  · simp only [hp, if_false, hs, if_true]
    split
    · exact activateNeighbour_se _ _ hc
    · exact ⟨rfl, rfl⟩

@[simp]
theorem activateNeighbour_session2action (st : KState) (idx : Int) :
    (activateNeighbour st idx).session2action = st.session2action := by
  unfold activateNeighbour
  simp only
  split
  · simp
  · split <;> simp

@[simp]
theorem pickNextActive_session2action (st : KState) (s : Nat) (idx : Int) :
    (pickNextActive st s idx).session2action = st.session2action := by
  unfold pickNextActive
  by_cases hp : st.se_previous = some s <;> by_cases hs : st.se = some s
  · simp only [hp, if_true, hs]
    split <;> simp
  · simp only [hp, if_true, hs, if_false]
    cases hse : st.se <;> simp
  · simp only [hp, if_false, hs, if_true]
    split <;> simp
  · simp only [hp, if_false, hs]
    cases hse : st.se <;> simp

@[simp]
theorem activateNeighbour_action2session (st : KState) (idx : Int) :
    (activateNeighbour st idx).action2session = st.action2session := by
  unfold activateNeighbour
  simp only
  split
  · simp
  · split <;> simp

@[simp]
theorem pickNextActive_action2session (st : KState) (s : Nat) (idx : Int) :
    (pickNextActive st s idx).action2session = st.action2session := by
  unfold pickNextActive
  by_cases hp : st.se_previous = some s <;> by_cases hs : st.se = some s
  · simp only [hp, if_true, hs]
    split <;> simp
  · simp only [hp, if_true, hs, if_false]
    cases hse : st.se <;> simp
  · simp only [hp, if_false, hs, if_true]
    split <;> simp
  · simp only [hp, if_false, hs]
    cases hse : st.se <;> simp

theorem doneSession_fields (st : KState) (s : Nat) :
    (doneSession st s).se =
      (pickNextActive (unregisterSession (returnToPrevious st s) s).1 s
        (unregisterSession (returnToPrevious st s) s).2).se ∧
    (doneSession st s).se_previous =
      (pickNextActive (unregisterSession (returnToPrevious st s) s).1 s
        (unregisterSession (returnToPrevious st s) s).2).se_previous ∧
    (doneSession st s).sessions.items = st.sessions.items.erase s ∧
    (doneSession st s).session2action = dictRemove st.session2action s ∧
    (doneSession st s).action2session =
      (match dictFind st.session2action s with
        | some r => dictRemove st.action2session r
        | none => st.action2session) := by
  unfold doneSession
  simp only
  split <;>
    simp [unregisterSession_action2session]

theorem pickConsistent_unregister (st : KState) (s : Nat) (hok : RegistryOk st) :
    PickConsistent (unregisterSession (returnToPrevious st s) s).1 := by
  obtain ⟨-, -, hk2, h12, -⟩ := hok
  intro n a e hfind hf
  have h1 : (n, a) ∈ st.session2action := by
    have := dictFind_some_mem _ _ _ hfind
    simp only [unregisterSession_session2action, returnToPrevious_session2action] at this
    exact dictRemove_subset _ _ _ this
  have h2 : (a, n) ∈ st.action2session := h12 (n, a) h1
  have h3 : e ∈ st.action2session := by
    have hm := List.mem_of_find?_eq_some hf
    rw [unregisterSession_action2session] at hm
    simp only [returnToPrevious_session2action, returnToPrevious_action2session] at hm
    split at hm
    · exact dictRemove_subset _ _ _ hm
    · exact hm
  have h4 : e.1 = a := by
    have := List.find?_some hf
    simpa using this
  have h5 : (a, e.2) ∈ st.action2session := by
    rw [← h4]
    exact h3
  exact dict_pair_unique _ hk2 a e.2 n h5 h2

/-! ## C5: the ended session leaves the registry -/

/-- C5: in a well-formed registry, for every session `s` of the list, after
`doneSession(s)` the list is the old list with `s` removed (the others in the
same order) and does not hold `s`, neither dictionary has an entry for `s`, and
neither `se` nor `se_previous` points to `s`. -/
theorem doneSession_removes_session (st : KState) (s : Nat)
    (hin : s ∈ st.sessions.items) (hok : RegistryOk st) :
    (doneSession st s).sessions.items = st.sessions.items.erase s ∧
    (doneSession st s).sessions.items.length + 1 = st.sessions.items.length ∧
    s ∉ (doneSession st s).sessions.items ∧
    dictFind (doneSession st s).session2action s = none ∧
    (∀ e, e ∈ (doneSession st s).action2session → e.2 ≠ s) ∧
    (doneSession st s).se ≠ some s ∧
    (doneSession st s).se_previous ≠ some s := by
  obtain ⟨hse, hprev, hitems, hs2a, ha2s⟩ := doneSession_fields st s
  have hnd := hok.1
  have hnotin : s ∉ st.sessions.items.erase s := fun h => ((hnd.mem_erase_iff).mp h).1 rfl
  have hcons := pickConsistent_unregister st s hok
  have hlen : (st.sessions.items.erase s).length + 1 = st.sessions.items.length := by
    have h0 : 0 < st.sessions.items.length := List.length_pos_of_mem hin
    rw [List.length_erase_of_mem hin]
    omega
  refine ⟨hitems, by rw [hitems]; exact hlen, by rw [hitems]; exact hnotin, ?_, ?_, ?_, ?_⟩
  · rw [hs2a, dictFind_none_iff]
    intro e he
    exact ((mem_dictRemove _ hok.2.1 s e).mp he).2
  · intro e he hes
    rw [ha2s] at he
    have hmirror : (e.2, e.1) ∈ st.session2action := by
      apply hok.2.2.2.2
      split at he
      · exact dictRemove_subset _ _ _ he
      · exact he
    rw [hes] at hmirror
    cases hf : dictFind st.session2action s with
    | none =>
      exact (dictFind_none_iff _ _).mp hf _ hmirror rfl
    | some r =>
      rw [hf] at he
      have hr : (s, r) ∈ st.session2action := dictFind_some_mem _ _ _ hf
      have : e.1 = r := dict_pair_unique _ hok.2.1 s e.1 r hmirror hr
      exact ((mem_dictRemove _ hok.2.2.1 r e).mp he).2 this
  · rw [hse]
    by_cases hact : (unregisterSession (returnToPrevious st s) s).1.se = some s
    · rw [(pickNextActive_self _ s _ hact hcons).1]
      split
      · intro h
        have := atIndex_snd_mem _ _ _ h
        rw [unregisterSession_items, returnToPrevious_items] at this
        exact hnotin this
      · simp
    · rw [(pickNextActive_other _ s _ hact).1]
      exact hact
  · rw [hprev]
    have hp : (pickNextActive (unregisterSession (returnToPrevious st s) s).1 s
        (unregisterSession (returnToPrevious st s) s).2).se_previous =
        if (unregisterSession (returnToPrevious st s) s).1.se_previous = some s then none
        else (unregisterSession (returnToPrevious st s) s).1.se_previous := by
      by_cases hact : (unregisterSession (returnToPrevious st s) s).1.se = some s
      · exact (pickNextActive_self _ s _ hact hcons).2
      · exact (pickNextActive_other _ s _ hact).2
    rw [hp]
    split
    · simp
    · assumption

/-- Witness of C5: ending session 2 of the sample window leaves the list 1, 3. -/
theorem doneSession_removes_session_witness :
    RegistryOk demoState ∧
    (doneSession demoState 2).sessions.items = [1, 3] ∧
    dictFind (doneSession demoState 2).session2action 2 = none ∧
    (doneSession demoState 2).se ≠ some 2 ∧
    (doneSession demoState 2).se_previous ≠ some 2 :=
  ⟨by decide,
   (doneSession_removes_session demoState 2 (by decide) (by decide)).1,
   (doneSession_removes_session demoState 2 (by decide) (by decide)).2.2.2.1,
   (doneSession_removes_session demoState 2 (by decide) (by decide)).2.2.2.2.2.1,
   (doneSession_removes_session demoState 2 (by decide) (by decide)).2.2.2.2.2.2⟩

/-! ## C6: the active session after doneSession -/

theorem atIndex_neighbour (l : Q3PtrList) (s : Nat) (items : List Nat)
    (hin : s ∈ items) (hl : l.items = items.erase s) (hne : items.erase s ≠ []) :
    (l.atIndex (if (items.indexOf s : Int) ≠ 0 then (items.indexOf s : Int) - 1 else 0)).2 =
      (items.erase s)[(max ((items.indexOf s : Int) - 1) 0).toNat]? ∧
    ∃ b, (items.erase s)[(max ((items.indexOf s : Int) - 1) 0).toNat]? = some b ∧
      b ∈ items.erase s := by
  have hlen : (items.erase s).length + 1 = items.length := by
    have h0 : 0 < items.length := List.length_pos_of_mem hin
    rw [List.length_erase_of_mem hin]
    omega
  have hidx : items.indexOf s < items.length := List.indexOf_lt_length.mpr hin
  have hpos : 0 < (items.erase s).length := List.length_pos.mpr hne
  have hrange : (max ((items.indexOf s : Int) - 1) 0).toNat < (items.erase s).length := by
    omega
  constructor
  · rw [atIndex_snd, hl]
    by_cases h0 : (items.indexOf s : Int) ≠ 0
    · have e : (max ((items.indexOf s : Int) - 1) 0) = (items.indexOf s : Int) - 1 := by omega
      rw [if_pos h0, e, if_pos (by omega)]
    · have e : (max ((items.indexOf s : Int) - 1) 0) = 0 := by omega
      rw [if_neg h0, e, if_pos (by omega)]
  · refine ⟨(items.erase s)[(max ((items.indexOf s : Int) - 1) 0).toNat], ?_, ?_⟩
    · exact List.getElem?_eq_getElem hrange
    · exact List.getElem_mem _

/-- C6: from a state where the window is not closing, the active session is
non-null and in the list and the previous session is null or in the list (the
registry being well-formed), after `doneSession(s)` the list is empty or the
active session is a member of the remaining list. When the ended session was the
active one, at index `i`, and no previous session is recorded, the new active
session is the one at index `max(i-1, 0)` of the remaining list. -/
theorem doneSession_active_in_list (st : KState) (s a : Nat)
    (hclosing : st.closing = false) (hse : st.se = some a) (ha : a ∈ st.sessions.items)
    (hprev : st.se_previous = none ∨ ∃ p, st.se_previous = some p ∧ p ∈ st.sessions.items)
    (hok : RegistryOk st) :
    ((doneSession st s).sessions.items = [] ∨
      ∃ b, (doneSession st s).se = some b ∧ b ∈ (doneSession st s).sessions.items) ∧
    (a = s → st.se_previous = none →
      (doneSession st s).se =
        (doneSession st s).sessions.items[(max ((st.sessions.items.indexOf s : Int) - 1) 0).toNat]?) := by
  obtain ⟨hfse, -, hitems, -, -⟩ := doneSession_fields st s
  have hcons := pickConsistent_unregister st s hok
  have hidx : (unregisterSession (returnToPrevious st s) s).2 =
      if s ∈ st.sessions.items then (st.sessions.items.indexOf s : Int) else -1 := by
    rw [unregisterSession_index]
    unfold Q3PtrList.findRef
    simp only [returnToPrevious_items]
    split <;> rfl
  have self_case : a = s → (returnToPrevious st s).se = some s →
      ((doneSession st s).sessions.items = [] ∨
        ∃ b, (doneSession st s).se = some b ∧ b ∈ (doneSession st s).sessions.items) ∧
      (doneSession st s).se =
        (doneSession st s).sessions.items[(max ((st.sessions.items.indexOf s : Int) - 1) 0).toNat]? := by
    intro has hact
    subst has
    have hact2 : (unregisterSession (returnToPrevious st a) a).1.se = some a := hact
    rw [hfse, (pickNextActive_self _ a _ hact2 hcons).1, hitems]
    by_cases hne : st.sessions.items.erase a = []
    · have hc0 : (unregisterSession (returnToPrevious st a) a).1.sessions.count = 0 := by
        unfold Q3PtrList.count
        rw [unregisterSession_items, returnToPrevious_items, hne]
        rfl
      simp [hc0, hne]
    · have hc0 : (unregisterSession (returnToPrevious st a) a).1.sessions.count ≠ 0 := by
        unfold Q3PtrList.count
        rw [unregisterSession_items, returnToPrevious_items]
        exact fun h => hne (List.length_eq_zero.mp h)
      have hcl : (unregisterSession (returnToPrevious st a) a).1.closing = false := by
        simp [hclosing]
      obtain ⟨h1, b, h2, h3⟩ := atIndex_neighbour
        (unregisterSession (returnToPrevious st a) a).1.sessions a st.sessions.items ha
        (by simp) hne
      rw [if_pos ⟨hc0, hcl⟩, hidx, if_pos ha, h1]
      exact ⟨Or.inr ⟨b, h2, h3⟩, rfl⟩
  have other_case : ∀ q, q ≠ s → q ∈ st.sessions.items → (returnToPrevious st s).se = some q →
      ∃ b, (doneSession st s).se = some b ∧ b ∈ (doneSession st s).sessions.items := by
    intro q hq hqin hact
    have hact2 : (unregisterSession (returnToPrevious st s) s).1.se ≠ some s := by
      rw [unregisterSession_se, hact]
      exact fun h => hq (Option.some.inj h)
    refine ⟨q, ?_, ?_⟩
    · rw [hfse, (pickNextActive_other _ s _ hact2).1, unregisterSession_se, hact]
    · rw [hitems]
      exact (List.mem_erase_of_ne hq).mpr hqin
  constructor
  · rcases hprev with hp | ⟨p, hp, hpin⟩
    · have ht := (returnToPrevious_of_none st s (Or.inl hp)).1
      rw [hse] at ht
      by_cases has : a = s
      · exact (self_case has (by rw [ht, has])).1
      · exact Or.inr (other_case a has ha ht)
    · by_cases hps : p = s
      · have ht := (returnToPrevious_of_none st s (Or.inr (by rw [hp, hps]))).1
        rw [hse] at ht
        by_cases has : a = s
        · exact (self_case has (by rw [ht, has])).1
        · exact Or.inr (other_case a has ha ht)
      · exact Or.inr (other_case p hps hpin (returnToPrevious_of_some st s p hp hps))
  · intro has hp
    have ht := (returnToPrevious_of_none st s (Or.inl hp)).1
    rw [hse] at ht
    exact (self_case has (by rw [ht, has])).2

/-- Witness of C6: ending the active session 1 of the sample window, which is at
index 0 and has no previous session, makes session 2 (index 0 of the remaining
list 2, 3) the active one. -/
theorem doneSession_active_in_list_witness :
    (doneSession demoState 1).sessions.items = [2, 3] ∧
    (doneSession demoState 1).se = some 2 := by
  have h := doneSession_active_in_list demoState 1 1 rfl rfl (by decide) (Or.inl rfl)
    (by decide)
  have h1 : (doneSession demoState 1).sessions.items = [2, 3] := by decide
  refine ⟨h1, ?_⟩
  have h2 := h.2 rfl rfl
  rw [h1] at h2
  exact h2

/-! ## Attributes of a session that activations leave alone -/

theorem keeps_of_eq {α : Type} {g : Session → α} {v : α} {p : Nat} {st st2 : KState}
    (h : Keeps g v p st) (ho : st2.objs p = st.objs p)
    (hi : st2.sessions.items = st.sessions.items) (hse : st2.se = st.se)
    (ha : st2.action2session = st.action2session) : Keeps g v p st2 := by
  unfold Keeps at h ⊢
  rw [ho, hi, hse, ha]
  exact h

theorem keeps_activateSession {α : Type} {g : Session → α} {v : α} {p : Nat} {st : KState}
    (hg : ∀ o b, g { o with connect := b } = g o) (h : Keeps g v p st) (x : Nat)
    (hx : p ∈ st.sessions.items ∨ x ≠ p) : Keeps g v p (activateSession st x) := by
  obtain ⟨ho, hs⟩ := h
  have hsh : st.se = some p → p ∈ st.sessions.items := by
    intro hse
    rcases hs with hs | hs
    · exact hs
    · exact absurd hse hs.1
  constructor
  · rw [activateSession_objs_map g hg st x p hsh]
    exact ho
  · rw [activateSession_items, activateSession_se, activateSession_action2session]
    rcases hs with hs | hs
    · exact Or.inl hs
    · rcases hx with hx | hx
      · exact Or.inl hx
      · exact Or.inr ⟨fun e => hx (Option.some.inj e), hs.2⟩

theorem keeps_activateSessionChecked {α : Type} {g : Session → α} {v : α} {p : Nat}
    {st : KState} (hg : ∀ o b, g { o with connect := b } = g o) (h : Keeps g v p st) :
    Keeps g v p (activateSessionChecked st) := by
  unfold activateSessionChecked
  cases hf : st.action2session.find? (fun e => some e.1 == st.checkedAction) with
  | none => exact h
  | some e =>
    simp only
    apply keeps_activateSession hg h
    rcases h.2 with h2 | h2
    · exact Or.inl h2
    · exact Or.inr (h2.2 e (List.mem_of_find?_eq_some hf))

theorem keeps_setActionChecked {α : Type} {g : Session → α} {v : α} {p : Nat}
    {st : KState} (hg : ∀ o b, g { o with connect := b } = g o) (h : Keeps g v p st)
    (ra : Nat) : Keeps g v p (setActionChecked st ra) := by
  unfold setActionChecked
  split
  · exact h
  · exact keeps_activateSessionChecked hg (keeps_of_eq h rfl rfl rfl rfl)

theorem keeps_applySettingsToGUI {α : Type} {g : Session → α} {v : α} {p : Nat}
    {st : KState} (h : Keeps g v p st) : Keeps g v p (applySettingsToGUI st) := by
  unfold applySettingsToGUI
  split
  · exact h
  · split
    · split
      · exact h
      · exact keeps_of_eq h rfl rfl rfl rfl
    · exact h

theorem readProperties_views (st : KState) (config : KConfig) :
    readProperties st config true false =
      if st.m_menuCreated then activateSessionChecked (applySettingsToGUI st) else st := by
  simp [readProperties]

theorem keeps_createViewIn {α : Type} {g : Session → α} {v : α} {p : Nat} {st : KState}
    (hg : ∀ o b, g { o with connect := b } = g o)
    (hv : ∀ o w, g { o with views := w } = g o)
    (h : Keeps g v p st) (session container : Nat) :
    Keeps g v p (createViewIn st session container) := by
  have h1 : Keeps g v p (createSessionView st).1 := by
    unfold createSessionView
    simp only [readProperties_views]
    split
    · exact keeps_activateSessionChecked hg
        (keeps_applySettingsToGUI (keeps_of_eq h rfl rfl rfl rfl))
    · exact keeps_of_eq h rfl rfl rfl rfl
  have h2 : Keeps g v p
      (if container = (createSessionView st).1.activeContainer then
        { (createSessionView st).1 with
          containerViews := (createSessionView st).1.containerViews ++
            [(container, (createSessionView st).2)]
          activeViews := (container, (createSessionView st).2) ::
            (createSessionView st).1.activeViews }
      else
        { (createSessionView st).1 with
          containerViews := (createSessionView st).1.containerViews ++
            [(container, (createSessionView st).2)] }) := by
    split
    · exact keeps_of_eq h1 rfl rfl rfl rfl
    · exact keeps_of_eq h1 rfl rfl rfl rfl
  unfold createViewIn
  simp only
  obtain ⟨ho, hs⟩ := h2
  refine ⟨?_, hs⟩
  by_cases hps : p = session
  · subst hps
    rw [updSession_objs_self, Option.map_map]
    have : (g ∘ fun o : Session =>
        { o with views := o.views ++ [(createSessionView st).2] }) = g := by
      funext o
      exact hv o _
    rw [this]
    exact ho
  · rw [updSession_objs_other _ _ _ _ hps]
    exact ho

theorem createViews_induction (P : KState → Prop) (session : Nat)
    (hstep : ∀ acc c, P acc → P (createViewIn acc session c)) (st : KState) (h : P st) :
    P (createViews st session) := by
  unfold createViews
  generalize st.containers = cs
  induction cs generalizing st with
  | nil => exact h
  | cons c cs ih => exact ih _ (hstep st c h)

theorem keeps_createViews {α : Type} {g : Session → α} {v : α} {p : Nat} {st : KState}
    (hg : ∀ o b, g { o with connect := b } = g o)
    (hv : ∀ o w, g { o with views := w } = g o)
    (h : Keeps g v p st) (session : Nat) : Keeps g v p (createViews st session) :=
  createViews_induction (Keeps g v p) session
    (fun _ c hacc => keeps_createViewIn hg hv hacc session c) st h

/-! ## Facts about newSession -/

theorem setSessionEncoding_frame (st : KState) (enc : String) (ses : Option Nat) :
    (setSessionEncoding st enc ses).sessions.items = st.sessions.items ∧
    (setSessionEncoding st enc ses).i18ncNo = st.i18ncNo ∧
    (setSessionEncoding st enc ses).action2session = st.action2session ∧
    (setSessionEncoding st enc ses).b_histEnabled = st.b_histEnabled ∧
    (setSessionEncoding st enc ses).m_histSize = st.m_histSize ∧
    (setSessionEncoding st enc ses).se = st.se := by
  unfold setSessionEncoding
  split
  · simp
  · split
    · simp
    · simp only
      split
      · simp
      · split
        · simp
        · split
          · rename_i h
            simp only [updSession_se] at h
            simp [updSession, h]
          · simp [updSession]

theorem setSessionEncoding_objs_ne {α : Type} (g : Session → α)
    (hg : ∀ o e c, g { o with encodingNo := e, codec := c } = g o)
    (st : KState) (enc : String) (p : Nat) (hne : st.se ≠ some p) :
    ((setSessionEncoding st enc (some p)).objs p).map g = (st.objs p).map g := by
  unfold setSessionEncoding
  split
  · rfl
  · simp only
    split
    · rfl
    · split
      · rfl
      · rw [if_neg (by simpa using hne)]
        rw [updSession_objs_self, updSession_objs_self, Option.map_map, Option.map_map]
        congr 1
        funext o
        exact hg o _ _

theorem configureNewSession_eq (st : KState) (type : SessionInfo) :
    configureNewSession st type =
      (updSession
        (setSessionEncoding (beforeEncoding st type) st.s_encodingName (some st.manager.nextPtr))
        st.manager.nextPtr
        (fun o => { o with history := newSessionHistory st.b_histEnabled st.m_histSize }),
       st.manager.nextPtr) := by
  have h := setSessionEncoding_frame (beforeEncoding st type) st.s_encodingName
    (some st.manager.nextPtr)
  have hb : (beforeEncoding st type).b_histEnabled = st.b_histEnabled := rfl
  have hm : (beforeEncoding st type).m_histSize = st.m_histSize := rfl
  rw [← hb, ← hm, ← h.2.2.2.1, ← h.2.2.2.2.1]
  rfl

theorem beforeEncoding_objs (st : KState) (type : SessionInfo) :
    (beforeEncoding st type).objs st.manager.nextPtr =
      some { sessionId := toString st.manager.idCounter
             title := templateTitle st.manager type.path
             addToUtmp := st.b_addToUtmp
             xonXoff := true } := by
  simp [beforeEncoding, updSession, createSession]

theorem configureNewSession_frame (st : KState) (type : SessionInfo) :
    (configureNewSession st type).2 = st.manager.nextPtr ∧
    (configureNewSession st type).1.sessions.items = st.sessions.items ∧
    (configureNewSession st type).1.i18ncNo = st.i18ncNo := by
  rw [configureNewSession_eq]
  have h := setSessionEncoding_frame (beforeEncoding st type) st.s_encodingName
    (some st.manager.nextPtr)
  refine ⟨rfl, ?_, ?_⟩
  · rw [updSession_sessions, h.1]; rfl
  · show (setSessionEncoding _ _ _).i18ncNo = _
    rw [h.2.1]; rfl

theorem configureNewSession_keeps {α : Type} (g : Session → α)
    (hg : ∀ o e c h, g { o with encodingNo := e, codec := c, history := h } = g o)
    (st : KState) (type : SessionInfo)
    (hfresh1 : st.se ≠ some st.manager.nextPtr)
    (hfresh2 : ∀ e, e ∈ st.action2session → e.2 ≠ st.manager.nextPtr) :
    Keeps g
      (g { sessionId := toString st.manager.idCounter
           title := templateTitle st.manager type.path
           addToUtmp := st.b_addToUtmp
           xonXoff := true })
      st.manager.nextPtr (configureNewSession st type).1 := by
  rw [configureNewSession_eq]
  have h := setSessionEncoding_frame (beforeEncoding st type) st.s_encodingName
    (some st.manager.nextPtr)
  have hse : (beforeEncoding st type).se ≠ some st.manager.nextPtr := hfresh1
  constructor
  · simp only
    rw [updSession_objs_self, Option.map_map]
    rw [setSessionEncoding_objs_ne _ _ _ _ _ hse, beforeEncoding_objs]
    · simp only [Option.map_some', Function.comp]
      exact congrArg some
        (hg { sessionId := toString st.manager.idCounter
              title := templateTitle st.manager type.path
              addToUtmp := st.b_addToUtmp
              xonXoff := true } 0 0 _)
    · intro o e c
      simp only [Function.comp]
      rw [hg]
      exact (hg o o.encodingNo o.codec _).symm
  · right
    simp only [updSession_se]
    rw [h.2.2.2.2.2]
    refine ⟨hfresh1, ?_⟩
    intro e he
    apply hfresh2
    have : (setSessionEncoding (beforeEncoding st type) st.s_encodingName
        (some st.manager.nextPtr)).action2session = st.action2session := by
      rw [h.2.2.1]; rfl
    rw [← this]
    exact he

theorem configureNewSession_history (st : KState) (type : SessionInfo)
    (hfresh1 : st.se ≠ some st.manager.nextPtr)
    (hfresh2 : ∀ e, e ∈ st.action2session → e.2 ≠ st.manager.nextPtr) :
    Keeps Session.history (newSessionHistory st.b_histEnabled st.m_histSize)
      st.manager.nextPtr (configureNewSession st type).1 := by
  have hk := configureNewSession_keeps (fun _ => ()) (fun _ _ _ _ => rfl) st type hfresh1 hfresh2
  refine ⟨?_, hk.2⟩
  have h1 := hk.1
  rw [configureNewSession_eq] at h1 ⊢
  simp only at h1 ⊢
  rw [updSession_objs_self, Option.map_map] at h1 ⊢
  cases ho : (setSessionEncoding (beforeEncoding st type) st.s_encodingName
      (some st.manager.nextPtr)).objs st.manager.nextPtr with
  | none => rw [ho] at h1; simp at h1
  | some o => simp

theorem applySettingsToGUI_frame (st : KState) :
    (applySettingsToGUI st).sessions.items = st.sessions.items ∧
    (applySettingsToGUI st).i18ncNo = st.i18ncNo := by
  unfold applySettingsToGUI
  split
  · exact ⟨rfl, rfl⟩
  · split
    · split <;> exact ⟨rfl, rfl⟩
    · exact ⟨rfl, rfl⟩

theorem createViewIn_frame (st : KState) (session container : Nat) :
    (createViewIn st session container).sessions.items = st.sessions.items ∧
    (createViewIn st session container).i18ncNo = st.i18ncNo := by
  have h1 : (createSessionView st).1.sessions.items = st.sessions.items ∧
      (createSessionView st).1.i18ncNo = st.i18ncNo := by
    unfold createSessionView
    simp only [readProperties_views]
    split
    · rw [activateSessionChecked_items, activateSessionChecked_i18ncNo]
      exact applySettingsToGUI_frame _
    · exact ⟨rfl, rfl⟩
  unfold createViewIn
  simp only [updSession_sessions]
  split
  · exact h1
  · exact h1

theorem createViews_frame (st : KState) (session : Nat) :
    (createViews st session).sessions.items = st.sessions.items ∧
    (createViews st session).i18ncNo = st.i18ncNo :=
  createViews_induction
    (fun x => x.sessions.items = st.sessions.items ∧ x.i18ncNo = st.i18ncNo) session
    (fun acc c hacc => by
      have h := createViewIn_frame acc session c
      exact ⟨h.1.trans hacc.1, h.2.trans hacc.2⟩)
    st ⟨rfl, rfl⟩

theorem makeGUI_frame (st : KState) :
    (makeGUI st).sessions = st.sessions ∧ (makeGUI st).objs = st.objs ∧
    (makeGUI st).se = st.se := by
  unfold makeGUI
  split
  · exact ⟨rfl, rfl, rfl⟩
  · simp only
    split <;> exact ⟨rfl, rfl, rfl⟩

theorem registerSession_frame (st : KState) (s : Nat) (t : String) :
    (registerSession st s t).sessions.items = st.sessions.items ++ [s] ∧
    (registerSession st s t).objs =
      (updSession st s (fun o => { o with title := t })).objs := by
  unfold registerSession enableMasterModeConnections disableMasterModeConnections
  simp only
  split
  · split
    · split
      · exact ⟨by rw [(makeGUI_frame _).1]; rfl, by rw [(makeGUI_frame _).2.1]⟩
      · exact ⟨by rw [(makeGUI_frame _).1]; rfl, by rw [(makeGUI_frame _).2.1]⟩
    · split <;> exact ⟨rfl, rfl⟩
  · split <;> exact ⟨rfl, rfl⟩

theorem keeps_registerSession {α : Type} {g : Session → α} {v : α} {p : Nat} {st : KState}
    (ht : ∀ o t, g { o with title := t } = g o) (h : Keeps g v p st) (t : String) :
    Keeps g v p (registerSession st p t) := by
  obtain ⟨hitems, hobjs⟩ := registerSession_frame st p t
  constructor
  · rw [hobjs, updSession_objs_self, Option.map_map]
    have : (g ∘ fun o : Session => { o with title := t }) = g := by
      funext o
      exact ht o t
    rw [this]
    exact h.1
  · left
    rw [hitems]
    simp

theorem runSession_items (st : KState) (s : Nat) :
    (runSession st s).sessions.items = st.sessions.items := by
  unfold runSession
  simp only [activateSession_items]
  split <;> simp

theorem keeps_runSession {α : Type} {g : Session → α} {v : α} {p : Nat} {st : KState}
    (hg : ∀ o b, g { o with connect := b } = g o) (h : Keeps g v p st)
    (hin : p ∈ st.sessions.items) (s : Nat) : Keeps g v p (runSession st s) := by
  unfold runSession
  simp only
  apply keeps_activateSession hg
  · split
    · exact h
    · exact keeps_setActionChecked hg h _
  · left
    split
    · exact hin
    · rw [setActionChecked_items]; exact hin

theorem getSession_of_keeps {α : Type} {g : Session → α} {v : α} {p : Nat} {st : KState}
    (h : Keeps g v p st) : g (getSession st p) = v := by
  unfold getSession
  have h1 := h.1
  cases ho : st.objs p with
  | none => rw [ho] at h1; simp at h1
  | some o =>
    rw [ho] at h1
    simpa using h1

theorem addSession_of_title (fuel : Nat) (st : KState) (s : Nat) (T : String)
    (htitle : (getSession st s).title = T)
    (hfuel : st.sessions.items.length + 2 ≤ fuel)
    (hren : RendersDistinct (st.i18ncNo T) (st.sessions.items.length + 2)) :
    ∃ t, addSession fuel st s = some (registerSession st s t) := by
  have hlen : (sessionTitles st).length = st.sessions.items.length := by
    unfold sessionTitles
    rw [List.length_map]
  obtain ⟨t, ht⟩ := uniqueTitleLoop_terminates (sessionTitles st) (st.i18ncNo T) T fuel
    (by rw [hlen]; exact hfuel) (by rw [hlen]; exact hren)
  refine ⟨t, ?_⟩
  unfold addSession
  simp only [htitle, ht, Option.map_some']

theorem newSessionInfo_eq (fuel : Nat) (st : KState) (type : SessionInfo) :
    newSessionInfo fuel st type =
      (addSession fuel (beforeAddSession st type) st.manager.nextPtr).map
        (fun st7 => (runSession st7 st.manager.nextPtr, st.manager.nextPtr)) := rfl

theorem keeps_beforeAddSession {α : Type} (g : Session → α) (v : α)
    (hg : ∀ o b, g { o with connect := b } = g o) (hw : ∀ o w, g { o with views := w } = g o)
    (st : KState) (type : SessionInfo)
    (hk : Keeps g v st.manager.nextPtr (configureNewSession st type).1) :
    Keeps g v st.manager.nextPtr (beforeAddSession st type) :=
  keeps_of_eq (keeps_createViews hg hw hk _) rfl rfl rfl rfl

theorem beforeAddSession_frame (st : KState) (type : SessionInfo) :
    (beforeAddSession st type).sessions.items = st.sessions.items ∧
    (beforeAddSession st type).i18ncNo = st.i18ncNo := by
  obtain ⟨-, hitems, hrender⟩ := configureNewSession_frame st type
  have hv := createViews_frame (configureNewSession st type).1 st.manager.nextPtr
  exact ⟨hv.1.trans hitems, hv.2.trans hrender⟩

theorem newSessionInfo_result (fuel : Nat) (st : KState) (type : SessionInfo)
    (hfresh1 : st.se ≠ some st.manager.nextPtr)
    (hfresh2 : ∀ e, e ∈ st.action2session → e.2 ≠ st.manager.nextPtr)
    (hfuel : st.sessions.items.length + 2 ≤ fuel)
    (hren : RendersDistinct (st.i18ncNo (templateTitle st.manager type.path))
      (st.sessions.items.length + 2)) :
    ∃ st2, newSessionInfo fuel st type = some (st2, st.manager.nextPtr) ∧
      st2.sessions.items = st.sessions.items ++ [st.manager.nextPtr] ∧
      Keeps Session.history (newSessionHistory st.b_histEnabled st.m_histSize)
        st.manager.nextPtr st2 ∧
      Keeps Session.sessionId (toString st.manager.idCounter) st.manager.nextPtr st2 := by
  obtain ⟨hitems, hrender⟩ := beforeAddSession_frame st type
  have ktitle := keeps_beforeAddSession Session.title _ (fun _ _ => rfl) (fun _ _ => rfl) st type
    (configureNewSession_keeps Session.title (fun _ _ _ _ => rfl) st type hfresh1 hfresh2)
  have khist := keeps_beforeAddSession Session.history _ (fun _ _ => rfl) (fun _ _ => rfl)
    st type (configureNewSession_history st type hfresh1 hfresh2)
  have kid := keeps_beforeAddSession Session.sessionId _ (fun _ _ => rfl) (fun _ _ => rfl)
    st type
    (configureNewSession_keeps Session.sessionId (fun _ _ _ _ => rfl) st type hfresh1 hfresh2)
  have htitle := getSession_of_keeps ktitle
  simp only at htitle
  obtain ⟨t, ht⟩ := addSession_of_title fuel (beforeAddSession st type) st.manager.nextPtr
    (templateTitle st.manager type.path) htitle (by rw [hitems]; exact hfuel)
    (by rw [hitems, hrender]; exact hren)
  rw [newSessionInfo_eq, ht]
  refine ⟨_, rfl, ?_, ?_, ?_⟩
  · rw [runSession_items, (registerSession_frame _ _ _).1, hitems]
  · apply keeps_runSession (g := Session.history) (fun _ _ => rfl)
      (keeps_registerSession (g := Session.history) (fun _ _ => rfl) khist t)
    rw [(registerSession_frame _ _ _).1]
    simp
  · apply keeps_runSession (g := Session.sessionId) (fun _ _ => rfl)
      (keeps_registerSession (g := Session.sessionId) (fun _ _ => rfl) kid t)
    rw [(registerSession_frame _ _ _).1]
    simp

/-! ## C2: the scrollback of a new session -/

theorem newSessionHistory_cases (e : Bool) (n : Int) :
    newSessionHistory e n =
      if e = true then (if n ≠ 0 then HistoryType.buffer n else HistoryType.file)
      else HistoryType.none := by
  unfold newSessionHistory
  cases e <;> by_cases h : n = 0 <;> simp [h]

/-- C2: `newSession(SessionInfo*)` returns the new session, on which it has
installed the bounded buffer of capacity `m_histSize` when history is enabled and
`m_histSize` is not 0, the file-backed store when history is enabled and
`m_histSize` is 0, and the None store when history is disabled; never a bounded
buffer of capacity 0. The pointer of the new session is new to the window, and
the fuel pays for the title loop of `addSession`. -/
theorem newSession_installs_history (fuel : Nat) (st : KState) (type : SessionInfo)
    (hfresh1 : st.se ≠ some st.manager.nextPtr)
    (hfresh2 : ∀ e, e ∈ st.action2session → e.2 ≠ st.manager.nextPtr)
    (hfuel : st.sessions.items.length + 2 ≤ fuel)
    (hren : RendersDistinct (st.i18ncNo (templateTitle st.manager type.path))
      (st.sessions.items.length + 2)) :
    ∃ st2, newSessionInfo fuel st type = some (st2, st.manager.nextPtr) ∧
      (st.b_histEnabled = true → st.m_histSize ≠ 0 →
        (st2.objs st.manager.nextPtr).map Session.history
          = some (HistoryType.buffer st.m_histSize)) ∧
      (st.b_histEnabled = true → st.m_histSize = 0 →
        (st2.objs st.manager.nextPtr).map Session.history = some HistoryType.file) ∧
      (st.b_histEnabled = false →
        (st2.objs st.manager.nextPtr).map Session.history = some HistoryType.none) ∧
      (st2.objs st.manager.nextPtr).map Session.history ≠ some (HistoryType.buffer 0) := by
  obtain ⟨st2, h1, -, hk, -⟩ := newSessionInfo_result fuel st type hfresh1 hfresh2 hfuel hren
  have hh := hk.1
  rw [newSessionHistory_cases] at hh
  refine ⟨st2, h1, ?_, ?_, ?_, ?_⟩
  · intro he hn
    rw [hh, if_pos he, if_pos hn]
  · intro he hn
    rw [hh, if_pos he, if_neg (not_not.mpr hn)]
  · intro he
    rw [hh, if_neg (by simp [he])]
  · rw [hh]
    split
    · split
      · rename_i hn
        intro h
        exact hn (HistoryType.buffer.inj (Option.some.inj h))
      · simp
    · simp

/-- Witness of C2: a new session of type `Shell` in the sample window (history
enabled, 1000 lines) gets the bounded buffer of 1000 lines. -/
theorem newSession_installs_history_witness :
    (newSessionInfo 5 demoState { name := "Shell", path := "shell.desktop" }).map
      (fun r => (r.1.objs r.2).map Session.history)
      = some (some (HistoryType.buffer 1000)) := by
  obtain ⟨st2, h1, h2, -⟩ := newSession_installs_history 5 demoState
    { name := "Shell", path := "shell.desktop" } (by decide) (by decide) (by decide) (by decide)
  rw [h1]
  exact congrArg some (h2 rfl (by decide))

/-! ## C10: the value returned by newSession -/

theorem sessionId_last (st : KState) (l : List Nat) (p : Nat)
    (h : st.sessions.items = l ++ [p]) :
    (sessionId st (st.sessions.count : Int)).2 = (getSession st p).sessionId := by
  have hc : st.sessions.count = l.length + 1 := by
    unfold Q3PtrList.count
    rw [h]
    simp
  unfold sessionId
  have h1 : ¬ ((st.sessions.count : Int) ≤ 0 ∨ (st.sessions.count : Int) > (st.sessions.count : Int)) := by
    omega
  rw [if_neg h1]
  simp only
  rw [atIndex_snd, h]
  have h2 : (0 : Int) ≤ (st.sessions.count : Int) - 1 ∧
      (st.sessions.count : Int) - 1 < ((l ++ [p]).length : Int) := by
    rw [List.length_append]
    simp only [List.length_singleton]
    omega
  rw [if_pos h2]
  have h3 : ((st.sessions.count : Int) - 1).toNat = l.length := by omega
  rw [h3]
  simp

theorem returnsSessionPath_of_info (fuel : Nat) (st : KState) (type : SessionInfo)
    (h : NewSessionReady fuel st type) :
    ReturnsSessionPath st ((newSessionInfo fuel st type).map
      (fun r => (r.1, "/Sessions/" ++ (getSession r.1 r.2).sessionId))) := by
  obtain ⟨st2, h1, h2, -, -⟩ := newSessionInfo_result fuel st type h.1 h.2.1 h.2.2.1 h.2.2.2
  have h3 := sessionId_last st2 _ _ h2
  refine ⟨st2, ?_, h2, h3⟩
  rw [h1, h3]
  rfl

/-- C10, as stated, fails: in the sample window `newSession("Shell")` returns
`/Sessions/4`, while the session listing afterwards is 1, 2, 3, 4. -/
theorem newSession_result_not_listed :
    (newSession 5 demoState "Shell").map Prod.snd = some "/Sessions/4" ∧
    (newSession 5 demoState "Shell").map
      (fun r => (List.range' 1 r.1.sessions.count).map (fun p => (sessionId r.1 (p : Int)).2))
      = some ["1", "2", "3", "4"] ∧
    "/Sessions/4" ∉ ["1", "2", "3", "4"] := by
  decide

/-- C10, amended: for the name of an available session type, and for the empty
name, which selects the default type, `newSession` returns `/Sessions/` followed
by the id of the newly created session, which `addSession` appended as the last
element of the list, so that `sessionId(count)` lists that id afterwards. For a
non-empty name matching no available session type, `newSession` returns the
empty string and leaves the state unchanged. -/
theorem newSession_returns_session_path (fuel : Nat) (st : KState) (t : String) :
    (∀ type, NewSessionReady fuel st type →
      ((t.isEmpty = true ∧ type = st.manager.defaultSessionType) ∨
       (t.isEmpty = false ∧
        st.manager.availableSessionTypes.find? (fun info => info.name == t) = some type)) →
      ReturnsSessionPath st (newSession fuel st t)) ∧
    (t.isEmpty = false →
      st.manager.availableSessionTypes.find? (fun info => info.name == t) = none →
      newSession fuel st t = some (st, "")) := by
  constructor
  · intro type hready hsel
    rcases hsel with ⟨he, htype⟩ | ⟨he, hfind⟩
    · unfold newSession newSessionDefault
      rw [if_pos he, ← htype]
      exact returnsSessionPath_of_info fuel st type hready
    · unfold newSession
      rw [if_neg (by simp [he]), hfind]
      exact returnsSessionPath_of_info fuel st type hready
  · intro he hfind
    unfold newSession
    rw [if_neg (by simp [he]), hfind]

/-- Witness of the amended C10 in the sample window: the type `Shell`, the empty
name, and an unknown name. -/
theorem newSession_returns_session_path_witness :
    ReturnsSessionPath demoState (newSession 5 demoState "Shell") ∧
    ReturnsSessionPath demoState (newSession 5 demoState "") ∧
    newSession 5 demoState "Screen" = some (demoState, "") :=
  ⟨(newSession_returns_session_path 5 demoState "Shell").1
      { name := "Shell", path := "shell.desktop" } (by decide) (Or.inr ⟨by decide, by decide⟩),
   (newSession_returns_session_path 5 demoState "").1
      { name := "Shell", path := "shell.desktop" } (by decide) (Or.inl ⟨by decide, by decide⟩),
   (newSession_returns_session_path 5 demoState "Screen").2 (by decide) (by decide)⟩

/-! ## C11: lookup by id -/

theorem lookupSessionId_fold (st : KState) (id : String) (l : List Nat) (acc : Option Nat)
    (h : ∀ q, q ∈ l → (getSession st q).sessionId ≠ id) :
    l.foldl (fun activate p => if (getSession st p).sessionId = id then some p else activate) acc
      = acc := by
  induction l generalizing acc with
  | nil => rfl
  | cons x t ih =>
    rw [List.foldl_cons, if_neg (h x (List.mem_cons_self _ _))]
    exact ih acc (fun q hq => h q (List.mem_cons_of_mem _ hq))

theorem lookupSessionId_none (st : KState) (id : String)
    (h : ∀ p, p ∈ st.sessions.items → (getSession st p).sessionId ≠ id) :
    lookupSessionId st id = none :=
  lookupSessionId_fold st id _ none h

theorem lookupSessionId_last (st : KState) (id : String) (A B : List Nat) (a : Nat)
    (hitems : st.sessions.items = A ++ a :: B) (ha : (getSession st a).sessionId = id)
    (hB : ∀ q, q ∈ B → (getSession st q).sessionId ≠ id) :
    lookupSessionId st id = some a := by
  unfold lookupSessionId
  rw [hitems, List.foldl_append, List.foldl_cons, if_pos ha]
  exact lookupSessionId_fold st id B (some a) hB

/-- C11: `activateSession(const QString& sessionId)` with an id that no session
of the list has leaves the active session, the previous session and the sessions
of the list as they were (only the current item of the list is reset); with an
id that some session has, in a window with a terminal display `t` (the
activation dereferences `te`), it activates the last session of the list, in list
order, whose `SessionId` equals the id, and the display is still `t`. -/
theorem activateSessionById_fails_safely (st : KState) (id : String) :
    ((∀ p, p ∈ st.sessions.items → (getSession st p).sessionId ≠ id) →
      activateSessionById st id = { st with sessions := { st.sessions with cur := none } } ∧
      (activateSessionById st id).se = st.se ∧
      (activateSessionById st id).se_previous = st.se_previous ∧
      (activateSessionById st id).sessions.items = st.sessions.items) ∧
    (∀ t A a B, st.te = some t →
      st.sessions.items = A ++ a :: B → (getSession st a).sessionId = id →
      (∀ q, q ∈ B → (getSession st q).sessionId ≠ id) →
      activateSessionById st id =
        activateSession { st with sessions := { st.sessions with cur := none } } a ∧
      (activateSessionById st id).se = some a ∧
      (activateSessionById st id).sessions.items = st.sessions.items ∧
      (activateSessionById st id).te = some t) := by
  constructor
  · intro h
    have e : activateSessionById st id
        = { st with sessions := { st.sessions with cur := none } } := by
      unfold activateSessionById
      rw [lookupSessionId_none st id h]
    rw [e]
    exact ⟨rfl, rfl, rfl, rfl⟩
  · intro t A a B hte hitems ha hB
    have e : activateSessionById st id
        = activateSession { st with sessions := { st.sessions with cur := none } } a := by
      unfold activateSessionById
      rw [lookupSessionId_last st id A B a hitems ha hB]
    rw [e]
    exact ⟨rfl, activateSession_se _ _, by rw [activateSession_items],
      by rw [activateSession_te]; exact hte⟩

/-- Witness of C11 in the sample window, which has the display 0: the id `7`
belongs to no session, the id `2` to session 2. -/
theorem activateSessionById_fails_safely_witness :
    (activateSessionById demoState "7").se = some 1 ∧
    (activateSessionById demoState "7").sessions.items = [1, 2, 3] ∧
    (activateSessionById demoState "2").se = some 2 :=
  ⟨((activateSessionById_fails_safely demoState "7").1 (by decide)).2.1,
   ((activateSessionById_fails_safely demoState "7").1 (by decide)).2.2.2,
   ((activateSessionById_fails_safely demoState "2").2 0 [1] 2 [3] rfl rfl (by decide)
      (by decide)).2.1⟩

/-! ## C12: positions -/

/-- C12: for every position `p` and list of `n` sessions, `sessionId(p)` is the
empty string when `p <= 0` or `p > n`, and otherwise the `SessionId` of the
session at index `p-1`, which lies within the list; `activateSession(int p)` does
nothing when `p < 0` or `p >= n`, and otherwise activates the session at index
`p`, which lies within the list. -/
theorem sessionId_positions (st : KState) (p : Int) :
    (p ≤ 0 ∨ p > (st.sessions.items.length : Int) →
      (sessionId st p).2 = "" ∧ (sessionId st p).1 = st) ∧
    (0 < p → p ≤ (st.sessions.items.length : Int) →
      ∃ h : (p - 1).toNat < st.sessions.items.length,
        (sessionId st p).2 = (getSession st (st.sessions.items.get ⟨(p - 1).toNat, h⟩)).sessionId) ∧
    (p < 0 ∨ p ≥ (st.sessions.items.length : Int) → activateSessionAt st p = st) ∧
    (0 ≤ p → p < (st.sessions.items.length : Int) →
      ∃ h : p.toNat < st.sessions.items.length,
        activateSessionAt st p =
          activateSession { st with sessions := { st.sessions with cur := some p.toNat } }
            (st.sessions.items.get ⟨p.toNat, h⟩)) := by
  refine ⟨?_, ?_, ?_, ?_⟩
  · intro h
    unfold sessionId Q3PtrList.count
    rw [if_pos h]
    exact ⟨rfl, rfl⟩
  · intro h1 h2
    have hlt : (p - 1).toNat < st.sessions.items.length := by omega
    refine ⟨hlt, ?_⟩
    unfold sessionId Q3PtrList.count
    rw [if_neg (by omega)]
    simp only
    rw [atIndex_snd, if_pos (by omega), List.getElem?_eq_getElem hlt]
    rfl
  · intro h
    unfold activateSessionAt Q3PtrList.count
    rw [if_pos h]
  · intro h1 h2
    have hlt : p.toNat < st.sessions.items.length := by omega
    refine ⟨hlt, ?_⟩
    unfold activateSessionAt Q3PtrList.count
    rw [if_neg (by omega)]
    simp only
    have hr : (st.sessions.atIndex p).2 = some (st.sessions.items.get ⟨p.toNat, hlt⟩) := by
      rw [atIndex_snd, if_pos ⟨h1, h2⟩, List.getElem?_eq_getElem hlt]
      rfl
    have hl : (st.sessions.atIndex p).1 = { st.sessions with cur := some p.toNat } := by
      unfold Q3PtrList.atIndex Q3PtrList.count
      rw [if_pos ⟨h1, h2⟩]
    rw [hr, hl]

/-- Witness of C12 in the sample window of three sessions: positions 0 and 4 give
the empty string, position 3 the id of the last session; index 3 activates
nothing, index 2 the last session. -/
theorem sessionId_positions_witness :
    (sessionId demoState 0).2 = "" ∧ (sessionId demoState 4).2 = "" ∧
    (sessionId demoState 3).2 = "3" ∧
    activateSessionAt demoState 3 = demoState ∧
    (activateSessionAt demoState 2).se = some 3 := by
  refine ⟨((sessionId_positions demoState 0).1 (by decide)).1,
    ((sessionId_positions demoState 4).1 (by decide)).1, ?_,
    (sessionId_positions demoState 3).2.2.1 (by decide), ?_⟩
  · obtain ⟨_, h⟩ := (sessionId_positions demoState 3).2.1 (by decide) (by decide)
    rw [h]
    rfl
  · obtain ⟨_, h⟩ := (sessionId_positions demoState 2).2.2.2 (by decide) (by decide)
    rw [h]
    exact activateSession_se _ _

/-! ## C13 and C14: the master mode toggle -/

@[simp]
theorem dropStaleActive_monitorSilenceSeconds (st : KState) :
    (dropStaleActive st).monitorSilenceSeconds = st.monitorSilenceSeconds := by
  unfold dropStaleActive
  split
  · rfl
  · simp only; split <;> rfl

@[simp]
theorem syncSessionMenus_monitorSilenceSeconds (st : KState) (s : Nat) :
    (syncSessionMenus st s).monitorSilenceSeconds = st.monitorSilenceSeconds := by
  unfold syncSessionMenus; split <;> rfl

@[simp]
theorem activateSession_monitorSilenceSeconds (st : KState) (s : Nat) :
    (activateSession st s).monitorSilenceSeconds = st.monitorSilenceSeconds := by
  cases hte : st.te with
  | none => rw [activateSession_of_no_te st s hte]; simp [selectActive]
  | some t => rw [activateSession_of_te st s t hte]; simp [selectActive, updSession]

@[simp]
theorem activateSessionChecked_monitorSilenceSeconds (st : KState) :
    (activateSessionChecked st).monitorSilenceSeconds = st.monitorSilenceSeconds := by
  unfold activateSessionChecked; split <;> simp

@[simp]
theorem dropStaleActive_m_find_first (st : KState) :
    (dropStaleActive st).m_find_first = st.m_find_first := by
  unfold dropStaleActive
  split
  · rfl
  · simp only; split <;> rfl

@[simp]
theorem syncSessionMenus_m_find_first (st : KState) (s : Nat) :
    (syncSessionMenus st s).m_find_first = st.m_find_first := by
  unfold syncSessionMenus; split <;> rfl

@[simp]
theorem activateSession_m_find_first (st : KState) (s : Nat) :
    (activateSession st s).m_find_first = st.m_find_first := by
  cases hte : st.te with
  | none => rw [activateSession_of_no_te st s hte]; simp [selectActive]
  | some t => rw [activateSession_of_te st s t hte]; simp [selectActive, updSession]

@[simp]
theorem activateSessionChecked_m_find_first (st : KState) :
    (activateSessionChecked st).m_find_first = st.m_find_first := by
  unfold activateSessionChecked; split <;> simp

@[simp]
theorem dropStaleActive_m_find_found (st : KState) :
    (dropStaleActive st).m_find_found = st.m_find_found := by
  unfold dropStaleActive
  split
  · rfl
  · simp only; split <;> rfl

@[simp]
theorem syncSessionMenus_m_find_found (st : KState) (s : Nat) :
    (syncSessionMenus st s).m_find_found = st.m_find_found := by
  unfold syncSessionMenus; split <;> rfl

@[simp]
theorem activateSession_m_find_found (st : KState) (s : Nat) :
    (activateSession st s).m_find_found = st.m_find_found := by
  cases hte : st.te with
  | none => rw [activateSession_of_no_te st s hte]; simp [selectActive]
  | some t => rw [activateSession_of_te st s t hte]; simp [selectActive, updSession]

@[simp]
theorem activateSessionChecked_m_find_found (st : KState) :
    (activateSessionChecked st).m_find_found = st.m_find_found := by
  unfold activateSessionChecked; split <;> simp

@[simp]
theorem dropStaleActive_m_finddialog (st : KState) :
    (dropStaleActive st).m_finddialog = st.m_finddialog := by
  unfold dropStaleActive
  split
  · rfl
  · simp only; split <;> rfl

@[simp]
theorem syncSessionMenus_m_finddialog (st : KState) (s : Nat) :
    (syncSessionMenus st s).m_finddialog = st.m_finddialog := by
  unfold syncSessionMenus; split <;> rfl

@[simp]
theorem activateSession_m_finddialog (st : KState) (s : Nat) :
    (activateSession st s).m_finddialog = st.m_finddialog := by
  cases hte : st.te with
  | none => rw [activateSession_of_no_te st s hte]; simp [selectActive]
  | some t => rw [activateSession_of_te st s t hte]; simp [selectActive, updSession]

@[simp]
theorem activateSessionChecked_m_finddialog (st : KState) :
    (activateSessionChecked st).m_finddialog = st.m_finddialog := by
  unfold activateSessionChecked; split <;> simp

@[simp]
theorem dropStaleActive_masterModeQuestions (st : KState) :
    (dropStaleActive st).masterModeQuestions = st.masterModeQuestions := by
  unfold dropStaleActive
  split
  · rfl
  · simp only; split <;> rfl

@[simp]
theorem syncSessionMenus_masterModeQuestions (st : KState) (s : Nat) :
    (syncSessionMenus st s).masterModeQuestions = st.masterModeQuestions := by
  unfold syncSessionMenus; split <;> rfl

@[simp]
theorem activateSession_masterModeQuestions (st : KState) (s : Nat) :
    (activateSession st s).masterModeQuestions = st.masterModeQuestions := by
  cases hte : st.te with
  | none => rw [activateSession_of_no_te st s hte]; simp [selectActive]
  | some t => rw [activateSession_of_te st s t hte]; simp [selectActive, updSession]

@[simp]
theorem activateSessionChecked_masterModeQuestions (st : KState) :
    (activateSessionChecked st).masterModeQuestions = st.masterModeQuestions := by
  unfold activateSessionChecked; split <;> simp

/-- C13: when `slotToggleMasterMode` runs with the toggle checked, one
confirmation is asked; on Yes the master flag of the active session is true
afterwards, on any other answer the session is as before and the toggle is
unchecked, so that the flag becomes true only through a Yes. -/
theorem slotToggleMasterMode_needs_yes (st : KState) (a : Nat) (o : Session)
    (hchecked : st.masterModeChecked = true) (hse : st.se = some a)
    (hobj : st.objs a = some o) :
    (slotToggleMasterMode st true).objs a = some { o with masterMode := true } ∧
    (slotToggleMasterMode st false).objs a = some o ∧
    (slotToggleMasterMode st false).masterModeChecked = false ∧
    (∀ answer, (slotToggleMasterMode st answer).masterModeQuestions
      = st.masterModeQuestions + 1) ∧
    (∀ answer, (getSession (slotToggleMasterMode st answer) a).masterMode = true →
      o.masterMode = true ∨ answer = true) := by
  have hyes : (slotToggleMasterMode st true).objs a = some { o with masterMode := true } := by
    unfold slotToggleMasterMode setMasterMode enableMasterModeConnections
      disableMasterModeConnections
    simp only [hchecked, if_true, hse, getSession, hobj, Option.getD_some]
    by_cases hm : o.masterMode = true
    · simp only [hm, if_true, hobj]
      cases o
      simp only [] at hm
      simp [hm]
    · simp [hm, hobj, updSession]
  have hno : (slotToggleMasterMode st false).objs a = some o := by
    unfold slotToggleMasterMode
    simp [hchecked, hobj]
  refine ⟨hyes, hno, ?_, ?_, ?_⟩
  · unfold slotToggleMasterMode
    simp [hchecked]
  · intro answer
    cases answer with
    | false =>
      unfold slotToggleMasterMode
      simp [hchecked]
    | true =>
      unfold slotToggleMasterMode setMasterMode enableMasterModeConnections
        disableMasterModeConnections
      simp only [hchecked, if_true, hse]
      split <;> simp [updSession]
  · intro answer hflag
    cases answer with
    | true => exact Or.inr rfl
    | false =>
      left
      unfold getSession at hflag
      rw [hno] at hflag
      exact hflag

/-- Witness of C13: in the sample window with the toggle checked, Yes makes
session 1 a master, No leaves it as it was and unchecks the toggle. -/
theorem slotToggleMasterMode_needs_yes_witness :
    (getSession (slotToggleMasterMode { demoState with masterModeChecked := true } true) 1).masterMode
      = true ∧
    (getSession (slotToggleMasterMode { demoState with masterModeChecked := true } false) 1).masterMode
      = false ∧
    (slotToggleMasterMode { demoState with masterModeChecked := true } false).masterModeChecked
      = false := by
  have h := slotToggleMasterMode_needs_yes { demoState with masterModeChecked := true } 1
    { sessionId := "1", title := "Shell", connect := true, codec := 7 } rfl rfl rfl
  refine ⟨?_, ?_, h.2.2.1⟩
  · unfold getSession
    rw [h.1]
    rfl
  · unfold getSession
    rw [h.2.1]
    rfl

/-- C14, evaluated on the code: the active session 1 is a master and the toggle
has been unchecked; `slotToggleMasterMode` asks no confirmation, and the master
flag of session 1 is still set afterwards. -/
theorem slotToggleMasterMode_unchecked_keeps_master :
    masterState.se = some 1 ∧
    (getSession masterState 1).masterMode = true ∧
    masterState.masterModeChecked = false ∧
    (∀ answer : Bool,
      (getSession (slotToggleMasterMode masterState answer) 1).masterMode = true ∧
      (slotToggleMasterMode masterState answer).masterModeQuestions
        = masterState.masterModeQuestions) := by
  decide

/-! ## C15: the silence threshold -/

theorem applySettingsToGUI_silence (st : KState) :
    (applySettingsToGUI st).sessions.items = st.sessions.items ∧
    (applySettingsToGUI st).objs = st.objs ∧
    (applySettingsToGUI st).monitorSilenceSeconds = st.monitorSilenceSeconds := by
  unfold applySettingsToGUI
  split
  · exact ⟨rfl, rfl, rfl⟩
  · split
    · split <;> exact ⟨rfl, rfl, rfl⟩
    · exact ⟨rfl, rfl, rfl⟩

theorem activateSessionChecked_listed_silence (st : KState) (q : Nat)
    (hq : q ∈ st.sessions.items) :
    ((activateSessionChecked st).objs q).map Session.monitorSilenceSeconds =
      (st.objs q).map Session.monitorSilenceSeconds := by
  unfold activateSessionChecked
  split
  · rfl
  · rw [activateSession_objs_map Session.monitorSilenceSeconds (fun _ _ => rfl) _ _ _
      (fun _ => hq)]

theorem readProperties_global (st : KState) (config : KConfig) (globalConfigOnly : Bool) :
    readProperties st config globalConfigOnly true =
      if (if !globalConfigOnly then readWindowEntries (readGlobalEntries st config) config
          else readGlobalEntries st config).m_menuCreated then
        activateSessionChecked (applySettingsToGUI
          (if !globalConfigOnly then readWindowEntries (readGlobalEntries st config) config
           else readGlobalEntries st config))
      else (if !globalConfigOnly then readWindowEntries (readGlobalEntries st config) config
            else readGlobalEntries st config) := by
  cases globalConfigOnly <;> rfl

theorem menus_keep_silence (x : KState) :
    (if x.m_menuCreated then activateSessionChecked (applySettingsToGUI x)
      else x).monitorSilenceSeconds = x.monitorSilenceSeconds ∧
    ∀ q, q ∈ x.sessions.items →
      ((if x.m_menuCreated then activateSessionChecked (applySettingsToGUI x) else x).objs q).map
        Session.monitorSilenceSeconds = (x.objs q).map Session.monitorSilenceSeconds := by
  obtain ⟨h1, h2, h3⟩ := applySettingsToGUI_silence x
  split
  · refine ⟨by rw [activateSessionChecked_monitorSilenceSeconds, h3], ?_⟩
    intro q hq
    rw [activateSessionChecked_listed_silence _ q (by rw [h1]; exact hq), h2]
  · exact ⟨rfl, fun _ _ => rfl⟩

/-- C15: the initialiser list of the constructor sets `monitorSilenceSeconds` to
10; after `readProperties` with `readGlobalConfig = true`, on a configuration
whose entry `SilenceSeconds` is `t` (10 when the entry is absent),
`monitorSilenceSeconds` is `t` and every session of the session list has the
silence threshold `t`. -/
theorem readProperties_sets_silence (st : KState) (config : KConfig)
    (globalConfigOnly : Bool) :
    memberInitialisers.monitorSilenceSeconds = 10 ∧
    (readProperties st config globalConfigOnly true).monitorSilenceSeconds
      = config.silenceSeconds.getD 10 ∧
    (readProperties st config globalConfigOnly true).sessions.items = st.sessions.items ∧
    ∀ q, q ∈ st.sessions.items →
      ((readProperties st config globalConfigOnly true).objs q).map
        Session.monitorSilenceSeconds
        = (st.objs q).map (fun _ => config.silenceSeconds.getD 10) := by
  have hx : ∀ x : KState, x.monitorSilenceSeconds = config.silenceSeconds.getD 10 →
      x.sessions.items = st.sessions.items →
      (∀ q, q ∈ st.sessions.items → (x.objs q).map Session.monitorSilenceSeconds
        = (st.objs q).map (fun _ => config.silenceSeconds.getD 10)) →
      (if x.m_menuCreated then activateSessionChecked (applySettingsToGUI x)
        else x).monitorSilenceSeconds = config.silenceSeconds.getD 10 ∧
      (if x.m_menuCreated then activateSessionChecked (applySettingsToGUI x)
        else x).sessions.items = st.sessions.items ∧
      ∀ q, q ∈ st.sessions.items →
        ((if x.m_menuCreated then activateSessionChecked (applySettingsToGUI x)
          else x).objs q).map Session.monitorSilenceSeconds
          = (st.objs q).map (fun _ => config.silenceSeconds.getD 10) := by
    intro x h1 h2 h3
    obtain ⟨k1, k2⟩ := menus_keep_silence x
    refine ⟨by rw [k1, h1], ?_, ?_⟩
    · split
      · rw [activateSessionChecked_items, (applySettingsToGUI_silence x).1, h2]
      · exact h2
    · intro q hq
      rw [k2 q (by rw [h2]; exact hq), h3 q hq]
  have hg : ∀ q, q ∈ st.sessions.items →
      ((readGlobalEntries st config).objs q).map Session.monitorSilenceSeconds
        = (st.objs q).map (fun _ => config.silenceSeconds.getD 10) := by
    intro q hq
    simp only [readGlobalEntries, if_pos hq]
    cases st.objs q <;> rfl
  refine ⟨rfl, ?_⟩
  rw [readProperties_global]
  cases globalConfigOnly
  · exact hx (readWindowEntries (readGlobalEntries st config) config) rfl rfl hg
  · exact hx (readGlobalEntries st config) rfl rfl hg

/-- Witness of C15: the sample window reads a configuration with
`SilenceSeconds=30`; the window and session 2 of its list have the threshold 30. -/
theorem readProperties_sets_silence_witness :
    (readProperties demoState { silenceSeconds := some 30 } false true).monitorSilenceSeconds
      = 30 ∧
    ((readProperties demoState { silenceSeconds := some 30 } false true).objs 2).map
      Session.monitorSilenceSeconds = some 30 :=
  ⟨(readProperties_sets_silence demoState { silenceSeconds := some 30 } false).2.1,
   (readProperties_sets_silence demoState { silenceSeconds := some 30 } false).2.2.2 2
     (by decide)⟩

/-- C16: `slotHistoryType` with an active session `a`: an accepted dialog with
history on and `n > 0` lines gives the session the bounded buffer of `n` lines
and sets `m_histSize = n`, `b_histEnabled = true`; with history on and 0 lines
the file-backed store, `m_histSize = 0`, `b_histEnabled = true`; with history off
the None store, `m_histSize = n`, `b_histEnabled = false`. A cancelled dialog, or
a call without active session, returns the state as it was. After an accepted
dialog the history of the active session is the one `newSession(SessionInfo*)`
chooses from the new settings, and a session created right afterwards gets the
same history. -/
theorem slotHistoryType_swaps_history (st : KState) (dlg : HistoryTypeDialog) :
    (st.se = none → slotHistoryType st dlg = st) ∧
    (dlg.accepted = false → slotHistoryType st dlg = st) ∧
    (∀ a o, st.se = some a → st.objs a = some o → dlg.accepted = true →
      (dlg.isOn = true → 0 < dlg.nbLines →
        (slotHistoryType st dlg).objs a
          = some { o with history := HistoryType.buffer dlg.nbLines } ∧
        (slotHistoryType st dlg).m_histSize = dlg.nbLines ∧
        (slotHistoryType st dlg).b_histEnabled = true) ∧
      (dlg.isOn = true → dlg.nbLines = 0 →
        (slotHistoryType st dlg).objs a = some { o with history := HistoryType.file } ∧
        (slotHistoryType st dlg).m_histSize = 0 ∧
        (slotHistoryType st dlg).b_histEnabled = true) ∧
      (dlg.isOn = false →
        (slotHistoryType st dlg).objs a = some { o with history := HistoryType.none } ∧
        (slotHistoryType st dlg).m_histSize = dlg.nbLines ∧
        (slotHistoryType st dlg).b_histEnabled = false) ∧
      ((slotHistoryType st dlg).objs a).map Session.history
        = some (newSessionHistory (slotHistoryType st dlg).b_histEnabled
            (slotHistoryType st dlg).m_histSize) ∧
      ∀ fuel type, NewSessionReady fuel (slotHistoryType st dlg) type →
        ∃ st2, newSessionInfo fuel (slotHistoryType st dlg) type
            = some (st2, (slotHistoryType st dlg).manager.nextPtr) ∧
          (st2.objs (slotHistoryType st dlg).manager.nextPtr).map Session.history
            = ((slotHistoryType st dlg).objs a).map Session.history) := by
  refine ⟨?_, ?_, ?_⟩
  · intro h
    unfold slotHistoryType
    rw [h]
  · intro h
    unfold slotHistoryType
    cases st.se <;> simp [h]
  · intro a o hse hobj hacc
    have hsame : ((slotHistoryType st dlg).objs a).map Session.history
        = some (newSessionHistory (slotHistoryType st dlg).b_histEnabled
            (slotHistoryType st dlg).m_histSize) := by
      rw [newSessionHistory_cases]
      unfold slotHistoryType
      simp only [hse, hacc, if_true]
      by_cases hon : dlg.isOn = true
      · by_cases hn : dlg.nbLines > 0
        · have hn0 : dlg.nbLines ≠ 0 := by omega
          simp [hon, hn, hn0, updSession, hobj]
        · simp [hon, hn, updSession, hobj]
      · simp [hon, updSession, hobj]
    refine ⟨?_, ?_, ?_, hsame, ?_⟩
    · intro hon hn
      unfold slotHistoryType
      simp [hse, hacc, hon, hn, updSession, hobj]
    · intro hon hn
      unfold slotHistoryType
      simp [hse, hacc, hon, hn, updSession, hobj]
    · intro hon
      unfold slotHistoryType
      simp [hse, hacc, hon, updSession, hobj]
    · intro fuel type hready
      obtain ⟨st2, h1, -, hk, -⟩ := newSessionInfo_result fuel (slotHistoryType st dlg) type
        hready.1 hready.2.1 hready.2.2.1 hready.2.2.2
      exact ⟨st2, h1, by rw [hk.1, hsame]⟩

/-- Witness of C16: in the sample window the dialog is accepted with history on
and 500 lines; session 1 gets the buffer of 500 lines, and so does the session
created next. -/
theorem slotHistoryType_swaps_history_witness :
    ((slotHistoryType demoState { accepted := true, isOn := true, nbLines := 500 }).objs 1).map
      Session.history = some (HistoryType.buffer 500) ∧
    ∃ st2, newSessionInfo 5
        (slotHistoryType demoState { accepted := true, isOn := true, nbLines := 500 })
        { name := "Shell", path := "shell.desktop" } = some (st2, 4) ∧
      (st2.objs 4).map Session.history = some (HistoryType.buffer 500) := by
  have h := (slotHistoryType_swaps_history demoState
    { accepted := true, isOn := true, nbLines := 500 }).2.2 1
    { sessionId := "1", title := "Shell", connect := true, codec := 7 } rfl rfl rfl
  have h1 := h.1 rfl (by decide)
  refine ⟨by rw [h1.1]; rfl, ?_⟩
  obtain ⟨st2, k1, k2⟩ := h.2.2.2.2 5 { name := "Shell", path := "shell.desktop" } (by decide)
  exact ⟨st2, k1, k2.trans (by rw [h1.1]; rfl)⟩

/-! ## C19: the encoding number recorded by `slotSetSessionEncoding` -/

/-- C19, evaluated on the code: the encoding menu of the sample window lists
`Default` and three descriptive names, and the active session 1 asks for
`iso 8859-13`. The first menu entry containing that name is entry 1, and the
codec is taken from that entry; the encoding number recorded is 2, the entry the
menu selects afterwards is the one of `iso 8859-1`, and `setSessionEncoding`
records 1 for the same name. -/
theorem slotSetSessionEncoding_records_next_entry :
    encState.selectSetEncoding.map KSelectAction.items
      = some ("Default" :: encState.charsets.descriptiveEncodingNames) ∧
    IsFirstMatch ("Default" :: encState.charsets.descriptiveEncodingNames) "iso 8859-13" 1 ∧
    (getSession (slotSetSessionEncoding encState 1 "iso 8859-13") 1).codec = 13 ∧
    (getSession (slotSetSessionEncoding encState 1 "iso 8859-13") 1).encodingNo = 2 ∧
    (slotSetSessionEncoding encState 1 "iso 8859-13").selectSetEncoding.map
      KSelectAction.currentText = some "Western European ( iso 8859-1 )" ∧
    (getSession (setSessionEncoding encState "iso 8859-13" (some 1)) 1).encodingNo = 1 := by
  decide

/-! ## C17: moving the active session -/

theorem toUInt_natCast (n : Nat) (h : n < 4294967296) : toUInt (n : Int) = n := by
  unfold toUInt
  omega

theorem findActive_of_mem (st : KState) (a : Nat) (hse : st.se = some a)
    (hmem : a ∈ st.sessions.items) :
    findActive st = { st.sessions with cur := some (st.sessions.items.indexOf a) } := by
  unfold findActive Q3PtrList.findRef
  simp [hse, hmem]

theorem removeAt_items (l : Q3PtrList) (i : Nat) :
    (l.removeAt i).items = l.items.eraseIdx i := by
  unfold Q3PtrList.removeAt
  split
  · rfl
  · rename_i h
    rw [List.eraseIdx_of_length_le (by omega)]

theorem insert_items (l : Q3PtrList) (i p : Nat) (h : i ≤ l.items.length) :
    (l.insert i p).items = l.items.take i ++ p :: l.items.drop i := by
  unfold Q3PtrList.insert
  rw [if_pos h]

theorem moveSessionLeft_items (st : KState) (a : Nat) (hse : st.se = some a)
    (hmem : a ∈ st.sessions.items) (hlen : st.sessions.items.length < 4294967296) :
    (moveSessionLeft st).se = some a ∧
    (moveSessionLeft st).sessions.items =
      if st.sessions.items.indexOf a = 0 then st.sessions.items
      else (st.sessions.items.eraseIdx (st.sessions.items.indexOf a)).take
          (st.sessions.items.indexOf a - 1) ++
        a :: (st.sessions.items.eraseIdx (st.sessions.items.indexOf a)).drop
          (st.sessions.items.indexOf a - 1) := by
  have hlt : st.sessions.items.indexOf a < st.sessions.items.length :=
    List.indexOf_lt_length.2 hmem
  have hfa := findActive_of_mem st a hse hmem
  have hp : toUInt (findActive st).curIndex = st.sessions.items.indexOf a := by
    rw [hfa]
    exact toUInt_natCast _ (by omega)
  unfold moveSessionLeft
  simp only [hp, hse]
  by_cases h0 : st.sessions.items.indexOf a = 0
  · rw [if_pos h0, if_pos h0, hfa]
    exact ⟨rfl, rfl⟩
  · rw [if_neg h0, if_neg h0]
    have hins : (((findActive st).removeAt (st.sessions.items.indexOf a)).insert
        (st.sessions.items.indexOf a - 1) a).items =
        (st.sessions.items.eraseIdx (st.sessions.items.indexOf a)).take
          (st.sessions.items.indexOf a - 1) ++
        a :: (st.sessions.items.eraseIdx (st.sessions.items.indexOf a)).drop
          (st.sessions.items.indexOf a - 1) := by
      rw [insert_items, removeAt_items, hfa]
      rw [removeAt_items, hfa, List.length_eraseIdx]
      simp only [hlt, if_true]
      omega
    split
    · exact ⟨by rw [(makeGUI_frame _).2.2],
        by rw [(makeGUI_frame _).1]; simp only [atIndex_items]; exact hins⟩
    · exact ⟨rfl, by simp only [atIndex_items]; exact hins⟩

theorem moveSessionRight_items (st : KState) (a : Nat) (hse : st.se = some a)
    (hmem : a ∈ st.sessions.items) (hlen : st.sessions.items.length < 4294967296) :
    (moveSessionRight st).se = some a ∧
    (moveSessionRight st).sessions.items =
      if st.sessions.items.indexOf a = st.sessions.items.length - 1 then st.sessions.items
      else (st.sessions.items.eraseIdx (st.sessions.items.indexOf a)).take
          (st.sessions.items.indexOf a + 1) ++
        a :: (st.sessions.items.eraseIdx (st.sessions.items.indexOf a)).drop
          (st.sessions.items.indexOf a + 1) := by
  have hlt : st.sessions.items.indexOf a < st.sessions.items.length :=
    List.indexOf_lt_length.2 hmem
  have hfa := findActive_of_mem st a hse hmem
  have hp : toUInt (findActive st).curIndex = st.sessions.items.indexOf a := by
    rw [hfa]
    exact toUInt_natCast _ (by omega)
  have hc : toUInt (((findActive st).count : Int) - 1) = st.sessions.items.length - 1 := by
    rw [hfa]
    unfold toUInt Q3PtrList.count
    simp only
    omega
  have hp1 : toUInt ((st.sessions.items.indexOf a : Int) + 1)
      = st.sessions.items.indexOf a + 1 := by
    unfold toUInt
    omega
  unfold moveSessionRight
  simp only [hp, hc, hp1, hse]
  by_cases h0 : st.sessions.items.indexOf a = st.sessions.items.length - 1
  · rw [if_pos h0, if_pos h0, hfa]
    exact ⟨rfl, rfl⟩
  · rw [if_neg h0, if_neg h0]
    have hins : (((findActive st).removeAt (st.sessions.items.indexOf a)).insert
        (st.sessions.items.indexOf a + 1) a).items =
        (st.sessions.items.eraseIdx (st.sessions.items.indexOf a)).take
          (st.sessions.items.indexOf a + 1) ++
        a :: (st.sessions.items.eraseIdx (st.sessions.items.indexOf a)).drop
          (st.sessions.items.indexOf a + 1) := by
      rw [insert_items, removeAt_items, hfa]
      rw [removeAt_items, hfa, List.length_eraseIdx]
      simp only [hlt, if_true]
      omega
    split
    · exact ⟨by rw [(makeGUI_frame _).2.2],
        by rw [(makeGUI_frame _).1]; simp only [atIndex_items]; exact hins⟩
    · exact ⟨rfl, by simp only [atIndex_items]; exact hins⟩

theorem indexOf_after (A B : List Nat) (a : Nat) (h : a ∉ A) :
    (A ++ a :: B).indexOf a = A.length := by
  rw [List.indexOf_append_of_not_mem h, List.indexOf_cons_self, Nat.add_zero]

theorem moveSessionLeft_swap (st : KState) (a x : Nat) (A B : List Nat)
    (hse : st.se = some a) (hlen : st.sessions.items.length < 4294967296)
    (hitems : st.sessions.items = A ++ x :: a :: B) (hA : a ∉ A) (hx : a ≠ x) :
    (moveSessionLeft st).sessions.items = A ++ a :: x :: B := by
  have hmem : a ∈ st.sessions.items := by rw [hitems]; simp
  have hidx : st.sessions.items.indexOf a = A.length + 1 := by
    have h := indexOf_after (A ++ [x]) B a (by simp [hA, hx])
    rw [hitems]
    simpa using h
  rw [(moveSessionLeft_items st a hse hmem hlen).2, if_neg (by omega), hidx, hitems]
  have he : (A ++ x :: a :: B).eraseIdx (A.length + 1) = A ++ x :: B := by
    rw [List.eraseIdx_append_of_length_le (by omega)]
    simp
  rw [he]
  simp

theorem moveSessionRight_swap (st : KState) (a x : Nat) (A B : List Nat)
    (hse : st.se = some a) (hlen : st.sessions.items.length < 4294967296)
    (hitems : st.sessions.items = A ++ a :: x :: B) (hA : a ∉ A) :
    (moveSessionRight st).sessions.items = A ++ x :: a :: B := by
  have hmem : a ∈ st.sessions.items := by rw [hitems]; simp
  have hidx : st.sessions.items.indexOf a = A.length := by
    rw [hitems]
    exact indexOf_after A (x :: B) a hA
  have hl : st.sessions.items.length = A.length + (B.length + 2) := by
    rw [hitems]
    simp
  rw [(moveSessionRight_items st a hse hmem hlen).2, if_neg (by omega), hidx, hitems]
  have he : (A ++ a :: x :: B).eraseIdx A.length = A ++ x :: B := by
    rw [List.eraseIdx_append_of_length_le (by omega)]
    simp
  rw [he]
  have ht : (A ++ x :: B).take (A.length + 1) = A ++ [x] := by
    rw [List.take_append_eq_append_take]
    simp
  have hd : (A ++ x :: B).drop (A.length + 1) = B := by
    rw [List.drop_append_eq_append_drop]
    simp
  rw [ht, hd]
  simp

theorem moveSessionLeft_perm (st : KState) (a : Nat) (hse : st.se = some a)
    (hmem : a ∈ st.sessions.items) (hlen : st.sessions.items.length < 4294967296) :
    (moveSessionLeft st).sessions.items.Perm st.sessions.items := by
  obtain ⟨A, B, hitems, hA⟩ := List.eq_append_cons_of_mem hmem
  rcases List.eq_nil_or_concat A with hnil | ⟨A1, x, hcat⟩
  · subst hnil
    have h0 : st.sessions.items.indexOf a = 0 := by
      rw [hitems]
      exact List.indexOf_cons_self a B
    rw [(moveSessionLeft_items st a hse hmem hlen).2, if_pos h0]
  · subst hcat
    have hx : a ≠ x := fun h => hA (by simp [h])
    have hA1 : a ∉ A1 := fun h => hA (by simp [h])
    have hitems2 : st.sessions.items = A1 ++ x :: a :: B := by
      rw [hitems]
      simp
    rw [moveSessionLeft_swap st a x A1 B hse hlen hitems2 hA1 hx, hitems2]
    exact List.Perm.append_left _ (List.Perm.swap x a B)

theorem moveSessionRight_perm (st : KState) (a : Nat) (hse : st.se = some a)
    (hmem : a ∈ st.sessions.items) (hlen : st.sessions.items.length < 4294967296) :
    (moveSessionRight st).sessions.items.Perm st.sessions.items := by
  obtain ⟨A, B, hitems, hA⟩ := List.eq_append_cons_of_mem hmem
  cases B with
  | nil =>
    have h0 : st.sessions.items.indexOf a = st.sessions.items.length - 1 := by
      rw [hitems, indexOf_after A [] a hA]
      simp
    rw [(moveSessionRight_items st a hse hmem hlen).2, if_pos h0]
  | cons x B1 =>
    rw [moveSessionRight_swap st a x A B1 hse hlen hitems hA, hitems]
    exact List.Perm.append_left _ (List.Perm.swap a x B1)

/-- C17: the active session `a` is in the session list (of fewer than 2^32
sessions, the range of `count()`), at its first occurrence. `moveSessionLeft`
leaves the list `a :: B` as it is and turns `A ++ x :: a :: B` into
`A ++ a :: x :: B`; `moveSessionRight` leaves `A ++ [a]` as it is and turns
`A ++ a :: x :: B` into `A ++ x :: a :: B`. Both give a permutation of the old
list and keep the active session, and `moveSessionRight` after a
`moveSessionLeft` that moved gives the old list again. -/
theorem moveSession_swaps_neighbours (st : KState) (a : Nat) (hse : st.se = some a)
    (hmem : a ∈ st.sessions.items) (hlen : st.sessions.items.length < 4294967296) :
    (∀ B, st.sessions.items = a :: B →
      (moveSessionLeft st).sessions.items = st.sessions.items) ∧
    (∀ A x B, st.sessions.items = A ++ x :: a :: B → a ∉ A → a ≠ x →
      (moveSessionLeft st).sessions.items = A ++ a :: x :: B) ∧
    (∀ A, st.sessions.items = A ++ [a] → a ∉ A →
      (moveSessionRight st).sessions.items = st.sessions.items) ∧
    (∀ A x B, st.sessions.items = A ++ a :: x :: B → a ∉ A →
      (moveSessionRight st).sessions.items = A ++ x :: a :: B) ∧
    (moveSessionLeft st).sessions.items.Perm st.sessions.items ∧
    (moveSessionRight st).sessions.items.Perm st.sessions.items ∧
    (moveSessionLeft st).se = some a ∧
    (moveSessionRight st).se = some a ∧
    (∀ A x B, st.sessions.items = A ++ x :: a :: B → a ∉ A → a ≠ x →
      (moveSessionRight (moveSessionLeft st)).sessions.items = st.sessions.items) := by
  refine ⟨?_, ?_, ?_, ?_, moveSessionLeft_perm st a hse hmem hlen,
    moveSessionRight_perm st a hse hmem hlen, (moveSessionLeft_items st a hse hmem hlen).1,
    (moveSessionRight_items st a hse hmem hlen).1, ?_⟩
  · intro B hitems
    have h0 : st.sessions.items.indexOf a = 0 := by
      rw [hitems]
      exact List.indexOf_cons_self a B
    rw [(moveSessionLeft_items st a hse hmem hlen).2, if_pos h0]
  · intro A x B hitems hA hx
    exact moveSessionLeft_swap st a x A B hse hlen hitems hA hx
  · intro A hitems hA
    have h0 : st.sessions.items.indexOf a = st.sessions.items.length - 1 := by
      rw [hitems, indexOf_after A [] a hA]
      simp
    rw [(moveSessionRight_items st a hse hmem hlen).2, if_pos h0]
  · intro A x B hitems hA
    exact moveSessionRight_swap st a x A B hse hlen hitems hA
  · intro A x B hitems hA hx
    have hl := moveSessionLeft_swap st a x A B hse hlen hitems hA hx
    have hlen2 : (moveSessionLeft st).sessions.items.length < 4294967296 := by
      rw [(moveSessionLeft_perm st a hse hmem hlen).length_eq]
      exact hlen
    rw [moveSessionRight_swap (moveSessionLeft st) a x A B
      (moveSessionLeft_items st a hse hmem hlen).1 hlen2 hl hA, hitems]

/-- Witness of C17: in the sample window with session 2 active, `moveSessionLeft`
turns the list 1, 2, 3 into 2, 1, 3 and `moveSessionRight` turns it into 1, 3, 2. -/
theorem moveSession_swaps_neighbours_witness :
    (moveSessionLeft { demoState with se := some 2 }).sessions.items = [2, 1, 3] ∧
    (moveSessionRight { demoState with se := some 2 }).sessions.items = [1, 3, 2] ∧
    (moveSessionRight (moveSessionLeft { demoState with se := some 2 })).sessions.items
      = [1, 2, 3] :=
  ⟨(moveSession_swaps_neighbours { demoState with se := some 2 } 2 rfl (by decide)
      (by decide)).2.1 [] 1 [3] rfl (by decide) (by decide),
   (moveSession_swaps_neighbours { demoState with se := some 2 } 2 rfl (by decide)
      (by decide)).2.2.2.1 [1] 3 [] rfl (by decide),
   (moveSession_swaps_neighbours { demoState with se := some 2 } 2 rfl (by decide)
      (by decide)).2.2.2.2.2.2.2.2 [] 1 [3] rfl (by decide) (by decide)⟩

/-! ## C20: cycling through the sessions -/

theorem next_wrap (l : Q3PtrList) (i : Nat) (hi : i < l.items.length) :
    (if (Q3PtrList.next { l with cur := some i }).current.isNone then
      (Q3PtrList.next { l with cur := some i }).first
    else Q3PtrList.next { l with cur := some i })
      = { l with cur := some ((i + 1) % l.items.length) } := by
  by_cases h : i + 1 < l.items.length
  · simp [Q3PtrList.next, Q3PtrList.current, Q3PtrList.first, h, Nat.mod_eq_of_lt h]
  · have hn : i + 1 = l.items.length := by omega
    have h0 : l.items.length ≠ 0 := by omega
    simp [Q3PtrList.next, Q3PtrList.current, Q3PtrList.first, hn, h0]

theorem prev_wrap (l : Q3PtrList) (i : Nat) (hi : i < l.items.length) :
    (if (Q3PtrList.prev { l with cur := some i }).current.isNone then
      (Q3PtrList.prev { l with cur := some i }).last
    else Q3PtrList.prev { l with cur := some i })
      = { l with cur := some ((i + l.items.length - 1) % l.items.length) } := by
  by_cases h : 0 < i
  · have hm : (i + l.items.length - 1) % l.items.length = i - 1 := by
      have : i + l.items.length - 1 = (i - 1) + l.items.length := by omega
      rw [this, Nat.add_mod_right, Nat.mod_eq_of_lt (by omega)]
    have hlt : i - 1 < l.items.length := by omega
    simp [Q3PtrList.prev, Q3PtrList.current, Q3PtrList.last, h, hi, hm, hlt]
  · have hz : i = 0 := by omega
    subst hz
    have h0 : l.items.length ≠ 0 := by omega
    have hm : (0 + l.items.length - 1) % l.items.length = l.items.length - 1 := by
      rw [Nat.zero_add, Nat.mod_eq_of_lt (by omega)]
    simp [Q3PtrList.prev, Q3PtrList.current, Q3PtrList.last, h0, hm]

theorem activate_current (st : KState) (l : Q3PtrList) (k : Nat) (hk : k < l.items.length) :
    (match (Q3PtrList.current { l with cur := some k }) with
      | some s => activateSession { st with sessions := { l with cur := some k } } s
      | none => { st with sessions := { l with cur := some k } }).se = l.items[k]? ∧
    (match (Q3PtrList.current { l with cur := some k }) with
      | some s => activateSession { st with sessions := { l with cur := some k } } s
      | none => { st with sessions := { l with cur := some k } }).sessions.items = l.items := by
  have hc : Q3PtrList.current { l with cur := some k } = some (l.items.get ⟨k, hk⟩) := by
    simp [Q3PtrList.current, List.getElem?_eq_getElem hk]
  rw [hc]
  simp only [activateSession_se, activateSession_items]
  exact ⟨by simp [List.getElem?_eq_getElem hk], trivial⟩

theorem nextSession_se (st : KState) (a : Nat) (hse : st.se = some a)
    (hmem : a ∈ st.sessions.items) :
    (nextSession st).se
      = st.sessions.items[(st.sessions.items.indexOf a + 1) % st.sessions.items.length]? ∧
    (nextSession st).sessions.items = st.sessions.items := by
  have hlt : st.sessions.items.indexOf a < st.sessions.items.length :=
    List.indexOf_lt_length.2 hmem
  unfold nextSession
  simp only []
  rw [findActive_of_mem st a hse hmem, next_wrap _ _ hlt]
  exact activate_current st st.sessions _ (Nat.mod_lt _ (by omega))

theorem prevSession_se (st : KState) (a : Nat) (hse : st.se = some a)
    (hmem : a ∈ st.sessions.items) :
    (prevSession st).se
      = st.sessions.items[(st.sessions.items.indexOf a + st.sessions.items.length - 1)
          % st.sessions.items.length]? ∧
    (prevSession st).sessions.items = st.sessions.items := by
  have hlt : st.sessions.items.indexOf a < st.sessions.items.length :=
    List.indexOf_lt_length.2 hmem
  unfold prevSession
  simp only []
  rw [findActive_of_mem st a hse hmem, prev_wrap _ _ hlt]
  exact activate_current st st.sessions _ (Nat.mod_lt _ (by omega))

theorem nextSession_at (st : KState) (j : Nat) (hnd : st.sessions.items.Nodup)
    (hj : j < st.sessions.items.length) (hse : st.se = st.sessions.items[j]?) :
    (nextSession st).se = st.sessions.items[(j + 1) % st.sessions.items.length]? ∧
    (nextSession st).sessions.items = st.sessions.items := by
  have h := nextSession_se st (st.sessions.items.get ⟨j, hj⟩)
    (by rw [hse, List.getElem?_eq_getElem hj]; rfl) (List.get_mem _ _ _)
  rw [List.get_eq_getElem, List.indexOf_getElem hnd j hj] at h
  exact h

theorem prevSession_at (st : KState) (j : Nat) (hnd : st.sessions.items.Nodup)
    (hj : j < st.sessions.items.length) (hse : st.se = st.sessions.items[j]?) :
    (prevSession st).se
      = st.sessions.items[(j + st.sessions.items.length - 1) % st.sessions.items.length]? ∧
    (prevSession st).sessions.items = st.sessions.items := by
  have h := prevSession_se st (st.sessions.items.get ⟨j, hj⟩)
    (by rw [hse, List.getElem?_eq_getElem hj]; rfl) (List.get_mem _ _ _)
  rw [List.get_eq_getElem, List.indexOf_getElem hnd j hj] at h
  exact h

theorem nextSession_iterate (k : Nat) : ∀ (st : KState) (j : Nat),
    st.sessions.items.Nodup → j < st.sessions.items.length →
    st.se = st.sessions.items[j]? →
    (nextSession^[k] st).se = st.sessions.items[(j + k) % st.sessions.items.length]? := by
  induction k with
  | zero =>
    intro st j _ hj hse
    rw [Nat.add_zero, Nat.mod_eq_of_lt hj]
    exact hse
  | succ k ih =>
    intro st j hnd hj hse
    obtain ⟨h1, h2⟩ := nextSession_at st j hnd hj hse
    have hpos : 0 < st.sessions.items.length := by omega
    have h3 := ih (nextSession st) ((j + 1) % st.sessions.items.length)
      (by rw [h2]; exact hnd) (by rw [h2]; exact Nat.mod_lt _ hpos) (by rw [h2]; exact h1)
    rw [Function.iterate_succ_apply, h3, h2, Nat.mod_add_mod]
    have he : j + 1 + k = j + (k + 1) := by omega
    rw [he]

theorem cycling_keeps_display (st : KState) :
    (nextSession st).te = st.te ∧ (prevSession st).te = st.te := by
  constructor
  · unfold nextSession
    simp only []
    split <;> simp
  · unfold prevSession
    simp only []
    split <;> simp

/-- C20: with an empty session list neither `nextSession` nor `prevSession`
changes the active session. In a window with a terminal display `t` (the
activation dereferences `te`), with the active session `a` in the list of `n`
sessions at index `i`, `nextSession` makes the session at index `(i+1) mod n`
active and `prevSession` the one at index `(i+n-1) mod n`, and both leave the
display `t` in place; when the sessions of the list are distinct, `prevSession`
after `nextSession` and `n` applications of `nextSession` make `a` active
again. -/
theorem session_cycling_wraps (st : KState) :
    (st.sessions.items = [] →
      (nextSession st).se = st.se ∧ (prevSession st).se = st.se) ∧
    (∀ a t, st.te = some t → st.se = some a → a ∈ st.sessions.items →
      (nextSession st).se
        = st.sessions.items[(st.sessions.items.indexOf a + 1) % st.sessions.items.length]? ∧
      (prevSession st).se
        = st.sessions.items[(st.sessions.items.indexOf a + st.sessions.items.length - 1)
            % st.sessions.items.length]? ∧
      (nextSession st).te = some t ∧ (prevSession st).te = some t ∧
      (st.sessions.items.Nodup →
        (prevSession (nextSession st)).se = some a ∧
        (nextSession^[st.sessions.items.length] st).se = some a)) := by
  constructor
  · intro hitems
    constructor
    · unfold nextSession findActive
      cases h : st.se <;>
        simp [Q3PtrList.findRef, Q3PtrList.next, Q3PtrList.current, Q3PtrList.first, hitems, h]
    · unfold prevSession findActive
      cases h : st.se <;>
        simp [Q3PtrList.findRef, Q3PtrList.prev, Q3PtrList.current, Q3PtrList.last, hitems, h]
  · intro a t hte hse hmem
    have hlt : st.sessions.items.indexOf a < st.sessions.items.length :=
      List.indexOf_lt_length.2 hmem
    have hget : st.sessions.items[st.sessions.items.indexOf a]? = some a :=
      List.getElem?_indexOf hmem
    refine ⟨(nextSession_se st a hse hmem).1, (prevSession_se st a hse hmem).1,
      by rw [(cycling_keeps_display st).1, hte], by rw [(cycling_keeps_display st).2, hte], ?_⟩
    intro hnd
    constructor
    · obtain ⟨h1, h2⟩ := nextSession_se st a hse hmem
      have hpos : 0 < st.sessions.items.length := by omega
      have h3 := prevSession_at (nextSession st)
        ((st.sessions.items.indexOf a + 1) % st.sessions.items.length)
        (by rw [h2]; exact hnd) (by rw [h2]; exact Nat.mod_lt _ hpos) (by rw [h2]; exact h1)
      rw [h3.1, h2]
      have hm : ((st.sessions.items.indexOf a + 1) % st.sessions.items.length
          + st.sessions.items.length - 1) % st.sessions.items.length
          = st.sessions.items.indexOf a := by
        by_cases hlast : st.sessions.items.indexOf a + 1 < st.sessions.items.length
        · rw [Nat.mod_eq_of_lt hlast]
          have : st.sessions.items.indexOf a + 1 + st.sessions.items.length - 1
              = st.sessions.items.indexOf a + st.sessions.items.length := by omega
          rw [this, Nat.add_mod_right, Nat.mod_eq_of_lt hlt]
        · have hn : st.sessions.items.indexOf a + 1 = st.sessions.items.length := by omega
          rw [hn, Nat.mod_self, Nat.zero_add, Nat.mod_eq_of_lt (by omega)]
          omega
      rw [hm, hget]
    · rw [nextSession_iterate _ st _ hnd hlt (by rw [hget, hse]), Nat.add_mod_right,
        Nat.mod_eq_of_lt hlt, hget]

/-- Witness of C20: in the sample window with the display 0, the sessions 1, 2, 3
and session 3 active, `nextSession` wraps to session 1 and `prevSession` goes to session 2;
`prevSession` after `nextSession`, and three times `nextSession`, return to 3. -/
theorem session_cycling_wraps_witness :
    (nextSession { demoState with se := some 3 }).se = some 1 ∧
    (prevSession { demoState with se := some 3 }).se = some 2 ∧
    (prevSession (nextSession { demoState with se := some 3 })).se = some 3 ∧
    (nextSession (nextSession (nextSession { demoState with se := some 3 }))).se = some 3 :=
  ⟨((session_cycling_wraps { demoState with se := some 3 }).2 3 0 rfl rfl (by decide)).1,
   ((session_cycling_wraps { demoState with se := some 3 }).2 3 0 rfl rfl (by decide)).2.1,
   (((session_cycling_wraps { demoState with se := some 3 }).2 3 0 rfl rfl
      (by decide)).2.2.2.2 (by decide)).1,
   (((session_cycling_wraps { demoState with se := some 3 }).2 3 0 rfl rfl
      (by decide)).2.2.2.2 (by decide)).2⟩

/-! ## C18: the history search and its wrap -/

theorem searchOnce_log (st : KState) (a : Nat) (dlg : KFindDialog) :
    (searchOnce st a dlg).searchLog = logBeforeNext st a ++ [searchCall a dlg] := by
  unfold searchOnce logBeforeNext searchCall
  cases h : st.m_find_first <;> simp

theorem searchOnce_frame (st : KState) (a : Nat) (dlg : KFindDialog) :
    (searchOnce st a dlg).m_find_found = st.m_find_found ∧
    (searchOnce st a dlg).m_find_first = false ∧
    (searchOnce st a dlg).m_find_pattern = dlg.pattern ∧
    (searchOnce st a dlg).se = st.se ∧
    (searchOnce st a dlg).m_finddialog = st.m_finddialog := by
  unfold searchOnce
  cases h : st.m_find_first <;> simp [h]

theorem slotFind_step (env : SearchEnv) (fuel : Nat) (st : KState) (a : Nat)
    (dlg : KFindDialog) (hse : st.se = some a) (hdlg : st.m_finddialog = some dlg) :
    slotFind env (fuel + 1) st =
      if env.findTextNext (logBeforeNext st a) then
        some { searchOnce st a dlg with m_find_found := true }
      else if st.m_find_found then
        if env.wrapAnswer (logBeforeNext st a ++ [searchCall a dlg]) then
          slotFind env fuel
            { searchOnce st a dlg with
              searchLog := logBeforeNext st a ++
                [searchCall a dlg, SearchEvent.askWrap (!dlg.findBackwards)]
              m_find_first := true }
        else
          some { searchOnce st a dlg with
            searchLog := logBeforeNext st a ++
              [searchCall a dlg, SearchEvent.askWrap (!dlg.findBackwards)] }
      else
        some { searchOnce st a dlg with
          searchLog := logBeforeNext st a ++
            [searchCall a dlg, SearchEvent.notFound dlg.pattern] } := by
  obtain ⟨h1, -, h3, -, -⟩ := searchOnce_frame st a dlg
  have h4 := searchOnce_log st a dlg
  rw [slotFind]
  simp only [hse, hdlg, h1, h3, h4, List.append_assoc, List.singleton_append]

/-- C18: `slotFindHistory` sets `m_find_first` and clears `m_find_found`. A
call of `slotFind` for the active session `a` and the dialog `dlg` calls
`findTextBegin` first exactly when `m_find_first` is set, and then
`findTextNext` with the pattern and direction of the dialog. On a hit it
returns with `m_find_found` set. On a miss without an earlier hit it reports
that the text was not found. On a miss after an earlier hit it asks whether to
wrap (end reached when searching forward, beginning reached when searching
backward): when the user declines it returns with no further search call; when
the user accepts, `slotFind` runs again with `m_find_first` set, so that its
next calls are `findTextBegin` and then `findTextNext` with the same pattern and
direction, and a hit of that search ends the call. -/
theorem slotFind_wraps_on_request (env : SearchEnv) (fuel : Nat) (st : KState) (a : Nat)
    (dlg : KFindDialog) (hse : st.se = some a) (hdlg : st.m_finddialog = some dlg) :
    ((slotFindHistory st).m_find_first = true ∧ (slotFindHistory st).m_find_found = false) ∧
    (st.m_find_first = true → logBeforeNext st a = st.searchLog ++ [SearchEvent.findTextBegin a]) ∧
    (st.m_find_first = false → logBeforeNext st a = st.searchLog) ∧
    (env.findTextNext (logBeforeNext st a) = true →
      ∃ r, slotFind env (fuel + 1) st = some r ∧ r.m_find_found = true ∧
        r.m_find_first = false ∧
        r.searchLog = logBeforeNext st a ++ [searchCall a dlg]) ∧
    (env.findTextNext (logBeforeNext st a) = false → st.m_find_found = false →
      ∃ r, slotFind env (fuel + 1) st = some r ∧
        r.searchLog = logBeforeNext st a ++
          [searchCall a dlg, SearchEvent.notFound dlg.pattern]) ∧
    (env.findTextNext (logBeforeNext st a) = false → st.m_find_found = true →
      env.wrapAnswer (logBeforeNext st a ++ [searchCall a dlg]) = false →
      ∃ r, slotFind env (fuel + 1) st = some r ∧
        r.searchLog = logBeforeNext st a ++
          [searchCall a dlg, SearchEvent.askWrap (!dlg.findBackwards)]) ∧
    (env.findTextNext (logBeforeNext st a) = false → st.m_find_found = true →
      env.wrapAnswer (logBeforeNext st a ++ [searchCall a dlg]) = true →
      ∃ w, slotFind env (fuel + 2) st = slotFind env (fuel + 1) w ∧
        w.se = some a ∧ w.m_finddialog = some dlg ∧ w.m_find_first = true ∧
        w.searchLog = logBeforeNext st a ++
          [searchCall a dlg, SearchEvent.askWrap (!dlg.findBackwards)] ∧
        logBeforeNext w a = w.searchLog ++ [SearchEvent.findTextBegin a] ∧
        (env.findTextNext (w.searchLog ++ [SearchEvent.findTextBegin a]) = true →
          ∃ r, slotFind env (fuel + 2) st = some r ∧ r.m_find_found = true ∧
            r.searchLog = logBeforeNext st a ++
              [searchCall a dlg, SearchEvent.askWrap (!dlg.findBackwards),
                SearchEvent.findTextBegin a, searchCall a dlg])) := by
  obtain ⟨f1, f2, f3, f4, f5⟩ := searchOnce_frame st a dlg
  refine ⟨⟨rfl, rfl⟩, ?_, ?_, ?_, ?_, ?_, ?_⟩
  · intro h
    unfold logBeforeNext
    rw [if_pos h]
  · intro h
    unfold logBeforeNext
    simp [h]
  · intro hhit
    rw [slotFind_step env fuel st a dlg hse hdlg, if_pos hhit]
    exact ⟨_, rfl, rfl, f2, searchOnce_log st a dlg⟩
  · intro hmiss hfound
    rw [slotFind_step env fuel st a dlg hse hdlg, if_neg (by simp [hmiss]),
      if_neg (by simp [hfound])]
    exact ⟨_, rfl, rfl⟩
  · intro hmiss hfound hno
    rw [slotFind_step env fuel st a dlg hse hdlg, if_neg (by simp [hmiss]), if_pos hfound,
      if_neg (by simp [hno])]
    exact ⟨_, rfl, rfl⟩
  · intro hmiss hfound hyes
    rw [slotFind_step env (fuel + 1) st a dlg hse hdlg, if_neg (by simp [hmiss]),
      if_pos hfound, if_pos hyes]
    refine ⟨_, rfl, by rw [← hse]; exact f4, by rw [← hdlg]; exact f5, rfl, rfl, rfl, ?_⟩
    intro hhit
    rw [slotFind_step env fuel _ a dlg (by rw [← hse]; exact f4) (by rw [← hdlg]; exact f5)]
    rw [if_pos (by exact hhit)]
    refine ⟨_, rfl, rfl, (searchOnce_log _ a dlg).trans ?_⟩
    simp [logBeforeNext]

/-- Witness of C18: the sample search for `foo` misses after an earlier hit, the
user accepts the wrap, and the search from the start hits: the calls are
`findTextNext`, the wrap question, `findTextBegin` and `findTextNext` again. -/
theorem slotFind_wraps_on_request_witness :
    ∃ r, slotFind wrapEnv 2 findState = some r ∧ r.m_find_found = true ∧
      r.searchLog =
        [SearchEvent.findTextNext 1 "foo" true false false, SearchEvent.askWrap true,
          SearchEvent.findTextBegin 1, SearchEvent.findTextNext 1 "foo" true false false] := by
  obtain ⟨w, -, -, -, -, hlog, -, h2⟩ :=
    (slotFind_wraps_on_request wrapEnv 0 findState 1 { pattern := "foo", shown := true }
      rfl rfl).2.2.2.2.2.2 rfl rfl rfl
  obtain ⟨r, hr1, hr2, hr3⟩ := h2 (by rw [hlog]; rfl)
  exact ⟨r, hr1, hr2, hr3⟩

/-! ## C21 to C30 -/

/-! ### C22: the confirmation of `queryClose` -/

/-- C22, as stated, fails: the window has exactly one session and
`Warn on Quit` is set, the application is not saving its session, and the user
would cancel; `queryClose` asks no question and returns true. -/
theorem queryClose_single_session_not_asked :
    oneState.sessions.count = 1 ∧ oneState.b_warnQuit = true ∧
    (queryClose oneState false ButtonCode.Cancel).2 = true ∧
    (queryClose oneState false ButtonCode.Cancel).1.closeQuestions
      = oneState.closeQuestions := by
  decide

/-- C22, amended: when the application is not saving its session, `b_warnQuit`
is true and the session list has more than one session, `queryClose` shows the
confirmation and returns false exactly when the user cancels; it returns true
without asking, the state unchanged, when the application is saving its session,
when there is at most one session, or when `b_warnQuit` is false. -/
theorem queryClose_asks_for_several (st : KState) (sessionSaving : Bool)
    (answer : ButtonCode) :
    (sessionSaving = false → st.b_warnQuit = true → 1 < st.sessions.items.length →
      (queryClose st sessionSaving answer).1.closeQuestions = st.closeQuestions + 1 ∧
      ((queryClose st sessionSaving answer).2 = false ↔ answer = ButtonCode.Cancel)) ∧
    (sessionSaving = true ∨ st.sessions.items.length ≤ 1 ∨ st.b_warnQuit = false →
      queryClose st sessionSaving answer = (st, true)) := by
  constructor
  · intro hs hw hn
    have h0 : st.sessions.items.length ≠ 0 := by omega
    unfold queryClose Q3PtrList.count
    cases answer <;> simp [hs, hw, hn, h0]
  · intro h
    unfold queryClose Q3PtrList.count
    by_cases hs : sessionSaving = true
    · simp [hs]
    · by_cases h0 : st.sessions.items.length = 0
      · simp [hs, h0]
      · by_cases hw : st.b_warnQuit = true
        · have hn : ¬ st.sessions.items.length > 1 := by
            rcases h with h | h | h
            · exact absurd h hs
            · omega
            · rw [hw] at h
              exact absurd h (by decide)
          simp [hs, h0, hw, hn]
        · simp [hs, h0, hw]

/-- Witness of C22: the sample window of three sessions with `Warn on Quit` set
asks once, and a cancel makes `queryClose` return false. -/
theorem queryClose_asks_for_several_witness :
    (queryClose { demoState with b_warnQuit := true } false ButtonCode.Cancel).1.closeQuestions
      = 1 ∧
    (queryClose { demoState with b_warnQuit := true } false ButtonCode.Cancel).2 = false :=
  ⟨((queryClose_asks_for_several { demoState with b_warnQuit := true } false
      ButtonCode.Cancel).1 rfl rfl (by decide)).1,
   ((queryClose_asks_for_several { demoState with b_warnQuit := true } false
      ButtonCode.Cancel).1 rfl rfl (by decide)).2.mpr rfl⟩

/-! ### C25, C28, C29: evaluations -/

/-- C25, evaluated on the code: session 1 is active, session 2 is the previous
session, and the background session 3 ends; after `doneSession` the active
session is session 2. -/
theorem doneSession_background_switches_active :
    backState.se = some 1 ∧ backState.se_previous = some 2 ∧
    3 ∈ backState.sessions.items ∧
    (doneSession backState 3).se = some 2 := by
  decide

/-- C28, evaluated on the code: session 1 is active, session 2 is the previous
session, and the background session 3 is resized; after `slotResizeSession` the
active session is session 1 again and the previous session is session 3. -/
theorem slotResizeSession_replaces_previous :
    backState.se = some 1 ∧ backState.se_previous = some 2 ∧
    3 ∈ backState.sessions.items ∧
    (slotResizeSession backState 3 100 30).se = some 1 ∧
    (slotResizeSession backState 3 100 30).se_previous = some 3 := by
  decide

/-- C29, evaluated on the code: resizing is allowed and the size is fixed, the
display has 80 columns and 24 lines. `changeColLin` leaves the display alone;
`changeColumns(132)` calls `setColLin(132, 24)`, and the display has 132
columns afterwards. -/
theorem changeColumns_resizes_fixed_display :
    fixedState.b_allowResize = true ∧ fixedState.b_fixedSize = true ∧
    fixedState.displaySize 1 = (80, 24) ∧
    (changeColLin fixedState 132 24).displaySize 1 = (80, 24) ∧
    (changeColLin fixedState 132 24).sizeRequests = [] ∧
    (changeColumns fixedState 132).sizeRequests = [(132, 24)] ∧
    (changeColumns fixedState 132).displaySize 1 = (132, 24) := by
  decide

/-! ### C27: text for all sessions -/

theorem setMasterMode_same (st : KState) (a : Nat) (o : Session) (b : Bool)
    (hse : st.se = some a) (hobj : st.objs a = some o) (hb : o.masterMode = b) :
    setMasterMode st b none = st := by
  unfold setMasterMode
  simp [hse, getSession, hobj, hb]

theorem setMasterMode_flip (st : KState) (a : Nat) (o : Session) (b : Bool)
    (hse : st.se = some a) (hobj : st.objs a = some o) (hb : o.masterMode ≠ b) :
    setMasterMode st b none =
      updSession { st with masterModeChecked := b } a (fun x => { x with masterMode := b }) := by
  unfold setMasterMode enableMasterModeConnections disableMasterModeConnections
  simp only [hse, getSession, hobj, Option.getD_some, if_neg hb, if_true]
  cases b <;> simp

/-- C27: `feedAllSessions` returns at once when there is no terminal display.
With a display `t` and a live active session `a`, the session object of `a`, its
master flag included, is afterwards what it was before, for both values of the
flag; the text is emitted once, on `t`, while the master flag of `a` is true;
and no other session object changes. `sendAllSessions(text)` is
`feedAllSessions` of the text followed by one carriage return. -/
theorem feedAllSessions_restores_master (st : KState) (text : String) :
    (st.te = none → feedAllSessions st text = st) ∧
    (∀ t a o, st.te = some t → st.se = some a → st.objs a = some o →
      (feedAllSessions st text).objs a = some o ∧
      (feedAllSessions st text).emitLog
        = st.emitLog ++ [{ display := t, text := text, master := true }] ∧
      (∀ q, q ≠ a → (feedAllSessions st text).objs q = st.objs q)) ∧
    sendAllSessions st text = feedAllSessions st (text ++ "\r") := by
  refine ⟨?_, ?_, rfl⟩
  · intro h
    unfold feedAllSessions
    rw [h]
  · intro t a o hte hse hobj
    unfold feedAllSessions
    simp only [hte, hse, Option.map_some', Option.getD_some, getSession, hobj]
    by_cases hm : o.masterMode = true
    · rw [setMasterMode_same st a o true hse hobj hm]
      simp [hm, hse, hobj]
    · have hf : o.masterMode = false := by simpa using hm
      rw [setMasterMode_flip st a o true hse hobj hm]
      simp only [hf, Bool.not_false, if_true]
      rw [setMasterMode_flip _ a { o with masterMode := true } false (by simp [updSession, hse])
        (by simp [updSession, hobj]) (by simp)]
      refine ⟨?_, ?_, ?_⟩
      · cases o
        simp only [] at hf
        simp [updSession, hobj, hf]
      · simp [updSession, hse, hobj]
      · intro q hq
        simp [updSession, hq]

/-- Witness of C27: in the sample window with the display 1, session 1 (not a
master) is not a master after `feedAllSessions`, and the text went out once
while it was one. -/
theorem feedAllSessions_restores_master_witness :
    (getSession (feedAllSessions backState "ls") 1).masterMode = false ∧
    (feedAllSessions backState "ls").emitLog = [{ display := 1, text := "ls", master := true }] := by
  have h := (feedAllSessions_restores_master backState "ls").2.1 1 1
    { sessionId := "1", title := "Shell", connect := true, codec := 7 } rfl rfl rfl
  refine ⟨?_, h.2.1⟩
  unfold getSession
  rw [h.1]
  rfl

/-! ### C26: repeated wrap questions -/

theorem slotFind_no_result (env : SearchEnv) (hmiss : ∀ log, env.findTextNext log = false)
    (hyes : ∀ log, env.wrapAnswer log = true) :
    ∀ (fuel : Nat) (st : KState) (a : Nat) (dlg : KFindDialog), st.se = some a →
      st.m_finddialog = some dlg → st.m_find_found = true → slotFind env fuel st = none := by
  intro fuel
  induction fuel with
  | zero =>
    intro st a dlg _ _ _
    rw [slotFind]
  | succ fuel ih =>
    intro st a dlg hse hdlg hfound
    obtain ⟨f1, -, -, f4, f5⟩ := searchOnce_frame st a dlg
    rw [slotFind_step env fuel st a dlg hse hdlg, if_neg (by simp [hmiss]), if_pos hfound,
      if_pos (hyes _)]
    exact ih _ a dlg (by rw [← hse]; exact f4) (by rw [← hdlg]; exact f5)
      (by rw [← hfound]; exact f1)

/-- C26, evaluated on the code: the search has had a hit, and the pattern now in
the dialog occurs nowhere in the history. `slotFind` misses and asks whether to
wrap; the user accepts, the search from the start misses again, and `slotFind`
asks a second time instead of reporting that the text was not found. With a user
who accepts every wrap, no amount of fuel makes the call return. -/
theorem slotFind_prompts_again :
    changedState.se = some 1 ∧ changedState.m_find_found = true ∧
    (slotFind declineSecondEnv 2 changedState).map KState.searchLog =
      some [SearchEvent.findTextNext 1 "bar" true false false, SearchEvent.askWrap true,
        SearchEvent.findTextBegin 1, SearchEvent.findTextNext 1 "bar" true false false,
        SearchEvent.askWrap true] ∧
    ∀ fuel, slotFind alwaysYesEnv fuel changedState = none :=
  ⟨rfl, rfl, by decide,
    fun fuel => slotFind_no_result alwaysYesEnv (fun _ => rfl) (fun _ => rfl) fuel changedState 1
      { pattern := "bar", shown := true } rfl rfl rfl⟩

/-! ### C24 and C23: the title loop of `addSession` -/

theorem uniqueTitleLoop_some (titles : List String) (render : Nat → String) :
    ∀ (fuel count : Nat) (newTitle t : String),
      uniqueTitleLoop titles render fuel count newTitle = some t →
      t ∉ titles ∧
      ((newTitle ∉ titles ∧ t = newTitle) ∨
        (newTitle ∈ titles ∧ ∃ k, count < k ∧ t = render k ∧
          ∀ j, count < j → j < k → render j ∈ titles)) := by
  intro fuel
  induction fuel with
  | zero =>
    intro count newTitle t h
    simp [uniqueTitleLoop] at h
  | succ fuel ih =>
    intro count newTitle t h
    unfold uniqueTitleLoop at h
    by_cases hmem : newTitle ∈ titles
    · rw [if_pos hmem] at h
      obtain ⟨h1, h2⟩ := ih (count + 1) (render (count + 1)) t h
      refine ⟨h1, Or.inr ⟨hmem, ?_⟩⟩
      rcases h2 with ⟨-, h3⟩ | ⟨h3, k, hk, hk2, hk3⟩
      · exact ⟨count + 1, by omega, h3, fun j hj1 hj2 => absurd hj2 (by omega)⟩
      · refine ⟨k, by omega, hk2, fun j hj1 hj2 => ?_⟩
        by_cases hj : j = count + 1
        · rw [hj]
          exact h3
        · exact hk3 j (by omega) hj2
    · rw [if_neg hmem] at h
      have ht : newTitle = t := Option.some.inj h
      rw [← ht]
      exact ⟨hmem, Or.inl ⟨hmem, rfl⟩⟩

theorem untranslated_rendering_differs (T : String) (k : Nat) :
    ({} : KState).i18ncNo T k ≠ T := by
  intro h
  have hl := congrArg String.length h
  have h5 : (" No. " : String).length = 5 := by decide
  simp only [String.length_append, h5] at hl
  omega

/-- C24: with `n` sessions in the list, the title loop of `addSession` ends
within `n+1` iterations (each unit of fuel pays for one iteration), given that
the renderings for the counts up to `n+1` are pairwise different strings and
differ from the title they are made from. -/
theorem addSession_title_loop_bound (st : KState) (s fuel : Nat)
    (hfuel : st.sessions.items.length + 1 ≤ fuel)
    (hinj : RendersDistinct (st.i18ncNo (getSession st s).title)
      (st.sessions.items.length + 1))
    (hne : ∀ k, k ≤ st.sessions.items.length + 1 → 2 ≤ k →
      st.i18ncNo (getSession st s).title k ≠ (getSession st s).title) :
    (∃ t, uniqueTitleLoop (sessionTitles st) (st.i18ncNo (getSession st s).title) fuel 1
      (getSession st s).title = some t) ∧
    ∃ st2, addSession fuel st s = some st2 := by
  have hlen : (sessionTitles st).length = st.sessions.items.length := by
    unfold sessionTitles
    rw [List.length_map]
  have hloop : ∃ t, uniqueTitleLoop (sessionTitles st) (st.i18ncNo (getSession st s).title)
      fuel 1 (getSession st s).title = some t := by
    cases h : uniqueTitleLoop (sessionTitles st) (st.i18ncNo (getSession st s).title) fuel 1
      (getSession st s).title with
    | some t => exact ⟨t, rfl⟩
    | none =>
      exfalso
      obtain ⟨h1, h2⟩ := uniqueTitleLoop_none _ _ fuel 1 _ h
      have hsub : (getSession st s).title ::
          (List.range' 2 st.sessions.items.length).map (st.i18ncNo (getSession st s).title)
            ⊆ sessionTitles st := by
        intro x hx
        rw [List.mem_cons] at hx
        rcases hx with hx | hx
        · rw [hx]
          exact h1 (by omega)
        · rw [List.mem_map] at hx
          obtain ⟨k, hk, rfl⟩ := hx
          rw [List.mem_range'_1] at hk
          exact h2 k (by omega) (by omega)
      have hnd : ((getSession st s).title ::
          (List.range' 2 st.sessions.items.length).map
            (st.i18ncNo (getSession st s).title)).Nodup := by
        rw [List.nodup_cons]
        constructor
        · intro hx
          rw [List.mem_map] at hx
          obtain ⟨k, hk, hk2⟩ := hx
          rw [List.mem_range'_1] at hk
          exact hne k (by omega) (by omega) hk2
        · apply List.Nodup.map_on _ (List.nodup_range' 2 st.sessions.items.length)
          intro x hx y hy hxy
          rw [List.mem_range'_1] at hx hy
          exact hinj x (by omega) y (by omega) hxy
      have hle := (List.subperm_of_subset hnd hsub).length_le
      rw [hlen] at hle
      simp at hle
  refine ⟨hloop, ?_⟩
  obtain ⟨t, ht⟩ := hloop
  exact ⟨registerSession st s t, by unfold addSession; simp only [ht, Option.map_some']⟩

/-- Witness of C24: the sample window has three sessions titled `Shell`,
`Shell No. 2` and `Shell No. 3`; for a fourth session titled `Shell` the loop
ends with four units of fuel. -/
theorem addSession_title_loop_bound_witness :
    ∃ t, uniqueTitleLoop (sessionTitles demoState)
      (demoState.i18ncNo (getSession demoState 1).title) 4 1
      (getSession demoState 1).title = some t :=
  (addSession_title_loop_bound demoState 1 4 (by decide) (by decide) (by decide)).1

theorem registerSession_titles (st : KState) (s : Nat) (t : String) (o : Session)
    (hobj : st.objs s = some o) :
    (getSession (registerSession st s t) s).title = t ∧
    (s ∉ st.sessions.items →
      sessionTitles (registerSession st s t) = sessionTitles st ++ [t]) := by
  obtain ⟨hitems, hobjs⟩ := registerSession_frame st s t
  have hself : (getSession (registerSession st s t) s).title = t := by
    unfold getSession
    rw [hobjs]
    simp [updSession, hobj]
  refine ⟨hself, ?_⟩
  intro hnew
  unfold sessionTitles
  rw [hitems, List.map_append, List.map_singleton, hself]
  congr 1
  apply List.map_congr_left
  intro p hp
  have hne : p ≠ s := fun h => hnew (h ▸ hp)
  unfold getSession
  rw [hobjs]
  simp [updSession, hne]

/-- C23: `addSession(s)` for a live session `s` with the title `T`, the
renderings of `T` for the counts up to the fuel needed being pairwise different:
the call returns, the list has grown by `s`, and the title of `s` is afterwards
none of the titles the sessions of the list had. It is `T` when no session of the
list was titled `T`, and otherwise the rendering of `T` with the least count
`k >= 2` whose rendering no session of the list had as title. When `s` was not
in the list and the titles of the list were pairwise distinct, the titles of the
new list are pairwise distinct. -/
theorem addSession_title_unique (fuel : Nat) (st : KState) (s : Nat) (o : Session)
    (hobj : st.objs s = some o)
    (hfuel : st.sessions.items.length + 2 ≤ fuel)
    (hren : RendersDistinct (st.i18ncNo o.title) (st.sessions.items.length + 2)) :
    ∃ st2, addSession fuel st s = some st2 ∧
      st2.sessions.items = st.sessions.items ++ [s] ∧
      (getSession st2 s).title ∉ sessionTitles st ∧
      (o.title ∉ sessionTitles st → (getSession st2 s).title = o.title) ∧
      (o.title ∈ sessionTitles st →
        ∃ k, 2 ≤ k ∧ (getSession st2 s).title = st.i18ncNo o.title k ∧
          ∀ j, 2 ≤ j → j < k → st.i18ncNo o.title j ∈ sessionTitles st) ∧
      (s ∉ st.sessions.items → (sessionTitles st).Nodup → (sessionTitles st2).Nodup) := by
  have htitle : (getSession st s).title = o.title := by
    unfold getSession
    rw [hobj]
    rfl
  have hlen : (sessionTitles st).length = st.sessions.items.length := by
    unfold sessionTitles
    rw [List.length_map]
  obtain ⟨t, ht⟩ := uniqueTitleLoop_terminates (sessionTitles st) (st.i18ncNo o.title) o.title
    fuel (by rw [hlen]; exact hfuel) (by rw [hlen]; exact hren)
  obtain ⟨hnot, hcase⟩ := uniqueTitleLoop_some _ _ fuel 1 o.title t ht
  obtain ⟨hself, htitles⟩ := registerSession_titles st s t o hobj
  refine ⟨registerSession st s t, ?_, (registerSession_frame st s t).1, ?_, ?_, ?_, ?_⟩
  · unfold addSession
    simp only [htitle, ht, Option.map_some']
  · rw [hself]
    exact hnot
  · intro hfree
    rw [hself]
    rcases hcase with ⟨-, h⟩ | ⟨h, -⟩
    · exact h
    · exact absurd h hfree
  · intro htaken
    rw [hself]
    rcases hcase with ⟨h, -⟩ | ⟨-, k, hk, hk2, hk3⟩
    · exact absurd htaken h
    · exact ⟨k, by omega, hk2, fun j hj1 hj2 => hk3 j (by omega) hj2⟩
  · intro hnew hnd
    rw [htitles hnew]
    rw [List.nodup_append]
    refine ⟨hnd, List.nodup_singleton t, ?_⟩
    intro x hx hx2
    rw [List.mem_singleton] at hx2
    rw [hx2] at hx
    exact hnot hx

/-- Witness of C23: in the sample window a new session 4 titled `Shell` gets the
title `Shell No. 4`, the titles `Shell`, `Shell No. 2` and `Shell No. 3` being
taken. -/
theorem addSession_title_unique_witness :
    ∃ st2, addSession 5
        { demoState with objs := fun p => if p = 4 then some { title := "Shell" } else demoObjs p }
        4 = some st2 ∧
      st2.sessions.items = [1, 2, 3, 4] ∧
      (getSession st2 4).title = "Shell No. 4" := by
  obtain ⟨st2, h1, h2, h5, -, h3, -⟩ := addSession_title_unique 5
    { demoState with objs := fun p => if p = 4 then some { title := "Shell" } else demoObjs p }
    4 { title := "Shell" } rfl (by decide) (by decide)
  refine ⟨st2, h1, h2, ?_⟩
  obtain ⟨k, hk1, hk2, hk3⟩ := h3 (by decide)
  have hk4 : k = 4 := by
    by_contra hne
    rcases Nat.lt_or_gt_of_ne hne with hlt | hgt
    · have : k = 2 ∨ k = 3 := by omega
      rcases this with rfl | rfl
      · exact h5 (by rw [hk2]; decide)
      · exact h5 (by rw [hk2]; decide)
    · have h8 := hk3 4 (by omega) hgt
      revert h8
      decide
  rw [hk2, hk4]
  rfl

/-! ### C21: one view per container -/

@[simp]
theorem dropStaleActive_nextDisplay (st : KState) :
    (dropStaleActive st).nextDisplay = st.nextDisplay := by
  unfold dropStaleActive
  split
  · rfl
  · simp only; split <;> rfl

@[simp]
theorem syncSessionMenus_nextDisplay (st : KState) (s : Nat) :
    (syncSessionMenus st s).nextDisplay = st.nextDisplay := by
  unfold syncSessionMenus; split <;> rfl

@[simp]
theorem activateSession_nextDisplay (st : KState) (s : Nat) :
    (activateSession st s).nextDisplay = st.nextDisplay := by
  cases hte : st.te with
  | none => rw [activateSession_of_no_te st s hte]; simp [selectActive]
  | some t => rw [activateSession_of_te st s t hte]; simp [selectActive, updSession]

@[simp]
theorem activateSessionChecked_nextDisplay (st : KState) :
    (activateSessionChecked st).nextDisplay = st.nextDisplay := by
  unfold activateSessionChecked; split <;> simp

@[simp]
theorem setActionChecked_nextDisplay (st : KState) (ra : Nat) :
    (setActionChecked st ra).nextDisplay = st.nextDisplay := by
  unfold setActionChecked; split <;> simp

@[simp]
theorem dropStaleActive_activeViews (st : KState) :
    (dropStaleActive st).activeViews = st.activeViews := by
  unfold dropStaleActive
  split
  · rfl
  · simp only; split <;> rfl

@[simp]
theorem syncSessionMenus_activeViews (st : KState) (s : Nat) :
    (syncSessionMenus st s).activeViews = st.activeViews := by
  unfold syncSessionMenus; split <;> rfl

@[simp]
theorem activateSession_activeViews (st : KState) (s : Nat) :
    (activateSession st s).activeViews = st.activeViews := by
  cases hte : st.te with
  | none => rw [activateSession_of_no_te st s hte]; simp [selectActive]
  | some t => rw [activateSession_of_te st s t hte]; simp [selectActive, updSession]

@[simp]
theorem activateSessionChecked_activeViews (st : KState) :
    (activateSessionChecked st).activeViews = st.activeViews := by
  unfold activateSessionChecked; split <;> simp

@[simp]
theorem setActionChecked_activeViews (st : KState) (ra : Nat) :
    (setActionChecked st ra).activeViews = st.activeViews := by
  unfold setActionChecked; split <;> simp

@[simp]
theorem dropStaleActive_containerViews (st : KState) :
    (dropStaleActive st).containerViews = st.containerViews := by
  unfold dropStaleActive
  split
  · rfl
  · simp only; split <;> rfl

@[simp]
theorem syncSessionMenus_containerViews (st : KState) (s : Nat) :
    (syncSessionMenus st s).containerViews = st.containerViews := by
  unfold syncSessionMenus; split <;> rfl

@[simp]
theorem activateSession_containerViews (st : KState) (s : Nat) :
    (activateSession st s).containerViews = st.containerViews := by
  cases hte : st.te with
  | none => rw [activateSession_of_no_te st s hte]; simp [selectActive]
  | some t => rw [activateSession_of_te st s t hte]; simp [selectActive, updSession]

@[simp]
theorem activateSessionChecked_containerViews (st : KState) :
    (activateSessionChecked st).containerViews = st.containerViews := by
  unfold activateSessionChecked; split <;> simp

@[simp]
theorem setActionChecked_containerViews (st : KState) (ra : Nat) :
    (setActionChecked st ra).containerViews = st.containerViews := by
  unfold setActionChecked; split <;> simp

@[simp]
theorem dropStaleActive_nextContainer (st : KState) :
    (dropStaleActive st).nextContainer = st.nextContainer := by
  unfold dropStaleActive
  split
  · rfl
  · simp only; split <;> rfl

@[simp]
theorem syncSessionMenus_nextContainer (st : KState) (s : Nat) :
    (syncSessionMenus st s).nextContainer = st.nextContainer := by
  unfold syncSessionMenus; split <;> rfl

@[simp]
theorem activateSession_nextContainer (st : KState) (s : Nat) :
    (activateSession st s).nextContainer = st.nextContainer := by
  cases hte : st.te with
  | none => rw [activateSession_of_no_te st s hte]; simp [selectActive]
  | some t => rw [activateSession_of_te st s t hte]; simp [selectActive, updSession]

@[simp]
theorem activateSessionChecked_nextContainer (st : KState) :
    (activateSessionChecked st).nextContainer = st.nextContainer := by
  unfold activateSessionChecked; split <;> simp

@[simp]
theorem setActionChecked_nextContainer (st : KState) (ra : Nat) :
    (setActionChecked st ra).nextContainer = st.nextContainer := by
  unfold setActionChecked; split <;> simp

@[simp]
theorem dropStaleActive_detachEnabled (st : KState) :
    (dropStaleActive st).detachEnabled = st.detachEnabled := by
  unfold dropStaleActive
  split
  · rfl
  · simp only; split <;> rfl

@[simp]
theorem syncSessionMenus_detachEnabled (st : KState) (s : Nat) :
    (syncSessionMenus st s).detachEnabled = st.detachEnabled := by
  unfold syncSessionMenus; split <;> rfl

@[simp]
theorem activateSession_detachEnabled (st : KState) (s : Nat) :
    (activateSession st s).detachEnabled = st.detachEnabled := by
  cases hte : st.te with
  | none => rw [activateSession_of_no_te st s hte]; simp [selectActive]
  | some t => rw [activateSession_of_te st s t hte]; simp [selectActive, updSession]

@[simp]
theorem activateSessionChecked_detachEnabled (st : KState) :
    (activateSessionChecked st).detachEnabled = st.detachEnabled := by
  unfold activateSessionChecked; split <;> simp

@[simp]
theorem setActionChecked_detachEnabled (st : KState) (ra : Nat) :
    (setActionChecked st ra).detachEnabled = st.detachEnabled := by
  unfold setActionChecked; split <;> simp

theorem applySettingsToGUI_views_frame (st : KState) :
    (applySettingsToGUI st).nextDisplay = st.nextDisplay ∧
    (applySettingsToGUI st).containers = st.containers ∧
    (applySettingsToGUI st).activeContainer = st.activeContainer ∧
    (applySettingsToGUI st).activeViews = st.activeViews ∧
    (applySettingsToGUI st).containerViews = st.containerViews ∧
    (applySettingsToGUI st).manager = st.manager ∧
    (applySettingsToGUI st).nextContainer = st.nextContainer := by
  unfold applySettingsToGUI
  split
  · exact ⟨rfl, rfl, rfl, rfl, rfl, rfl, rfl⟩
  · split
    · split <;> exact ⟨rfl, rfl, rfl, rfl, rfl, rfl, rfl⟩
    · exact ⟨rfl, rfl, rfl, rfl, rfl, rfl, rfl⟩

theorem createSessionView_frame (st : KState) :
    (createSessionView st).2 = st.nextDisplay ∧
    (createSessionView st).1.nextDisplay = st.nextDisplay + 1 ∧
    (createSessionView st).1.containers = st.containers ∧
    (createSessionView st).1.activeContainer = st.activeContainer ∧
    (createSessionView st).1.activeViews = st.activeViews ∧
    (createSessionView st).1.containerViews = st.containerViews ∧
    (createSessionView st).1.manager = st.manager ∧
    (createSessionView st).1.nextContainer = st.nextContainer := by
  refine ⟨rfl, ?_⟩
  unfold createSessionView
  simp only [readProperties_views]
  split
  · obtain ⟨h1, h2, h3, h4, h5, h6, h7⟩ :=
      applySettingsToGUI_views_frame { st with nextDisplay := st.nextDisplay + 1 }
    simp only [activateSessionChecked_nextDisplay, activateSessionChecked_containers,
      activateSessionChecked_activeContainer, activateSessionChecked_activeViews,
      activateSessionChecked_containerViews, activateSessionChecked_manager,
      activateSessionChecked_nextContainer]
    exact ⟨h1, h2, h3, h4, h5, h6, h7⟩
  · exact ⟨rfl, rfl, rfl, rfl, rfl, rfl, rfl⟩

theorem keeps_createSessionView {α : Type} {g : Session → α} {v : α} {p : Nat} {st : KState}
    (hg : ∀ o b, g { o with connect := b } = g o) (h : Keeps g v p st) :
    Keeps g v p (createSessionView st).1 := by
  unfold createSessionView
  simp only [readProperties_views]
  split
  · exact keeps_activateSessionChecked hg
      (keeps_applySettingsToGUI (keeps_of_eq h rfl rfl rfl rfl))
  · exact keeps_of_eq h rfl rfl rfl rfl

theorem createViewIn_step (st : KState) (s c : Nat) :
    (createViewIn st s c).nextDisplay = st.nextDisplay + 1 ∧
    (createViewIn st s c).activeContainer = st.activeContainer ∧
    (createViewIn st s c).containerViews = st.containerViews ++ [(c, st.nextDisplay)] ∧
    (createViewIn st s c).activeViews =
      if c = st.activeContainer then (c, st.nextDisplay) :: st.activeViews
      else st.activeViews := by
  obtain ⟨h1, h2, -, h4, h5, h6, -, -⟩ := createSessionView_frame st
  unfold createViewIn
  simp only []
  by_cases hc : c = (createSessionView st).1.activeContainer
  · rw [if_pos hc, if_pos (hc.trans h4)]
    refine ⟨h2, h4, ?_, ?_⟩
    · show (createSessionView st).1.containerViews ++ [(c, (createSessionView st).2)] = _
      rw [h6, h1]
    · show (c, (createSessionView st).2) :: (createSessionView st).1.activeViews = _
      rw [h5, h1]
  · rw [if_neg hc, if_neg (fun h => hc (h.trans h4.symm))]
    refine ⟨h2, h4, ?_, h5⟩
    show (createSessionView st).1.containerViews ++ [(c, (createSessionView st).2)] = _
    rw [h6, h1]

theorem views_createViewIn (st : KState) (s c : Nat) (v : List Nat)
    (h : Keeps Session.views v s st) :
    Keeps Session.views (v ++ [st.nextDisplay]) s (createViewIn st s c) := by
  obtain ⟨ho, hs⟩ := keeps_createSessionView (g := Session.views) (fun _ _ => rfl) h
  have hd := (createSessionView_frame st).1
  unfold createViewIn
  simp only
  split
  · refine ⟨?_, hs⟩
    rw [updSession_objs_self]
    cases hx : (createSessionView st).1.objs s with
    | none => rw [hx] at ho; simp at ho
    | some o =>
      rw [hx] at ho
      simp only [Option.map_some', Option.some.injEq] at ho ⊢
      rw [ho, hd]
  · refine ⟨?_, hs⟩
    rw [updSession_objs_self]
    cases hx : (createSessionView st).1.objs s with
    | none => rw [hx] at ho; simp at ho
    | some o =>
      rw [hx] at ho
      simp only [Option.map_some', Option.some.injEq] at ho ⊢
      rw [ho, hd]

theorem createViews_fold (s : Nat) : ∀ (cs : List Nat) (st : KState) (v : List Nat),
    Keeps Session.views v s st →
    Keeps Session.views (v ++ List.range' st.nextDisplay cs.length) s
      (cs.foldl (fun acc c => createViewIn acc s c) st) ∧
    (cs.foldl (fun acc c => createViewIn acc s c) st).nextDisplay
      = st.nextDisplay + cs.length ∧
    (cs.foldl (fun acc c => createViewIn acc s c) st).containerViews
      = st.containerViews ++ cs.zip (List.range' st.nextDisplay cs.length) ∧
    (st.activeContainer ∉ cs →
      (cs.foldl (fun acc c => createViewIn acc s c) st).activeViews = st.activeViews) ∧
    (cs.Nodup → st.activeContainer ∈ cs →
      (cs.foldl (fun acc c => createViewIn acc s c) st).activeViews
        = (st.activeContainer, st.nextDisplay + cs.indexOf st.activeContainer)
          :: st.activeViews) := by
  intro cs
  induction cs with
  | nil =>
    intro st v h
    simp only [List.foldl_nil, List.length_nil, List.range'_zero, List.append_nil,
      Nat.add_zero, List.zip_nil_left, List.not_mem_nil, not_false_eq_true, forall_const,
      false_implies, implies_true, and_true]
    exact h
  | cons c cs ih =>
    intro st v h
    obtain ⟨f1, f2, f3, f4⟩ := createViewIn_step st s c
    obtain ⟨i1, i2, i3, i4, i5⟩ := ih (createViewIn st s c) (v ++ [st.nextDisplay])
      (views_createViewIn st s c v h)
    rw [f1, f2, f3, f4] at *
    simp only [List.foldl_cons, List.length_cons]
    refine ⟨?_, ?_, ?_, ?_, ?_⟩
    · rw [List.range'_succ, List.append_cons]
      exact i1
    · rw [i2]
      omega
    · rw [i3, List.range'_succ, List.zip_cons_cons]
      simp
    · intro hn
      rw [List.mem_cons, not_or] at hn
      rw [i4 hn.2, if_neg (fun hc => hn.1 hc.symm)]
    · intro hnd hmem
      rw [List.nodup_cons] at hnd
      by_cases hc : c = st.activeContainer
      · have hnot : st.activeContainer ∉ cs := by
          rw [← hc]
          exact hnd.1
        rw [i4 hnot, if_pos hc, ← hc, List.indexOf_cons_self, Nat.add_zero]
      · have hin : st.activeContainer ∈ cs := by
          rcases List.mem_cons.mp hmem with h1 | h1
          · exact absurd h1.symm hc
          · exact h1
        rw [i5 hnd.2 hin, if_neg hc, List.indexOf_cons_ne _ hc]
        have he : st.nextDisplay + 1 + List.indexOf st.activeContainer cs
            = st.nextDisplay + (List.indexOf st.activeContainer cs + 1) := by omega
        rw [he]

theorem splitViewFor_step (c : Nat) (st : KState) (q : Nat) :
    (splitViewFor c st q).nextDisplay = st.nextDisplay + 1 ∧
    (splitViewFor c st q).containers = st.containers ∧
    (splitViewFor c st q).containerViews = st.containerViews ++ [(c, st.nextDisplay)] ∧
    (splitViewFor c st q).activeViews = (c, st.nextDisplay) :: st.activeViews := by
  obtain ⟨h1, h2, h3, -, h5, h6, -, -⟩ := createSessionView_frame st
  refine ⟨h2, h3, ?_, ?_⟩
  · show (createSessionView st).1.containerViews ++ [(c, (createSessionView st).2)] = _
    rw [h6, h1]
  · show (c, (createSessionView st).2) :: (createSessionView st).1.activeViews = _
    rw [h5, h1]

theorem views_splitViewFor (c : Nat) (st : KState) (q p : Nat) (w : List Nat)
    (h : Keeps Session.views w p st) :
    Keeps Session.views (w ++ if q = p then [st.nextDisplay] else []) p
      (splitViewFor c st q) := by
  obtain ⟨ho, hs⟩ := keeps_createSessionView (g := Session.views) (fun _ _ => rfl) h
  have hd := (createSessionView_frame st).1
  unfold splitViewFor
  simp only
  refine ⟨?_, hs⟩
  by_cases hq : q = p
  · subst hq
    rw [updSession_objs_self, if_pos rfl]
    cases hx : (createSessionView st).1.objs q with
    | none => rw [hx] at ho; simp at ho
    | some o =>
      rw [hx] at ho
      simp only [Option.map_some', Option.some.injEq] at ho ⊢
      rw [ho, hd]
  · rw [updSession_objs_other _ _ _ _ (fun h => hq h.symm), if_neg hq, List.append_nil]
    exact ho

theorem splitView_fold (c p : Nat) : ∀ (ss : List Nat) (st : KState) (w : List Nat),
    Keeps Session.views w p st →
    Keeps Session.views (w ++ newDisplaysFor p ss st.nextDisplay) p
      (ss.foldl (splitViewFor c) st) ∧
    (ss.foldl (splitViewFor c) st).containers = st.containers ∧
    (ss.foldl (splitViewFor c) st).containerViews
      = st.containerViews ++ (List.range' st.nextDisplay ss.length).map (fun d => (c, d)) := by
  intro ss
  induction ss with
  | nil =>
    intro st w h
    simp only [List.foldl_nil, newDisplaysFor, List.append_nil, List.length_nil,
      List.range'_zero, List.map_nil, and_self, and_true]
    exact h
  | cons q ss ih =>
    intro st w h
    obtain ⟨f1, f2, f3, -⟩ := splitViewFor_step c st q
    obtain ⟨i1, i2, i3⟩ := ih (splitViewFor c st q) _ (views_splitViewFor c st q p w h)
    rw [f1] at i1 i3
    simp only [List.foldl_cons, List.length_cons]
    refine ⟨?_, by rw [i2, f2], ?_⟩
    · unfold newDisplaysFor
      by_cases hq : q = p
      · rw [if_pos hq] at i1 ⊢
        rw [List.append_cons]
        exact i1
      · rw [if_neg hq] at i1 ⊢
        rw [List.append_nil] at i1
        exact i1
    · rw [i3, f3, List.range'_succ]
      simp

theorem newDisplaysFor_nodup (p : Nat) : ∀ (ss : List Nat) (d : Nat),
    (p ∉ ss → newDisplaysFor p ss d = []) ∧
    (ss.Nodup → p ∈ ss → newDisplaysFor p ss d = [d + ss.indexOf p]) := by
  intro ss
  induction ss with
  | nil =>
    intro d
    exact ⟨fun _ => rfl, fun _ h => absurd h (List.not_mem_nil p)⟩
  | cons q ss ih =>
    intro d
    obtain ⟨i1, i2⟩ := ih (d + 1)
    constructor
    · intro hn
      rw [List.mem_cons, not_or] at hn
      unfold newDisplaysFor
      rw [if_neg (fun h => hn.1 h.symm)]
      exact i1 hn.2
    · intro hnd hmem
      rw [List.nodup_cons] at hnd
      unfold newDisplaysFor
      by_cases hq : q = p
      · have hnot : p ∉ ss := by
          rw [← hq]
          exact hnd.1
        rw [if_pos hq, i1 hnot, hq, List.indexOf_cons_self, Nat.add_zero]
      · have hin : p ∈ ss := by
          rcases List.mem_cons.mp hmem with h1 | h1
          · exact absurd h1.symm hq
          · exact h1
        rw [if_neg hq, i2 hnd.2 hin, List.indexOf_cons_ne _ hq]
        have he : d + 1 + List.indexOf p ss = d + (List.indexOf p ss + 1) := by omega
        rw [he]

/-- C21: for a live session `s` that no activation can delete, with the views
`v`: `createViews(s)` creates one display per view container, numbered in
the order of the containers, adds each to its container and to the session, so
that with `k` containers the session has the `k` new views after `v`; the
display of the active container, and no other, becomes an active view.
`slotToggleSplitView(true)` adds one container, creates one display in it for
each entry of the session manager's list, each of which becomes the active view
of the new container in turn, and every session `p` gets the displays created
for its entries: exactly one when the list holds `p` once. -/
theorem createViews_one_view_per_container (st : KState) :
    (∀ s v, Keeps Session.views v s st →
      ((createViews st s).objs s).map Session.views
        = some (v ++ List.range' st.nextDisplay st.containers.length) ∧
      (createViews st s).containerViews
        = st.containerViews ++ st.containers.zip
            (List.range' st.nextDisplay st.containers.length) ∧
      (st.activeContainer ∉ st.containers →
        (createViews st s).activeViews = st.activeViews) ∧
      (st.containers.Nodup → st.activeContainer ∈ st.containers →
        (createViews st s).activeViews
          = (st.activeContainer, st.nextDisplay + st.containers.indexOf st.activeContainer)
            :: st.activeViews)) ∧
    (slotToggleSplitView st true).containers = st.containers ++ [st.nextContainer] ∧
    (slotToggleSplitView st true).containerViews
      = st.containerViews ++
        (List.range' st.nextDisplay st.manager.sessions.length).map
          (fun d => (st.nextContainer, d)) ∧
    (∀ p w, Keeps Session.views w p st →
      ((slotToggleSplitView st true).objs p).map Session.views
        = some (w ++ newDisplaysFor p st.manager.sessions st.nextDisplay)) ∧
    (∀ p, st.manager.sessions.Nodup → p ∈ st.manager.sessions →
      newDisplaysFor p st.manager.sessions st.nextDisplay
        = [st.nextDisplay + st.manager.sessions.indexOf p]) := by
  refine ⟨?_, ?_, ?_, ?_, ?_⟩
  · intro s v h
    obtain ⟨h1, -, h3, h4, h5⟩ := createViews_fold s st.containers st v h
    exact ⟨h1.1, h3, h4, h5⟩
  · unfold slotToggleSplitView
    simp only [if_true]
    have hk : ∀ (ss : List Nat) (x : KState),
        (ss.foldl (splitViewFor st.nextContainer) x).containers = x.containers := by
      intro ss
      induction ss with
      | nil => intro x; rfl
      | cons q ss ih =>
        intro x
        rw [List.foldl_cons, ih, (splitViewFor_step _ x q).2.1]
    rw [hk]
  · unfold slotToggleSplitView
    simp only [if_true]
    have hk : ∀ (ss : List Nat) (x : KState),
        (ss.foldl (splitViewFor st.nextContainer) x).containerViews = x.containerViews ++
          (List.range' x.nextDisplay ss.length).map (fun d => (st.nextContainer, d)) := by
      intro ss
      induction ss with
      | nil => intro x; simp
      | cons q ss ih =>
        intro x
        obtain ⟨f1, -, f3, -⟩ := splitViewFor_step st.nextContainer x q
        rw [List.foldl_cons, ih, f1, f3, List.length_cons, List.range'_succ]
        simp
    rw [hk]
  · intro p w h
    unfold slotToggleSplitView
    simp only [if_true]
    exact (splitView_fold st.nextContainer p st.manager.sessions
      { st with
        nextContainer := st.nextContainer + 1
        containers := st.containers ++ [st.nextContainer] } w
      (keeps_of_eq h rfl rfl rfl rfl)).1.1
  · intro p hnd hmem
    exact (newDisplaysFor_nodup p st.manager.sessions st.nextDisplay).2 hnd hmem

/-- Witness of C21: in the sample window (one container, next display 1)
`createViews` gives session 1 the view 1, and `slotToggleSplitView(true)` gives
session 2 the second of the three displays it creates. -/
theorem createViews_one_view_per_container_witness :
    ((createViews demoState 1).objs 1).map Session.views = some [1] ∧
    ((slotToggleSplitView demoState true).objs 2).map Session.views = some [2] :=
  ⟨((createViews_one_view_per_container demoState).1 1 [] ⟨rfl, Or.inl (by decide)⟩).1,
   (createViews_one_view_per_container demoState).2.2.2.1 2 [] ⟨rfl, Or.inl (by decide)⟩⟩

/-! ### C30: the bookkeeping of the registry -/

@[simp]
theorem returnToPrevious_detachEnabled (st : KState) (s : Nat) :
    (returnToPrevious st s).detachEnabled = st.detachEnabled := by
  rcases returnToPrevious_cases st s with ⟨-, h⟩ | ⟨-, h⟩ | ⟨p, -, -, h⟩ <;> rw [h]
  simp

@[simp]
theorem unregisterSession_detachEnabled (st : KState) (s : Nat) :
    (unregisterSession st s).1.detachEnabled = st.detachEnabled := rfl

@[simp]
theorem activateNeighbour_detachEnabled (st : KState) (idx : Int) :
    (activateNeighbour st idx).detachEnabled = st.detachEnabled := by
  unfold activateNeighbour
  simp only
  split
  · simp
  · split <;> simp

@[simp]
theorem pickNextActive_detachEnabled (st : KState) (s : Nat) (idx : Int) :
    (pickNextActive st s idx).detachEnabled = st.detachEnabled := by
  unfold pickNextActive
  by_cases hp : st.se_previous = some s <;> by_cases hs : st.se = some s
  · simp only [hp, if_true, hs]
    split <;> simp
  · simp only [hp, if_true, hs, if_false]
    cases hse : st.se <;> simp
  · simp only [hp, if_false, hs, if_true]
    split <;> simp
  · simp only [hp, if_false, hs]
    cases hse : st.se <;> simp

@[simp]
theorem returnToPrevious_nextAction (st : KState) (s : Nat) :
    (returnToPrevious st s).nextAction = st.nextAction := by
  rcases returnToPrevious_cases st s with ⟨-, h⟩ | ⟨-, h⟩ | ⟨p, -, -, h⟩ <;> rw [h]
  simp

@[simp]
theorem unregisterSession_nextAction (st : KState) (s : Nat) :
    (unregisterSession st s).1.nextAction = st.nextAction := rfl

@[simp]
theorem activateNeighbour_nextAction (st : KState) (idx : Int) :
    (activateNeighbour st idx).nextAction = st.nextAction := by
  unfold activateNeighbour
  simp only
  split
  · simp
  · split <;> simp

@[simp]
theorem pickNextActive_nextAction (st : KState) (s : Nat) (idx : Int) :
    (pickNextActive st s idx).nextAction = st.nextAction := by
  unfold pickNextActive
  by_cases hp : st.se_previous = some s <;> by_cases hs : st.se = some s
  · simp only [hp, if_true, hs]
    split <;> simp
  · simp only [hp, if_true, hs, if_false]
    cases hse : st.se <;> simp
  · simp only [hp, if_false, hs, if_true]
    split <;> simp
  · simp only [hp, if_false, hs]
    cases hse : st.se <;> simp

theorem doneSession_detach (st : KState) (s : Nat) :
    (doneSession st s).detachEnabled
      = (if (st.sessions.items.erase s).length = 1 then false else st.detachEnabled) ∧
    (doneSession st s).nextAction = st.nextAction := by
  have hitems : (pickNextActive (unregisterSession (returnToPrevious st s) s).1 s
      (unregisterSession (returnToPrevious st s) s).2).sessions.items
        = st.sessions.items.erase s := by
    rw [pickNextActive_items, unregisterSession_items, returnToPrevious_items]
  unfold doneSession
  simp only [Q3PtrList.count, hitems]
  split
  · constructor
    · rfl
    · show (pickNextActive _ s _).nextAction = _
      simp
  · simp

theorem makeGUI_registry (st : KState) :
    (makeGUI st).session2action = st.session2action ∧
    (makeGUI st).action2session = st.action2session ∧
    (makeGUI st).nextAction = st.nextAction ∧
    (makeGUI st).detachEnabled = st.detachEnabled := by
  unfold makeGUI
  split
  · exact ⟨rfl, rfl, rfl, rfl⟩
  · simp only
    split <;> exact ⟨rfl, rfl, rfl, rfl⟩

theorem registerSession_registry (st : KState) (s : Nat) (t : String) :
    (registerSession st s t).session2action = (s, st.nextAction) :: st.session2action ∧
    (registerSession st s t).action2session = (st.nextAction, s) :: st.action2session ∧
    (registerSession st s t).nextAction = st.nextAction + 1 ∧
    (registerSession st s t).detachEnabled
      = (if 1 < st.sessions.items.length + 1 then true else st.detachEnabled) := by
  have hl : (st.sessions.append s).count = st.sessions.items.length + 1 := by
    simp [Q3PtrList.append, Q3PtrList.count]
  unfold registerSession enableMasterModeConnections disableMasterModeConnections
  simp only [hl, updSession_sessions]
  by_cases h1 : st.sessions.items.length + 1 > 1
  · have h2 : 1 < st.sessions.items.length + 1 := h1
    simp only [h1, h2, if_true]
    split
    · split
      · exact ⟨(makeGUI_registry _).1, (makeGUI_registry _).2.1, (makeGUI_registry _).2.2.1, rfl⟩
      · exact ⟨(makeGUI_registry _).1, (makeGUI_registry _).2.1, (makeGUI_registry _).2.2.1, rfl⟩
    · split <;> exact ⟨rfl, rfl, rfl, rfl⟩
  · have h2 : ¬ 1 < st.sessions.items.length + 1 := h1
    simp only [h1, h2, if_false]
    split <;> exact ⟨rfl, rfl, rfl, rfl⟩

theorem dictFind_iff_mem (d : Q3PtrDict) (hnd : (d.map Prod.fst).Nodup) (k v : Nat) :
    dictFind d k = some v ↔ (k, v) ∈ d := by
  constructor
  · exact dictFind_some_mem d k v
  · intro h
    cases hf : dictFind d k with
    | none => exact absurd rfl ((dictFind_none_iff d k).mp hf (k, v) h)
    | some w => rw [dict_pair_unique d hnd k v w h (dictFind_some_mem d k w hf)]

theorem mem_keys_iff (d : Q3PtrDict) (k : Nat) :
    k ∈ d.map Prod.fst ↔ ∃ v, (k, v) ∈ d := by
  rw [List.mem_map]
  constructor
  · rintro ⟨e, he, rfl⟩
    exact ⟨e.2, he⟩
  · rintro ⟨v, hv⟩
    exact ⟨(k, v), hv, rfl⟩

theorem registryInv_empty (st : KState) (h1 : st.sessions.items = [])
    (h2 : st.session2action = []) (h3 : st.action2session = [])
    (h4 : st.detachEnabled = false) : RegistryInv st := by
  unfold RegistryInv RegistryOk
  rw [h1, h2, h3, h4]
  simp

theorem registryInv_register (st : KState) (s : Nat) (t : String) (h : RegistryInv st)
    (hnew : s ∉ st.sessions.items) : RegistryInv (registerSession st s t) := by
  obtain ⟨⟨hnd, hk1, hk2, hm1, hm2⟩, hset, hbound, hdet⟩ := h
  obtain ⟨r1, r2, r3, r4⟩ := registerSession_registry st s t
  have ritems := (registerSession_frame st s t).1
  unfold RegistryInv RegistryOk
  rw [r1, r2, r3, r4, ritems]
  refine ⟨⟨?_, ?_, ?_, ?_, ?_⟩, ?_, ?_, ?_⟩
  · rw [List.nodup_append]
    refine ⟨hnd, List.nodup_singleton s, ?_⟩
    intro x hx hx2
    rw [List.mem_singleton] at hx2
    exact hnew (hx2 ▸ hx)
  · rw [List.map_cons, List.nodup_cons]
    exact ⟨fun hin => hnew ((hset s).mpr hin), hk1⟩
  · rw [List.map_cons, List.nodup_cons]
    refine ⟨?_, hk2⟩
    intro hin
    rw [List.mem_map] at hin
    obtain ⟨e, he, he2⟩ := hin
    have := hbound e he
    simp only at he2
    omega
  · intro e he
    rcases List.mem_cons.mp he with he | he
    · rw [he]
      exact List.mem_cons_self _ _
    · exact List.mem_cons_of_mem _ (hm1 e he)
  · intro e he
    rcases List.mem_cons.mp he with he | he
    · rw [he]
      exact List.mem_cons_self _ _
    · exact List.mem_cons_of_mem _ (hm2 e he)
  · intro p
    rw [List.mem_append, List.mem_singleton, List.map_cons, List.mem_cons, hset p]
    exact or_comm
  · intro e he
    rcases List.mem_cons.mp he with he | he
    · rw [he]
      exact Nat.lt_succ_self _
    · exact Nat.lt_succ_of_lt (hbound e he)
  · rw [List.length_append, List.length_singleton]
    by_cases hl : 1 < st.sessions.items.length + 1
    · simp [hl]
    · have h0 : ¬ 1 < st.sessions.items.length := by omega
      rw [if_neg hl]
      constructor
      · intro hd
        exact absurd (hdet.mp hd) h0
      · intro hd
        exact absurd hd hl

theorem registryInv_done (st : KState) (s : Nat) (h : RegistryInv st)
    (hin : s ∈ st.sessions.items) : RegistryInv (doneSession st s) := by
  obtain ⟨⟨hnd, hk1, hk2, hm1, hm2⟩, hset, hbound, hdet⟩ := h
  obtain ⟨-, -, ditems, ds2a, da2s⟩ := doneSession_fields st s
  obtain ⟨ddet, dnext⟩ := doneSession_detach st s
  obtain ⟨r, hr⟩ : ∃ r, (s, r) ∈ st.session2action := (mem_keys_iff _ s).mp ((hset s).mp hin)
  have hfind : dictFind st.session2action s = some r := (dictFind_iff_mem _ hk1 s r).mpr hr
  rw [hfind] at da2s
  simp only at da2s
  unfold RegistryInv RegistryOk
  rw [ditems, ds2a, da2s, ddet, dnext]
  refine ⟨⟨hnd.erase s, dictRemove_keys_nodup _ s hk1, dictRemove_keys_nodup _ r hk2, ?_, ?_⟩,
    ?_, ?_, ?_⟩
  · intro e he
    obtain ⟨he1, he2⟩ := (mem_dictRemove _ hk1 s e).mp he
    refine (mem_dictRemove _ hk2 r (e.2, e.1)).mpr ⟨hm1 e he1, ?_⟩
    intro heq
    simp only at heq
    apply he2
    have h1 : (r, e.1) ∈ st.action2session := by
      have := hm1 e he1
      rw [heq] at this
      exact this
    exact dict_pair_unique _ hk2 r e.1 s h1 (hm1 (s, r) hr)
  · intro e he
    obtain ⟨he1, he2⟩ := (mem_dictRemove _ hk2 r e).mp he
    refine (mem_dictRemove _ hk1 s (e.2, e.1)).mpr ⟨hm2 e he1, ?_⟩
    intro heq
    simp only at heq
    apply he2
    have h1 : (s, e.1) ∈ st.session2action := by
      have := hm2 e he1
      rw [heq] at this
      exact this
    exact dict_pair_unique _ hk1 s e.1 r h1 hr
  · intro p
    rw [hnd.mem_erase_iff, hset p, mem_keys_iff, mem_keys_iff]
    constructor
    · rintro ⟨hne, v, hv⟩
      exact ⟨v, (mem_dictRemove _ hk1 s (p, v)).mpr ⟨hv, hne⟩⟩
    · rintro ⟨v, hv⟩
      obtain ⟨h1, h2⟩ := (mem_dictRemove _ hk1 s (p, v)).mp hv
      exact ⟨h2, v, h1⟩
  · intro e he
    exact hbound e (dictRemove_subset _ r e he)
  · have hlen : (st.sessions.items.erase s).length + 1 = st.sessions.items.length := by
      have h0 : 0 < st.sessions.items.length := List.length_pos_of_mem hin
      rw [List.length_erase_of_mem hin]
      omega
    by_cases hl : (st.sessions.items.erase s).length = 1
    · rw [if_pos hl, hl]
      simp
    · rw [if_neg hl, hdet]
      omega

theorem reachable_inv (st : KState) (h : Reachable st) : RegistryInv st := by
  induction h with
  | empty st h1 h2 h3 h4 => exact registryInv_empty st h1 h2 h3 h4
  | add fuel st s st2 _ hnew hadd ih =>
    unfold addSession at hadd
    simp only [] at hadd
    cases hloop : uniqueTitleLoop (sessionTitles st) (st.i18ncNo (getSession st s).title) fuel 1
      (getSession st s).title with
    | none =>
      rw [hloop] at hadd
      simp at hadd
    | some t =>
      rw [hloop] at hadd
      simp only [Option.map_some', Option.some.injEq] at hadd
      rw [← hadd]
      exact registryInv_register st s t ih hnew
  | done st s _ hin ih => exact registryInv_done st s ih hin

end Konsole
